import Mathlib

/-! # mal-sync: stage, verify, upload, clean up

A shallow embedding of the Go program `mal-sync` (packages `common`,
`alertmanager`, `mimirrules`, `lokirules` and `main`) together with
theorems about its three `Sync` workflows and its flag resolution.

The operating system (filesystem calls, the external command runner, the
process id and the environment) is a record `OS σ` of functions over an
arbitrary state type `σ`: every theorem quantified over `os : OS σ` and a
start state holds for every filesystem state and every behaviour of the
external tools. Each program is a function from a start state to a `Run`:
the returned value, the list of observable events (log lines, system calls
with their outcome, external commands with their output and outcome) and
the final state.
-/

/-! ## Go values -/

/-- A Go `error` value that is not nil: its message (`err.Error()`) and
whether `os.IsExist` reports true for it. -/
structure GoError where
  msg : String
  isExist : Bool
deriving DecidableEq

/-- Go's `error` interface: `none` is `nil`. -/
abbrev error := Option GoError

instance {ε α : Type} [DecidableEq ε] [DecidableEq α] : DecidableEq (Except ε α)
  | .ok a, .ok b => if h : a = b then isTrue (by rw [h]) else isFalse (by simpa using h)
  | .error a, .error b => if h : a = b then isTrue (by rw [h]) else isFalse (by simpa using h)
  | .ok _, .error _ => isFalse (by simp)
  | .error _, .ok _ => isFalse (by simp)

/-- Go's `fmt.Errorf` with the format already applied: a fresh error wrapping
nothing that `os.IsExist` recognises. -/
def Errorf (msg : String) : GoError := ⟨msg, false⟩

/-- Go's `os.FileMode` bits (a `uint32`). -/
abbrev FileMode := Nat

namespace FileMode

def ModeDir : FileMode := 2 ^ 31
def ModeSymlink : FileMode := 2 ^ 27
def ModeDevice : FileMode := 2 ^ 26
def ModeNamedPipe : FileMode := 2 ^ 25
def ModeSocket : FileMode := 2 ^ 24
def ModeSetuid : FileMode := 2 ^ 23
def ModeSetgid : FileMode := 2 ^ 22
def ModeCharDevice : FileMode := 2 ^ 21
def ModeSticky : FileMode := 2 ^ 20
def ModeIrregular : FileMode := 2 ^ 19
def ModePerm : FileMode := 0o777

def ModeType : FileMode :=
  ModeDir ||| ModeSymlink ||| ModeNamedPipe ||| ModeSocket ||| ModeDevice |||
    ModeCharDevice ||| ModeIrregular

/-- Go's `m.IsDir()`. -/
def IsDir (m : FileMode) : Bool := m &&& ModeDir != 0

/-- Go's `m.IsRegular()`. -/
def IsRegular (m : FileMode) : Bool := m &&& ModeType == 0

end FileMode

/-- What `os.Stat` returns on success, as far as the program looks at it. -/
structure FileInfo where
  Mode : FileMode
deriving DecidableEq

/-- Go's `fi.IsDir()`. -/
def FileInfo.IsDir (fi : FileInfo) : Bool := FileMode.IsDir fi.Mode

/-- One entry of `os.ReadDir`. -/
structure DirEntry where
  Name : String
  IsDir : Bool
deriving DecidableEq

/-- An open file (`*os.File`), identified by its descriptor. -/
abbrev File := Nat

/-! ## Package `strings` and `path/filepath` (Unix) -/

namespace strings

/-- Go's `strings.HasSuffix`. -/
def HasSuffix (s suffix : String) : Bool := suffix.data.isSuffixOf s.data

/-- Go's `strings.Join`. -/
def Join (elems : List String) (sep : String) : String := sep.intercalate elems

end strings

namespace filepath

/-- Splits a path at every separator. -/
def splitSep : List Char → List (List Char)
  | [] => [[]]
  | c :: cs =>
    if c = '/' then [] :: splitSep cs
    else
      match splitSep cs with
      | [] => [[c]]
      | seg :: rest => (c :: seg) :: rest

/-- One step of `Clean`: `out` holds the elements kept so far, last first. -/
def cleanStep (rooted : Bool) (out : List (List Char)) (el : List Char) : List (List Char) :=
  if el = [] ∨ el = ['.'] then out
  else if el = ['.', '.'] then
    match out with
    | [] => if rooted then [] else [el]
    | top :: rest =>
      if top = ['.', '.'] then (if rooted then out else el :: out) else rest
  else el :: out

/-- Go's `filepath.Clean`: the shortest equivalent path by lexical processing. -/
def Clean (path : String) : String :=
  let rooted := path.data.head? = some '/'
  let kept := ((splitSep path.data).foldl (cleanStep rooted) []).reverse
  let body := "/".intercalate (kept.map String.mk)
  if rooted then "/" ++ body
  else if kept = [] then "."
  else body

/-- Go's `filepath.Join`: joins the elements from the first non-empty one on
and cleans the result; the empty string when every element is empty. -/
def Join (el : List String) : String :=
  match el.dropWhile (fun e => e = "") with
  | [] => ""
  | es => Clean ("/".intercalate es)

/-- Go's `filepath.Base`: the last element of the path. -/
def Base (path : String) : String :=
  if path = "" then "."
  else
    let r := path.data.reverse.dropWhile (fun c => c = '/')
    let b := (r.takeWhile (fun c => c ≠ '/')).reverse
    if b = [] then "/" else String.mk b

end filepath

/-! ## The operating system and the observable events -/

/-- A call into the filesystem. `Copy dst src` is `io.Copy(dst, src)`. -/
inductive Call where
  | MkdirAll (path : String) (perm : FileMode)
  | Stat (name : String)
  | ReadDir (name : String)
  | Open (name : String)
  | Create (name : String)
  | Copy (dst src : File)
  | Chmod (name : String) (mode : FileMode)
  | Close (f : File)
  | RemoveAll (path : String)
deriving DecidableEq

/-- What a run does that can be seen from outside, in order. -/
inductive Event where
  | Log (line : String)
  | Sys (call : Call) (err : error)
  | Exec (name : String) (args : List String) (output : String) (err : error)
deriving DecidableEq

/-- The environment of the process: every call may read and change the
state `σ` and may fail. -/
structure OS (σ : Type) where
  MkdirAll : String → FileMode → σ → error × σ
  Stat : String → σ → Except GoError FileInfo × σ
  ReadDir : String → σ → Except GoError (List DirEntry) × σ
  Open : String → σ → Except GoError File × σ
  Create : String → σ → Except GoError File × σ
  Copy : File → File → σ → error × σ
  Chmod : String → FileMode → σ → error × σ
  Close : File → σ → error × σ
  RemoveAll : String → σ → error × σ
  CombinedOutput : String → List String → σ → (String × error) × σ
  Getpid : Nat
  Getenv : String → String

/-- The outcome of running a piece of the program from some state. -/
structure Run (σ α : Type) where
  val : α
  events : List Event
  st : σ

/-- A piece of the program: a function from the start state to its run. -/
def Prog (σ α : Type) : Type := σ → Run σ α

namespace Prog

variable {σ α β : Type}

/-- Returns a value without doing anything. -/
def ret (a : α) : Prog σ α := fun s => ⟨a, [], s⟩

/-- Sequencing: the events of the second part follow those of the first. -/
def andThen (x : Prog σ α) (f : α → Prog σ β) : Prog σ β := fun s =>
  let r := x s
  let r2 := f r.val r.st
  ⟨r2.val, r.events ++ r2.events, r2.st⟩

instance : Monad (Prog σ) where
  pure := ret
  bind := andThen

end Prog

/-- The error part of a result. -/
def errOf {α : Type} : Except GoError α → error
  | .error e => some e
  | .ok _ => none

section primitives

variable {σ : Type}

/-- Go's `log.Printf` / `log.Println` with the line already formatted. -/
def Printf (line : String) : Prog σ Unit := fun s => ⟨(), [Event.Log line], s⟩

/-- A filesystem call that returns only an error. -/
def sysCall (c : Call) (op : σ → error × σ) : Prog σ error := fun s =>
  let r := op s
  ⟨r.1, [Event.Sys c r.1], r.2⟩

/-- A filesystem call that returns a value or an error. -/
def sysCallVal {α : Type} (c : Call) (op : σ → Except GoError α × σ) :
    Prog σ (Except GoError α) := fun s =>
  let r := op s
  ⟨r.1, [Event.Sys c (errOf r.1)], r.2⟩

/-- Go's `exec.Command(name, args...).CombinedOutput()`. -/
def CombinedOutput (os : OS σ) (name : String) (args : List String) :
    Prog σ (String × error) := fun s =>
  let r := os.CombinedOutput name args s
  ⟨r.1, [Event.Exec name args r.1.1 r.1.2], r.2⟩

/-- A Go `for _, x := range xs` loop whose body may leave the enclosing
function with an error (`.error`) or go on with the updated loop-carried
variables (`.ok`). -/
def forRange {α β : Type} (body : α → β → Prog σ (Except GoError β)) :
    List α → β → Prog σ (Except GoError β)
  | [], acc => pure (.ok acc)
  | x :: xs, acc => do
    match ← body x acc with
    | .error e => pure (.error e)
    | .ok acc2 => forRange body xs acc2

end primitives

/-! ## Package `common` -/

namespace common

variable {σ : Type}

/-- The function `common.ExecuteCommand`: runs a command and returns its combined
output and an error. -/
def ExecuteCommand (os : OS σ) (name : String) (args : List String) :
    Prog σ (String × error) := do
  Printf ("Executing command: " ++ name ++ " " ++ strings.Join args " ")
  let (output, err) ← CombinedOutput os name args
  match err with
  | some err =>
    Printf ("Command failed. Output:\n" ++ output)
    pure (output, some (Errorf
      ("command " ++ name ++ " " ++ strings.Join args " " ++ " failed: " ++ err.msg)))
  | none =>
    Printf "Command successful."
    pure (output, none)

/-- The function `common.CopyFile`: copies a file from `src` to `dst`. The two deferred
`Close` calls run after the result is computed, the destination first. -/
def CopyFile (os : OS σ) (src dst : String) : Prog σ error := do
  match ← sysCallVal (.Stat src) (os.Stat src) with
  | .error err => pure (some (Errorf ("failed to stat source file " ++ src ++ ": " ++ err.msg)))
  | .ok sourceFileStat =>
    if !FileMode.IsRegular sourceFileStat.Mode then
      pure (some (Errorf (src ++ " is not a regular file")))
    else
      match ← sysCallVal (.Open src) (os.Open src) with
      | .error err =>
        pure (some (Errorf ("failed to open source file " ++ src ++ ": " ++ err.msg)))
      | .ok source =>
        let result ← (do
          match ← sysCallVal (.Create dst) (os.Create dst) with
          | .error err =>
            pure (some (Errorf ("failed to create destination file " ++ dst ++ ": " ++ err.msg)))
          | .ok destination =>
            let result ← (do
              match ← sysCall (.Copy destination source) (os.Copy destination source) with
              | some err =>
                pure (some (Errorf
                  ("failed to copy data from " ++ src ++ " to " ++ dst ++ ": " ++ err.msg)))
              | none =>
                sysCall (.Chmod dst sourceFileStat.Mode) (os.Chmod dst sourceFileStat.Mode))
            let _ ← sysCall (.Close destination) (os.Close destination)
            pure result)
        let _ ← sysCall (.Close source) (os.Close source)
        pure result

/-- The function `common.EnsureDir`: creates a directory if it does not already exist. -/
def EnsureDir (os : OS σ) (dirName : String) : Prog σ error := do
  match ← sysCall (.MkdirAll dirName 0o750) (os.MkdirAll dirName 0o750) with
  | some err =>
    if !err.isExist then
      pure (some (Errorf ("failed to create directory " ++ dirName ++ ": " ++ err.msg)))
    else pure none
  | none => pure none

end common

/-! ## Package `mimirrules` -/

namespace mimirrules

variable {σ : Type}

def mimirtoolCmd : String := "mimirtool"

/-- The slice `lintArgs` of the lint loop. -/
def lintArgs (ruleFile : String) : List String := ["rules", "lint", ruleFile]

/-- The slice `syncArgs` of step 4. -/
def syncArgs (mimirAddress mimirID syncTempDir : String) : List String :=
  ["rules", "sync", "--address=" ++ mimirAddress, "--id=" ++ mimirID,
    "--rule-dirs=" ++ syncTempDir]

/-- The body of the loop over the directory entries (step 2 of `Sync`):
`tempRuleFiles` is the loop-carried slice. -/
def copyEntry (os : OS σ) (rulesPath syncTempDir : String) (entry : DirEntry)
    (tempRuleFiles : List String) : Prog σ (Except GoError (List String)) := do
  if !entry.IsDir &&
      (strings.HasSuffix entry.Name ".yaml" || strings.HasSuffix entry.Name ".yml") then
    let srcPath := filepath.Join [rulesPath, entry.Name]
    let dstPath := filepath.Join [syncTempDir, entry.Name]
    Printf ("Copying rule file " ++ srcPath ++ " to " ++ dstPath)
    match ← common.CopyFile os srcPath dstPath with
    | some err =>
      pure (.error (Errorf
        ("failed to copy rule file " ++ srcPath ++ " to " ++ dstPath ++ ": " ++ err.msg)))
    | none => pure (.ok (tempRuleFiles ++ [dstPath]))
  else pure (.ok tempRuleFiles)

/-- The body of the lint loop (step 3 of `Sync`). -/
def lintFile (os : OS σ) (ruleFile : String) (_ : Unit) : Prog σ (Except GoError Unit) := do
  Printf ("Linting rule file: " ++ ruleFile)
  let (output, err) ← common.ExecuteCommand os mimirtoolCmd (lintArgs ruleFile)
  match err with
  | some err =>
    Printf ("Linting failed for " ++ ruleFile ++ ":\n" ++ output)
    pure (.error (Errorf ("linting failed for rule file " ++ ruleFile ++ ": " ++ err.msg)))
  | none =>
    Printf ("Linting successful for " ++ ruleFile)
    pure (.ok ())

/-- Steps 3 and 4 of `Sync`: lint every staged file, then sync. -/
def lintAndSync (os : OS σ) (mimirAddress mimirID syncTempDir : String)
    (tempRuleFiles : List String) : Prog σ error := do
  Printf ("Copied " ++ toString tempRuleFiles.length ++ " rule file(s) to " ++ syncTempDir)
  Printf "Linting Mimir rule files..."
  match ← forRange (lintFile os) tempRuleFiles () with
  | .error err => pure (some err)
  | .ok _ =>
    Printf "Syncing Mimir rules with Mimir..."
    let (output, err) ← common.ExecuteCommand os mimirtoolCmd
      (syncArgs mimirAddress mimirID syncTempDir)
    match err with
    | some err =>
      pure (some (Errorf
        ("failed to sync Mimir rules with Mimir: " ++ err.msg ++ "\nOutput:\n" ++ output)))
    | none =>
      Printf "Mimir rules successfully synced."
      pure none

/-- Steps 2 to 4 of `Sync`, which run once the deferred cleanup is
registered. -/
def syncSteps (os : OS σ) (rulesPath mimirAddress mimirID syncTempDir : String) :
    Prog σ error := do
  Printf ("Using temporary directory: " ++ syncTempDir)
  match ← sysCallVal (.Stat rulesPath) (os.Stat rulesPath) with
  | .error err =>
    pure (some (Errorf ("failed to stat rules path " ++ rulesPath ++ ": " ++ err.msg)))
  | .ok fileInfo =>
    if fileInfo.IsDir then do
      Printf ("Processing rules from directory: " ++ rulesPath)
      match ← sysCallVal (.ReadDir rulesPath) (os.ReadDir rulesPath) with
      | .error err =>
        pure (some (Errorf ("failed to read rules directory " ++ rulesPath ++ ": " ++ err.msg)))
      | .ok entries =>
        match ← forRange (copyEntry os rulesPath syncTempDir) entries [] with
        | .error err => pure (some err)
        | .ok tempRuleFiles =>
          if tempRuleFiles.length = 0 then do
            Printf ("No .yaml or .yml files found in directory " ++ rulesPath ++
              ". Nothing to sync.")
            pure none
          else lintAndSync os mimirAddress mimirID syncTempDir tempRuleFiles
    else
      if !(strings.HasSuffix rulesPath ".yaml" || strings.HasSuffix rulesPath ".yml") then
        pure (some (Errorf
          ("rules.path points to a file but it is not a .yaml or .yml file: " ++ rulesPath)))
      else do
        let dstPath := filepath.Join [syncTempDir, filepath.Base rulesPath]
        Printf ("Copying single rule file " ++ rulesPath ++ " to " ++ dstPath)
        match ← common.CopyFile os rulesPath dstPath with
        | some err =>
          pure (some (Errorf
            ("failed to copy rule file " ++ rulesPath ++ " to " ++ dstPath ++ ": " ++ err.msg)))
        | none => lintAndSync os mimirAddress mimirID syncTempDir [dstPath]

/-- The deferred function of `Sync`: removes the temporary directory and
only warns when that fails. -/
def cleanup (os : OS σ) (syncTempDir : String) : Prog σ Unit := do
  Printf ("Cleaning up temporary directory: " ++ syncTempDir)
  match ← sysCall (.RemoveAll syncTempDir) (os.RemoveAll syncTempDir) with
  | some err =>
    Printf ("Warning: failed to clean up temporary directory " ++ syncTempDir ++ ": " ++ err.msg)
  | none => pure ()

/-- The temporary directory of a run. -/
def syncTempDir (os : OS σ) (tempBaseDir : String) : String :=
  filepath.Join [tempBaseDir, "mal-sync-mimirrules-" ++ toString os.Getpid]

/-- The function `mimirrules.Sync`: performs the Mimir rules synchronization. -/
def Sync (os : OS σ) (rulesPath mimirAddress mimirID namespaceArg tempBaseDir : String) :
    Prog σ error := do
  Printf ("Starting Mimir rules sync for Mimir instance: " ++ mimirAddress ++ " (ID: " ++
    mimirID ++ "), Namespace: " ++ namespaceArg)
  Printf ("Rules path: " ++ rulesPath)
  match ← common.EnsureDir os (syncTempDir os tempBaseDir) with
  | some err =>
    pure (some (Errorf ("failed to create temporary sync directory " ++
      syncTempDir os tempBaseDir ++ ": " ++ err.msg)))
  | none =>
    let result ← syncSteps os rulesPath mimirAddress mimirID (syncTempDir os tempBaseDir)
    cleanup os (syncTempDir os tempBaseDir)
    pure result

end mimirrules

/-! ## Package `lokirules` -/

namespace lokirules

variable {σ : Type}

def lokitoolCmd : String := "lokitool"

/-- The slice `lintArgs` of the lint loop. -/
def lintArgs (ruleFile : String) : List String := ["rules", "lint", ruleFile]

/-- The slice `syncArgs` of step 4. -/
def syncArgs (lokiAddress orgID syncTempDir : String) : List String :=
  ["rules", "sync", "--address=" ++ lokiAddress, "--org-id=" ++ orgID,
    "--rule-dirs=" ++ syncTempDir]

/-- The body of the loop over the directory entries (step 2 of `Sync`):
`tempRuleFiles` is the loop-carried slice. -/
def copyEntry (os : OS σ) (rulesPath syncTempDir : String) (entry : DirEntry)
    (tempRuleFiles : List String) : Prog σ (Except GoError (List String)) := do
  if !entry.IsDir &&
      (strings.HasSuffix entry.Name ".yaml" || strings.HasSuffix entry.Name ".yml") then
    let srcPath := filepath.Join [rulesPath, entry.Name]
    let dstPath := filepath.Join [syncTempDir, entry.Name]
    Printf ("Copying rule file " ++ srcPath ++ " to " ++ dstPath)
    match ← common.CopyFile os srcPath dstPath with
    | some err =>
      pure (.error (Errorf
        ("failed to copy rule file " ++ srcPath ++ " to " ++ dstPath ++ ": " ++ err.msg)))
    | none => pure (.ok (tempRuleFiles ++ [dstPath]))
  else pure (.ok tempRuleFiles)

/-- The body of the lint loop (step 3 of `Sync`). -/
def lintFile (os : OS σ) (ruleFile : String) (_ : Unit) : Prog σ (Except GoError Unit) := do
  Printf ("Linting rule file: " ++ ruleFile)
  let (output, err) ← common.ExecuteCommand os lokitoolCmd (lintArgs ruleFile)
  match err with
  | some err =>
    Printf ("Linting failed for " ++ ruleFile ++ ":\n" ++ output)
    pure (.error (Errorf ("linting failed for rule file " ++ ruleFile ++ ": " ++ err.msg)))
  | none =>
    Printf ("Linting successful for " ++ ruleFile)
    pure (.ok ())

/-- Steps 3 and 4 of `Sync`: lint every staged file, then sync. -/
def lintAndSync (os : OS σ) (lokiAddress orgID syncTempDir : String)
    (tempRuleFiles : List String) : Prog σ error := do
  Printf ("Copied " ++ toString tempRuleFiles.length ++ " rule file(s) to " ++ syncTempDir)
  Printf "Linting Loki rule files..."
  match ← forRange (lintFile os) tempRuleFiles () with
  | .error err => pure (some err)
  | .ok _ =>
    Printf "Syncing Loki rules with Loki..."
    if tempRuleFiles.length = 0 then
      Printf ("No rule files to sync. If --rule-dirs is empty, lokitool might remove all " ++
        "rules for the given org-id. Proceeding with empty rule set.")
    else pure ()
    let (output, err) ← common.ExecuteCommand os lokitoolCmd
      (syncArgs lokiAddress orgID syncTempDir)
    match err with
    | some err =>
      pure (some (Errorf
        ("failed to sync Loki rules with Loki: " ++ err.msg ++ "\nOutput:\n" ++ output)))
    | none =>
      Printf "Loki rules synced successfully."
      pure none

/-- Steps 2 to 4 of `Sync`, which run once the deferred cleanup is
registered. -/
def syncSteps (os : OS σ) (rulesPath lokiAddress orgID syncTempDir : String) :
    Prog σ error := do
  Printf ("Using temporary directory: " ++ syncTempDir)
  match ← sysCallVal (.Stat rulesPath) (os.Stat rulesPath) with
  | .error err =>
    pure (some (Errorf ("failed to stat rules path " ++ rulesPath ++ ": " ++ err.msg)))
  | .ok fileInfo =>
    if fileInfo.IsDir then do
      Printf ("Processing rules from directory: " ++ rulesPath)
      match ← sysCallVal (.ReadDir rulesPath) (os.ReadDir rulesPath) with
      | .error err =>
        pure (some (Errorf ("failed to read rules directory " ++ rulesPath ++ ": " ++ err.msg)))
      | .ok entries =>
        match ← forRange (copyEntry os rulesPath syncTempDir) entries [] with
        | .error err => pure (some err)
        | .ok tempRuleFiles =>
          if tempRuleFiles.length = 0 then do
            Printf ("No .yaml or .yml files found in directory " ++ rulesPath ++
              ". Nothing to sync.")
            pure none
          else lintAndSync os lokiAddress orgID syncTempDir tempRuleFiles
    else
      if !(strings.HasSuffix rulesPath ".yaml" || strings.HasSuffix rulesPath ".yml") then
        pure (some (Errorf
          ("rules.path points to a file but it is not a .yaml or .yml file: " ++ rulesPath)))
      else do
        let dstPath := filepath.Join [syncTempDir, filepath.Base rulesPath]
        Printf ("Copying single rule file " ++ rulesPath ++ " to " ++ dstPath)
        match ← common.CopyFile os rulesPath dstPath with
        | some err =>
          pure (some (Errorf
            ("failed to copy rule file " ++ rulesPath ++ " to " ++ dstPath ++ ": " ++ err.msg)))
        | none => lintAndSync os lokiAddress orgID syncTempDir [dstPath]

/-- The deferred function of `Sync`: removes the temporary directory and
only warns when that fails. -/
def cleanup (os : OS σ) (syncTempDir : String) : Prog σ Unit := do
  Printf ("Cleaning up temporary directory: " ++ syncTempDir)
  match ← sysCall (.RemoveAll syncTempDir) (os.RemoveAll syncTempDir) with
  | some err =>
    Printf ("Warning: failed to clean up temporary directory " ++ syncTempDir ++ ": " ++ err.msg)
  | none => pure ()

/-- The temporary directory of a run. -/
def syncTempDir (os : OS σ) (tempBaseDir : String) : String :=
  filepath.Join [tempBaseDir, "mal-sync-lokirules-" ++ toString os.Getpid]

/-- The function `lokirules.Sync`: performs the Loki rules synchronization. -/
def Sync (os : OS σ) (rulesPath lokiAddress orgID tempBaseDir : String) : Prog σ error := do
  Printf ("Starting Loki rules sync for Loki instance: " ++ lokiAddress ++ " (OrgID: " ++
    orgID ++ ")")
  Printf ("Rules path: " ++ rulesPath)
  match ← common.EnsureDir os (syncTempDir os tempBaseDir) with
  | some err =>
    pure (some (Errorf ("failed to create temporary sync directory " ++
      syncTempDir os tempBaseDir ++ ": " ++ err.msg)))
  | none =>
    let result ← syncSteps os rulesPath lokiAddress orgID (syncTempDir os tempBaseDir)
    cleanup os (syncTempDir os tempBaseDir)
    pure result

end lokirules

/-! ## Package `alertmanager` -/

namespace alertmanager

variable {σ : Type}

def mimirtoolCmd : String := "mimirtool"

/-- The slice `verifyArgs` of step 3. -/
def verifyArgs (tempConfigFile : String) : List String :=
  ["alertmanager", "verify", tempConfigFile]

/-- The slice `loadArgs` of step 5, after its two `append`s. -/
def loadArgs (tempConfigFile : String) (templateFileArgs : List String)
    (mimirAddress mimirID : String) : List String :=
  (["alertmanager", "load", tempConfigFile] ++ templateFileArgs) ++
    ["--address=" ++ mimirAddress, "--id=" ++ mimirID]

/-- The body of the loop over the entries of the templates directory:
the loop-carried variables are `templateFileArgs` and `foundTemplates`. -/
def copyTemplate (os : OS σ) (templatesDir tempTemplatesDir : String) (entry : DirEntry)
    (vars : List String × Bool) : Prog σ (Except GoError (List String × Bool)) := do
  if !entry.IsDir && strings.HasSuffix entry.Name ".tmpl" then
    let srcPath := filepath.Join [templatesDir, entry.Name]
    let dstPath := filepath.Join [tempTemplatesDir, entry.Name]
    Printf ("Copying template " ++ srcPath ++ " to " ++ dstPath)
    match ← common.CopyFile os srcPath dstPath with
    | some err =>
      pure (.error (Errorf
        ("failed to copy template file " ++ srcPath ++ " to " ++ dstPath ++ ": " ++ err.msg)))
    | none => pure (.ok (vars.1 ++ [dstPath], true))
  else pure (.ok vars)

/-- Step 4 of `Sync`: stages the templates and returns `templateFileArgs`,
or the error `Sync` returns. -/
def handleTemplates (os : OS σ) (templatesDir syncTempDir : String) :
    Prog σ (Except GoError (List String)) := do
  if templatesDir ≠ "" then
    let tempTemplatesDir := filepath.Join [syncTempDir, "templates"]
    match ← common.EnsureDir os tempTemplatesDir with
    | some err =>
      pure (.error (Errorf ("failed to create temporary templates directory " ++
        tempTemplatesDir ++ ": " ++ err.msg)))
    | none =>
      Printf ("Processing templates from " ++ templatesDir ++ ", copying to " ++ tempTemplatesDir)
      match ← sysCallVal (.ReadDir templatesDir) (os.ReadDir templatesDir) with
      | .error err =>
        Printf ("Warning: could not read templates directory " ++ templatesDir ++ ": " ++
          err.msg ++ ". Proceeding without templates.")
        pure (.ok [])
      | .ok entries =>
        match ← forRange (copyTemplate os templatesDir tempTemplatesDir) entries ([], false) with
        | .error err => pure (.error err)
        | .ok (templateFileArgs, foundTemplates) =>
          if !foundTemplates then
            Printf ("No .tmpl files found in " ++ templatesDir)
          else
            Printf ("Copied " ++ toString templateFileArgs.length ++ " template(s) to " ++
              tempTemplatesDir)
          pure (.ok templateFileArgs)
  else pure (.ok [])

/-- Steps 2 to 5 of `Sync`, which run once the deferred cleanup is
registered. -/
def syncSteps (os : OS σ) (configFile templatesDir mimirAddress mimirID syncTempDir : String) :
    Prog σ error := do
  Printf ("Using temporary directory: " ++ syncTempDir)
  let tempConfigFile := filepath.Join [syncTempDir, "alertmanager-config.yml"]
  Printf ("Copying main config file " ++ configFile ++ " to " ++ tempConfigFile)
  match ← common.CopyFile os configFile tempConfigFile with
  | some err =>
    pure (some (Errorf
      ("failed to copy config file " ++ configFile ++ " to " ++ tempConfigFile ++ ": " ++ err.msg)))
  | none =>
    Printf ("Verifying Alertmanager config: " ++ tempConfigFile)
    let (output, err) ← common.ExecuteCommand os mimirtoolCmd (verifyArgs tempConfigFile)
    match err with
    | some err =>
      pure (some (Errorf ("Alertmanager config verification failed for " ++ tempConfigFile ++
        ": " ++ err.msg ++ "\nOutput:\n" ++ output)))
    | none =>
      Printf "Alertmanager config verified successfully."
      match ← handleTemplates os templatesDir syncTempDir with
      | .error err => pure (some err)
      | .ok templateFileArgs =>
        Printf "Loading Alertmanager config and templates into Mimir..."
        let (output, err) ← common.ExecuteCommand os mimirtoolCmd
          (loadArgs tempConfigFile templateFileArgs mimirAddress mimirID)
        match err with
        | some err =>
          pure (some (Errorf ("failed to load Alertmanager config to Mimir: " ++ err.msg ++
            "\nOutput:\n" ++ output)))
        | none =>
          Printf "Alertmanager configuration and templates loaded successfully."
          pure none

/-- The deferred function of `Sync`: removes the temporary directory and
only warns when that fails. -/
def cleanup (os : OS σ) (syncTempDir : String) : Prog σ Unit := do
  Printf ("Cleaning up temporary directory: " ++ syncTempDir)
  match ← sysCall (.RemoveAll syncTempDir) (os.RemoveAll syncTempDir) with
  | some err =>
    Printf ("Warning: failed to clean up temporary directory " ++ syncTempDir ++ ": " ++ err.msg)
  | none => pure ()

/-- The temporary directory of a run. -/
def syncTempDir (os : OS σ) (tempBaseDir : String) : String :=
  filepath.Join [tempBaseDir, "mal-sync-alertmanager-" ++ toString os.Getpid]

/-- The function `alertmanager.Sync`: performs the Alertmanager synchronization. -/
def Sync (os : OS σ) (configFile templatesDir mimirAddress mimirID tempBaseDir : String) :
    Prog σ error := do
  Printf ("Starting Alertmanager sync for Mimir instance: " ++ mimirAddress ++ " (ID: " ++
    mimirID ++ ")")
  Printf ("Config file: " ++ configFile)
  if templatesDir ≠ "" then
    Printf ("Templates directory: " ++ templatesDir)
  else pure ()
  match ← common.EnsureDir os (syncTempDir os tempBaseDir) with
  | some err =>
    pure (some (Errorf ("failed to create temporary sync directory " ++
      syncTempDir os tempBaseDir ++ ": " ++ err.msg)))
  | none =>
    let result ← syncSteps os configFile templatesDir mimirAddress mimirID
      (syncTempDir os tempBaseDir)
    cleanup os (syncTempDir os tempBaseDir)
    pure result

end alertmanager

/-! ## Package `flag` (string flags, `ExitOnError`) -/

namespace flag

/-- A defined flag: its name, its current value and its default value. -/
structure Flag where
  Name : String
  Value : String
  DefValue : String
deriving DecidableEq

/-- A set of defined flags (`formal`) and the names of those set while
parsing (`actual`). -/
structure FlagSet where
  name : String
  formal : List Flag
  actual : List String
deriving DecidableEq

/-- Go's `flag.NewFlagSet(name, flag.ExitOnError)`. -/
def NewFlagSet (name : String) : FlagSet := ⟨name, [], []⟩

/-- Go's `f.String(name, value, usage)` (`String` names the type here): defines a string flag with a default
value (the usage text is not kept). -/
def FlagSet.StringFlag (f : FlagSet) (name value : String) : FlagSet :=
  ⟨f.name, f.formal ++ [⟨name, value, value⟩], f.actual⟩

/-- Go's `f.Lookup(name)`: the flag of that name, `none` for Go's nil. -/
def FlagSet.Lookup (f : FlagSet) (name : String) : Option Flag :=
  f.formal.find? (fun fl => fl.Name = name)

/-- Go's `flag.Value.Set(value)` on the flag `name`, which is then recorded in
`actual`. -/
def FlagSet.set (f : FlagSet) (name value : String) : FlagSet :=
  ⟨f.name, f.formal.map (fun fl => if fl.Name = name then ⟨fl.Name, value, fl.DefValue⟩ else fl),
    if name ∈ f.actual then f.actual else f.actual ++ [name]⟩

/-- Go's `f.Visit(fn)` calls `fn` on every flag that has been set: the names it
visits. -/
def FlagSet.Visit (f : FlagSet) : List String := f.actual

/-- Splits `name` at the first `=` that is not its first character:
`(name, hasValue, value)`. -/
def splitValue (name : List Char) : List Char × Bool × List Char :=
  match name with
  | [] => ([], false, [])
  | c :: rest =>
    let before := rest.takeWhile (fun x => x ≠ '=')
    match rest.dropWhile (fun x => x ≠ '=') with
    | [] => (c :: before, false, [])
    | _ :: value => (c :: before, true, value)

/-- The outcome of `parseOne`. -/
inductive Step where
  | done (f : FlagSet) (args : List String)
  | failed (help : Bool)
  | seen (f : FlagSet) (args : List String)

/-- Go's `f.parseOne()`: parses one flag off the front of the arguments. -/
def parseOne (f : FlagSet) (args : List String) : Step :=
  match args with
  | [] => .done f args
  | s :: rest =>
    match s.data with
    | '-' :: c :: cs =>
      if c = '-' ∧ cs = [] then .done f rest
      else
        let name := if c = '-' then cs else c :: cs
        if name = [] ∨ name.head? = some '-' ∨ name.head? = some '=' then .failed false
        else
          let (name, hasValue, value) := splitValue name
          match f.Lookup (String.mk name) with
          | none => .failed (String.mk name = "help" ∨ String.mk name = "h")
          | some _ =>
            if hasValue then .seen (f.set (String.mk name) (String.mk value)) rest
            else
              match rest with
              | [] => .failed false
              | value :: rest => .seen (f.set (String.mk name) value) rest
    | _ => .done f args

/-- The loop of `f.Parse`; every flag seen consumes at least one argument,
so `fuel` above the number of arguments is never used up. -/
def parseLoop : Nat → FlagSet → List String → Except Nat FlagSet
  | 0, f, _ => .ok f
  | fuel + 1, f, args =>
    match parseOne f args with
    | .done f _ => .ok f
    | .failed help => .error (if help then 0 else 2)
    | .seen f args => parseLoop fuel f args

/-- Go's `f.Parse(arguments)` under `ExitOnError`: the parsed flag set, or the
status the process exits with. -/
def FlagSet.Parse (f : FlagSet) (arguments : List String) : Except Nat FlagSet :=
  parseLoop (arguments.length + 1) f arguments

end flag

/-! ## Package `main` -/

namespace main

set_option linter.dupNamespace false

variable {σ : Type}

def alertmanagerCmd : flag.FlagSet :=
  (((((flag.NewFlagSet "alertmanager").StringFlag "config.file" "").StringFlag
    "templates.dir" "").StringFlag "mimir.address" "").StringFlag
    "mimir.id" "anonymous").StringFlag "temp.dir" "/tmp"

def mimirRulesCmd : flag.FlagSet :=
  (((((flag.NewFlagSet "mimir-rules").StringFlag "rules.path" "").StringFlag
    "mimir.address" "").StringFlag "mimir.id" "anonymous").StringFlag
    "temp.dir" "/tmp").StringFlag "rules.namespace" ""

def lokiRulesCmd : flag.FlagSet :=
  ((((flag.NewFlagSet "loki-rules").StringFlag "rules.path" "").StringFlag
    "loki.address" "").StringFlag "loki.org-id" "fake").StringFlag "temp.dir" "/tmp"

/-- The closure `getAMValue` of `main`, over the parsed flag set and the
names visited; `none` when `Lookup` returns nil and the program panics. -/
def getAMValue (os : OS σ) (alertmanagerCmd : flag.FlagSet) (alertmanagerFlagsSet : List String)
    (flagName envVarName : String) : Prog σ (Option String) :=
  match alertmanagerCmd.Lookup flagName with
  | none => pure none
  | some fl =>
    let val := fl.Value
    let defVal := fl.DefValue
    if flagName ∈ alertmanagerFlagsSet then pure (some val)
    else
      let env := os.Getenv envVarName
      if env ≠ "" then do
        Printf ("Using " ++ flagName ++ " from environment variable " ++ envVarName ++ ": " ++ env)
        pure (some env)
      else pure (some defVal)

/-- The closure `getMRValue` of `main`. -/
def getMRValue (os : OS σ) (mimirRulesCmd : flag.FlagSet) (mimirRulesFlagsSet : List String)
    (flagName envVarName : String) : Prog σ (Option String) :=
  match mimirRulesCmd.Lookup flagName with
  | none => pure none
  | some fl =>
    let val := fl.Value
    let defVal := fl.DefValue
    if flagName ∈ mimirRulesFlagsSet then pure (some val)
    else
      let env := os.Getenv envVarName
      if env ≠ "" then do
        Printf ("Using " ++ flagName ++ " from environment variable " ++ envVarName ++ ": " ++ env)
        pure (some env)
      else pure (some defVal)

/-- The closure `getLRValue` of `main`. -/
def getLRValue (os : OS σ) (lokiRulesCmd : flag.FlagSet) (lokiRulesFlagsSet : List String)
    (flagName envVarName : String) : Prog σ (Option String) :=
  match lokiRulesCmd.Lookup flagName with
  | none => pure none
  | some fl =>
    let val := fl.Value
    let defVal := fl.DefValue
    if flagName ∈ lokiRulesFlagsSet then pure (some val)
    else
      let env := os.Getenv envVarName
      if env ≠ "" then do
        Printf ("Using " ++ flagName ++ " from environment variable " ++ envVarName ++ ": " ++ env)
        pure (some env)
      else pure (some defVal)

/-- What a subcommand of `main` does once its parameters are resolved:
leave the process with a status, or call its `Sync` with the resolved
parameters `α`. -/
inductive Decision (α : Type) where
  | exit (status : Nat)
  | sync (params : α)
deriving DecidableEq

/-- Go's `log.Fatal`: logs the line and exits with status 1. -/
def Fatal {α : Type} (line : String) : Prog σ (Decision α) := do
  Printf line
  pure (.exit 1)

/-- A run-time panic (nil dereference): the process exits with status 2. -/
def panicExit {α : Type} : Prog σ (Decision α) := pure (.exit 2)

/-- The `"alertmanager"` case of `main` up to the call of
`alertmanager.Sync`: the parameters are
`(configFile, templatesDir, mimirAddress, mimirID, tempBaseDir)`. -/
def resolveAM (os : OS σ) (arguments : List String) :
    Prog σ (Decision (String × String × String × String × String)) :=
  match alertmanagerCmd.Parse arguments with
  | .error status => pure (.exit status)
  | .ok cmd => do
    let alertmanagerFlagsSet := cmd.Visit
    let some configFileVal ←
        getAMValue os cmd alertmanagerFlagsSet "config.file" "MALSYNC_ALERTMANAGER_CONFIG_FILE"
      | panicExit
    let some templatesDirVal ←
        getAMValue os cmd alertmanagerFlagsSet "templates.dir" "MALSYNC_ALERTMANAGER_TEMPLATES_DIR"
      | panicExit
    let some mimirAddressValAM ←
        getAMValue os cmd alertmanagerFlagsSet "mimir.address" "MALSYNC_ALERTMANAGER_MIMIR_ADDRESS"
      | panicExit
    let some mimirIDValAM ←
        getAMValue os cmd alertmanagerFlagsSet "mimir.id" "MALSYNC_ALERTMANAGER_MIMIR_ID"
      | panicExit
    let some tempDirValAM ←
        getAMValue os cmd alertmanagerFlagsSet "temp.dir" "MALSYNC_ALERTMANAGER_TEMP_DIR"
      | panicExit
    if configFileVal = "" then
      Fatal ("Error: -config.file flag or MALSYNC_ALERTMANAGER_CONFIG_FILE env var is " ++
        "required for alertmanager sync")
    else if mimirAddressValAM = "" then
      Fatal ("Error: -mimir.address flag or MALSYNC_ALERTMANAGER_MIMIR_ADDRESS env var is " ++
        "required for alertmanager sync")
    else
      pure (.sync (configFileVal, templatesDirVal, mimirAddressValAM, mimirIDValAM, tempDirValAM))

/-- The `"mimir-rules"` case of `main` up to the call of `mimirrules.Sync`:
the parameters are `(rulesPath, mimirAddress, mimirID, namespace, tempBaseDir)`. -/
def resolveMR (os : OS σ) (arguments : List String) :
    Prog σ (Decision (String × String × String × String × String)) :=
  match mimirRulesCmd.Parse arguments with
  | .error status => pure (.exit status)
  | .ok cmd => do
    let mimirRulesFlagsSet := cmd.Visit
    let some rulesPathValMR ←
        getMRValue os cmd mimirRulesFlagsSet "rules.path" "MALSYNC_MIMIRRULES_RULES_PATH"
      | panicExit
    let some mimirAddressValMR ←
        getMRValue os cmd mimirRulesFlagsSet "mimir.address" "MALSYNC_MIMIRRULES_MIMIR_ADDRESS"
      | panicExit
    let some mimirIDValMR ←
        getMRValue os cmd mimirRulesFlagsSet "mimir.id" "MALSYNC_MIMIRRULES_MIMIR_ID"
      | panicExit
    let some tempDirValMR ←
        getMRValue os cmd mimirRulesFlagsSet "temp.dir" "MALSYNC_MIMIRRULES_TEMP_DIR"
      | panicExit
    let some namespaceValMR ←
        getMRValue os cmd mimirRulesFlagsSet "rules.namespace" "MALSYNC_MIMIRRULES_RULES_NAMESPACE"
      | panicExit
    if rulesPathValMR = "" then
      Fatal ("Error: -rules.path flag or MALSYNC_MIMIRRULES_RULES_PATH env var is " ++
        "required for mimir-rules sync")
    else if mimirAddressValMR = "" then
      Fatal ("Error: -mimir.address flag or MALSYNC_MIMIRRULES_MIMIR_ADDRESS env var is " ++
        "required for mimir-rules sync")
    else if namespaceValMR = "" then
      Fatal ("Error: -rules.namespace flag or MALSYNC_MIMIRRULES_RULES_NAMESPACE env var is " ++
        "required for mimir-rules sync")
    else
      pure (.sync (rulesPathValMR, mimirAddressValMR, mimirIDValMR, namespaceValMR, tempDirValMR))

/-- The `"loki-rules"` case of `main` up to the call of `lokirules.Sync`:
the parameters are `(rulesPath, lokiAddress, orgID, tempBaseDir)`. -/
def resolveLR (os : OS σ) (arguments : List String) :
    Prog σ (Decision (String × String × String × String)) :=
  match lokiRulesCmd.Parse arguments with
  | .error status => pure (.exit status)
  | .ok cmd => do
    let lokiRulesFlagsSet := cmd.Visit
    let some rulesPathValLR ←
        getLRValue os cmd lokiRulesFlagsSet "rules.path" "MALSYNC_LOKIRULES_RULES_PATH"
      | panicExit
    let some lokiAddressValLR ←
        getLRValue os cmd lokiRulesFlagsSet "loki.address" "MALSYNC_LOKIRULES_LOKI_ADDRESS"
      | panicExit
    let some lokiOrgIDValLR ←
        getLRValue os cmd lokiRulesFlagsSet "loki.org-id" "MALSYNC_LOKIRULES_LOKI_ORG_ID"
      | panicExit
    let some tempDirValLR ←
        getLRValue os cmd lokiRulesFlagsSet "temp.dir" "MALSYNC_LOKIRULES_TEMP_DIR"
      | panicExit
    if rulesPathValLR = "" then
      Fatal ("Error: -rules.path flag or MALSYNC_LOKIRULES_RULES_PATH env var is " ++
        "required for loki-rules sync")
    else if lokiAddressValLR = "" then
      Fatal ("Error: -loki.address flag or MALSYNC_LOKIRULES_LOKI_ADDRESS env var is " ++
        "required for loki-rules sync")
    else if lokiOrgIDValLR = "" then
      Fatal ("Error: -loki.org-id flag or MALSYNC_LOKIRULES_LOKI_ORG_ID env var is " ++
        "required for loki-rules sync")
    else
      pure (.sync (rulesPathValLR, lokiAddressValLR, lokiOrgIDValLR, tempDirValLR))

/-- The end of every case of `main`: a failed `Sync` is fatal (status 1),
a successful one logs the completion line and the process exits with 0. -/
def finish (what done : String) (err : error) : Prog σ Nat :=
  match err with
  | some err => do
    Printf (what ++ " sync failed: " ++ err.msg)
    pure 1
  | none => do
    Printf done
    pure 0

/-- The function `main` on the command line `Args` (`os.Args`): the exit
status of the process. The usage text printed when no subcommand is given
goes to the standard streams and is not among the events. -/
def main (os : OS σ) (Args : List String) : Prog σ Nat :=
  match Args with
  | [] | [_] => do
    Printf "Expected 'alertmanager' or 'loki' subcommands"
    pure 1
  | _ :: sub :: arguments =>
    if sub = "alertmanager" then do
      match ← resolveAM os arguments with
      | .exit status => pure status
      | .sync (configFileVal, templatesDirVal, mimirAddressValAM, mimirIDValAM, tempDirValAM) =>
        let err ← alertmanager.Sync os configFileVal templatesDirVal mimirAddressValAM
          mimirIDValAM tempDirValAM
        finish "Alertmanager" "Alertmanager sync completed successfully." err
    else if sub = "mimir-rules" then do
      match ← resolveMR os arguments with
      | .exit status => pure status
      | .sync (rulesPathValMR, mimirAddressValMR, mimirIDValMR, namespaceValMR, tempDirValMR) =>
        let err ← mimirrules.Sync os rulesPathValMR mimirAddressValMR mimirIDValMR
          namespaceValMR tempDirValMR
        finish "Mimir rules" "Mimir rules sync completed successfully." err
    else if sub = "loki-rules" then do
      match ← resolveLR os arguments with
      | .exit status => pure status
      | .sync (rulesPathValLR, lokiAddressValLR, lokiOrgIDValLR, tempDirValLR) =>
        let err ← lokirules.Sync os rulesPathValLR lokiAddressValLR lokiOrgIDValLR tempDirValLR
        finish "Loki rules" "Loki rules sync completed successfully." err
    else do
      Printf ("Unknown subcommand: " ++ sub ++
        ". Expected 'alertmanager', 'mimir-rules', or 'loki-rules'.")
      pure 1

end main

/-! ## An in-memory operating system

A concrete `OS` on which the programs can be run: a table of paths, a table
of open descriptors, a list of paths every call on which is refused, and a
scripted external tool. -/

/-- A node of the in-memory filesystem. -/
inductive Node where
  | dir
  | file (mode : FileMode) (content : String)
deriving DecidableEq

/-- The state of the in-memory filesystem. -/
structure MemFS where
  nodes : List (String × Node)
  fds : List (File × String)
  denied : List String
deriving DecidableEq

namespace MemFS

/-- The node at a path. -/
def lookup (fs : MemFS) (p : String) : Option Node :=
  (fs.nodes.find? (fun e => e.1 = p)).map (fun e => e.2)

/-- Whether nothing is at the path. -/
def Absent (p : String) (fs : MemFS) : Prop := fs.lookup p = none

instance (p : String) (fs : MemFS) : Decidable (Absent p fs) := by
  unfold Absent; infer_instance

/-- Writes a node at a path. -/
def put (fs : MemFS) (p : String) (n : Node) : MemFS :=
  ⟨fs.nodes.filter (fun e => e.1 ≠ p) ++ [(p, n)], fs.fds, fs.denied⟩

/-- The error of a failed call, written as Go's `*fs.PathError` prints it. -/
def pathError (op p what : String) : GoError := ⟨op ++ " " ++ p ++ ": " ++ what, false⟩

/-- The path of an open descriptor. -/
def pathOf (fs : MemFS) (f : File) : Option String :=
  (fs.fds.find? (fun e => e.1 = f)).map (fun e => e.2)

/-- A descriptor that is not in use. -/
def freshFd (fs : MemFS) : File := (fs.fds.map (fun e => e.1)).foldl max 2 + 1

/-- The name of `p` inside `dir` when `p` is directly inside it. -/
def childName (dir p : String) : Option String :=
  let front := (dir ++ "/").data
  if front.isPrefixOf p.data then
    let name := p.data.drop front.length
    if name ≠ [] ∧ '/' ∉ name then some (String.mk name) else none
  else none

def MkdirAll (p : String) (_perm : FileMode) (fs : MemFS) : error × MemFS :=
  if p ∈ fs.denied then (some (pathError "mkdir" p "permission denied"), fs)
  else
    match fs.lookup p with
    | some .dir => (none, fs)
    | some (.file _ _) => (some (pathError "mkdir" p "not a directory"), fs)
    | none => (none, fs.put p .dir)

def Stat (p : String) (fs : MemFS) : Except GoError FileInfo × MemFS :=
  if p ∈ fs.denied then (.error (pathError "stat" p "permission denied"), fs)
  else
    match fs.lookup p with
    | none => (.error (pathError "stat" p "no such file or directory"), fs)
    | some .dir => (.ok ⟨FileMode.ModeDir ||| 0o755⟩, fs)
    | some (.file mode _) => (.ok ⟨mode⟩, fs)

def ReadDir (p : String) (fs : MemFS) : Except GoError (List DirEntry) × MemFS :=
  if p ∈ fs.denied then (.error (pathError "open" p "permission denied"), fs)
  else
    match fs.lookup p with
    | none => (.error (pathError "open" p "no such file or directory"), fs)
    | some (.file _ _) => (.error (pathError "readdirent" p "not a directory"), fs)
    | some .dir =>
      (.ok (fs.nodes.filterMap (fun e =>
        (childName p e.1).map (fun name => ⟨name, decide (e.2 = Node.dir)⟩))), fs)

def Open (p : String) (fs : MemFS) : Except GoError File × MemFS :=
  if p ∈ fs.denied then (.error (pathError "open" p "permission denied"), fs)
  else
    match fs.lookup p with
    | none => (.error (pathError "open" p "no such file or directory"), fs)
    | some _ => (.ok fs.freshFd, ⟨fs.nodes, fs.fds ++ [(fs.freshFd, p)], fs.denied⟩)

def Create (p : String) (fs : MemFS) : Except GoError File × MemFS :=
  if p ∈ fs.denied then (.error (pathError "open" p "permission denied"), fs)
  else
    match fs.lookup p with
    | some .dir => (.error (pathError "open" p "is a directory"), fs)
    | some (.file mode _) =>
      (.ok fs.freshFd,
        ⟨(fs.put p (.file mode "")).nodes, fs.fds ++ [(fs.freshFd, p)], fs.denied⟩)
    | none =>
      (.ok fs.freshFd,
        ⟨(fs.put p (.file 0o644 "")).nodes, fs.fds ++ [(fs.freshFd, p)], fs.denied⟩)

def Copy (dst src : File) (fs : MemFS) : error × MemFS :=
  match fs.pathOf dst, fs.pathOf src with
  | some d, some s =>
    match fs.lookup d, fs.lookup s with
    | some (.file mode _), some (.file _ content) => (none, fs.put d (.file mode content))
    | _, _ => (some (pathError "read" s "is a directory"), fs)
  | _, _ => (some ⟨"invalid argument", false⟩, fs)

def Chmod (p : String) (mode : FileMode) (fs : MemFS) : error × MemFS :=
  if p ∈ fs.denied then (some (pathError "chmod" p "permission denied"), fs)
  else
    match fs.lookup p with
    | none => (some (pathError "chmod" p "no such file or directory"), fs)
    | some .dir => (none, fs)
    | some (.file _ content) =>
      (none, fs.put p (.file (mode &&& (FileMode.ModePerm ||| FileMode.ModeSetuid |||
        FileMode.ModeSetgid ||| FileMode.ModeSticky)) content))

def Close (f : File) (fs : MemFS) : error × MemFS :=
  match fs.pathOf f with
  | none => (some ⟨"close: file already closed", false⟩, fs)
  | some _ => (none, ⟨fs.nodes, fs.fds.filter (fun e => e.1 ≠ f), fs.denied⟩)

def RemoveAll (p : String) (fs : MemFS) : error × MemFS :=
  if p ∈ fs.denied then (some (pathError "unlinkat" p "permission denied"), fs)
  else
    (none, ⟨fs.nodes.filter (fun e => e.1 ≠ p ∧ ¬ (p ++ "/").data.isPrefixOf e.1.data = true),
      fs.fds, fs.denied⟩)

end MemFS

/-- The in-memory operating system with process id `pid`, environment
`env` and an external tool that answers `tool name args`. -/
def memOS (pid : Nat) (env : String → String) (tool : String → List String → String × error) :
    OS MemFS where
  MkdirAll := MemFS.MkdirAll
  Stat := MemFS.Stat
  ReadDir := MemFS.ReadDir
  Open := MemFS.Open
  Create := MemFS.Create
  Copy := MemFS.Copy
  Chmod := MemFS.Chmod
  Close := MemFS.Close
  RemoveAll := MemFS.RemoveAll
  CombinedOutput := fun name args fs => (tool name args, fs)
  Getpid := pid
  Getenv := env

/-- An external tool that always succeeds and prints nothing. -/
def toolOk : String → List String → String × error := fun _ _ => ("", none)

/-- An empty environment. -/
def noEnv : String → String := fun _ => ""

/-! ## Vocabulary of the properties -/

namespace Event

/-- An invocation of an external tool. -/
def isExec : Event → Bool
  | .Exec _ _ _ _ => true
  | _ => false

/-- A call or an invocation that returned an error. -/
def failed : Event → Bool
  | .Sys _ (some _) => true
  | .Exec _ _ _ (some _) => true
  | _ => false

/-- A validation invocation: `alertmanager verify` or `rules lint`. -/
def isValidation : Event → Bool
  | .Exec _ ("alertmanager" :: "verify" :: _) _ _ => true
  | .Exec _ ("rules" :: "lint" :: _) _ _ => true
  | _ => false

/-- An upload invocation: `alertmanager load` or `rules sync`. -/
def isUpload : Event → Bool
  | .Exec _ ("alertmanager" :: "load" :: _) _ _ => true
  | .Exec _ ("rules" :: "sync" :: _) _ _ => true
  | _ => false

/-- A `rules lint` invocation. -/
def isLint : Event → Bool
  | .Exec _ ("rules" :: "lint" :: _) _ _ => true
  | _ => false

/-- A failed filesystem call among stat, directory read, the steps of a
copy (stat, open, create, data copy, chmod) and mkdir. -/
def fsFailure : Event → Bool
  | .Sys (.MkdirAll _ _) (some _) => true
  | .Sys (.Stat _) (some _) => true
  | .Sys (.ReadDir _) (some _) => true
  | .Sys (.Open _) (some _) => true
  | .Sys (.Create _) (some _) => true
  | .Sys (.Copy _ _) (some _) => true
  | .Sys (.Chmod _ _) (some _) => true
  | _ => false

/-- A failed `MkdirAll` whose error `os.IsExist` recognises. -/
def mkdirExists : Event → Bool
  | .Sys (.MkdirAll _ _) (some err) => err.isExist
  | _ => false

/-- A failed `ReadDir`. -/
def readDirFailure : Event → Bool
  | .Sys (.ReadDir _) (some _) => true
  | _ => false

/-- A step of a file copy past the initial stat: open, create, data copy
or chmod. -/
def isCopyStep : Event → Bool
  | .Sys (.Open _) _ => true
  | .Sys (.Create _) _ => true
  | .Sys (.Copy _ _) _ => true
  | .Sys (.Chmod _ _) _ => true
  | _ => false

/-- A filesystem call. -/
def isSys : Event → Bool
  | .Sys _ _ => true
  | _ => false

/-- A `RemoveAll` call. -/
def isRemoveAll : Event → Bool
  | .Sys (.RemoveAll _) _ => true
  | _ => false

/-- A filesystem failure that is fatal to a rules workflow: one of
`fsFailure` other than a `MkdirAll` error that `os.IsExist` recognises. -/
def fatal (e : Event) : Bool := e.fsFailure && !e.mkdirExists

/-- A filesystem failure that is fatal to `alertmanager.Sync`: a fatal one
other than a failed directory read. -/
def fatalAM (e : Event) : Bool := e.fatal && !e.readDirFailure

end Event

/-- The files created by a run, in order: the successful `os.Create` calls. -/
def createdFiles (evs : List Event) : List String :=
  evs.filterMap (fun e =>
    match e with
    | .Sys (.Create p) none => some p
    | _ => none)

/-- A directory entry that a rules workflow stages: not a directory, and
its name ends in `.yaml` or `.yml`. -/
def isRuleFile (entry : DirEntry) : Bool :=
  !entry.IsDir && (strings.HasSuffix entry.Name ".yaml" || strings.HasSuffix entry.Name ".yml")

/-- The staged copies of the rule files among `entries`, in listing order:
each is `<dir>/<entry name>`. -/
def stagedPaths (dir : String) (entries : List DirEntry) : List String :=
  (entries.filter isRuleFile).map (fun entry => filepath.Join [dir, entry.Name])

/-- The message of the error a rules workflow returns when linting the
file named by `args` fails with `err`. -/
def lintFailureMsg (name : String) (args : List String) (err : GoError) : String :=
  "linting failed for rule file " ++ args.getD 2 "" ++ ": " ++
    ("command " ++ name ++ " " ++ strings.Join args " " ++ " failed: " ++ err.msg)

/-- The upload is gated by validation: when some validation invocation
failed, the run returned an error and made no upload invocation. -/
def UploadGated (v : error) (evs : List Event) : Prop :=
  (∃ e ∈ evs, e.isValidation = true ∧ e.failed = true) →
    v ≠ none ∧ ∀ e ∈ evs, e.isUpload = false

/-- Failures picked out by `bad` stop the run: when one occurs, the run
returns an error and invokes no external tool after it. -/
def FailStop (bad : Event → Bool) (v : error) (evs : List Event) : Prop :=
  ∀ pre e post, evs = pre ++ e :: post → bad e = true →
    v ≠ none ∧ ∀ e2 ∈ post, e2.isExec = false

/-- How a failed invocation shows in the result: the error of a failed
lint is `lintFailureMsg` and its output is in the log; the error of any
other failed invocation contains the output. -/
def OutputReported (v : error) (evs : List Event) : Prop :=
  ∀ name args output err, Event.Exec name args output (some err) ∈ evs →
    ∃ e2, v = some e2 ∧
      if (Event.Exec name args output (some err)).isLint = true then
        e2.msg = lintFailureMsg name args err ∧
          Event.Log ("Linting failed for " ++ args.getD 2 "" ++ ":\n" ++ output) ∈ evs
      else output.data <:+: e2.msg.data

/-- Every upload invocation is `name args`. -/
def UploadIs (name : String) (args : List String) (evs : List Event) : Prop :=
  ∀ e ∈ evs, e.isUpload = true → ∃ output err, e = Event.Exec name args output err

/-- The shapes a run of `common.CopyFile src dst` can have: the returned
error and the calls made. -/
inductive CopyOutcome (src dst : String) : error → List Event → Prop where
  | statFailed (err : GoError) :
    CopyOutcome src dst
      (some (Errorf ("failed to stat source file " ++ src ++ ": " ++ err.msg)))
      [.Sys (.Stat src) (some err)]
  | notRegular :
    CopyOutcome src dst (some (Errorf (src ++ " is not a regular file")))
      [.Sys (.Stat src) none]
  | openFailed (err : GoError) :
    CopyOutcome src dst
      (some (Errorf ("failed to open source file " ++ src ++ ": " ++ err.msg)))
      [.Sys (.Stat src) none, .Sys (.Open src) (some err)]
  | createFailed (err : GoError) (source : File) (c : error) :
    CopyOutcome src dst
      (some (Errorf ("failed to create destination file " ++ dst ++ ": " ++ err.msg)))
      [.Sys (.Stat src) none, .Sys (.Open src) none, .Sys (.Create dst) (some err),
        .Sys (.Close source) c]
  | copyFailed (err : GoError) (source destination : File) (c1 c2 : error) :
    CopyOutcome src dst
      (some (Errorf ("failed to copy data from " ++ src ++ " to " ++ dst ++ ": " ++ err.msg)))
      [.Sys (.Stat src) none, .Sys (.Open src) none, .Sys (.Create dst) none,
        .Sys (.Copy destination source) (some err), .Sys (.Close destination) c1,
        .Sys (.Close source) c2]
  | copied (mode : FileMode) (source destination : File) (res c1 c2 : error) :
    CopyOutcome src dst res
      [.Sys (.Stat src) none, .Sys (.Open src) none, .Sys (.Create dst) none,
        .Sys (.Copy destination source) none, .Sys (.Chmod dst mode) res,
        .Sys (.Close destination) c1, .Sys (.Close source) c2]

/-- One call of one of the three workflows, with its arguments. -/
inductive Workflow where
  | amSync (configFile templatesDir mimirAddress mimirID tempBaseDir : String)
  | mimirSync (rulesPath mimirAddress mimirID namespaceArg tempBaseDir : String)
  | lokiSync (rulesPath lokiAddress orgID tempBaseDir : String)

namespace Workflow

variable {σ : Type}

/-- The `Sync` function the workflow calls. -/
def Sync (os : OS σ) : Workflow → Prog σ error
  | .amSync configFile templatesDir mimirAddress mimirID tempBaseDir =>
    alertmanager.Sync os configFile templatesDir mimirAddress mimirID tempBaseDir
  | .mimirSync rulesPath mimirAddress mimirID namespaceArg tempBaseDir =>
    mimirrules.Sync os rulesPath mimirAddress mimirID namespaceArg tempBaseDir
  | .lokiSync rulesPath lokiAddress orgID tempBaseDir =>
    lokirules.Sync os rulesPath lokiAddress orgID tempBaseDir

/-- The temporary directory `<tempBaseDir>/mal-sync-<variant>-<pid>`. -/
def syncTempDir (os : OS σ) : Workflow → String
  | .amSync _ _ _ _ tempBaseDir => alertmanager.syncTempDir os tempBaseDir
  | .mimirSync _ _ _ _ tempBaseDir => mimirrules.syncTempDir os tempBaseDir
  | .lokiSync _ _ _ tempBaseDir => lokirules.syncTempDir os tempBaseDir

/-- The filesystem failures that are fatal to the workflow. -/
def fatal : Workflow → Event → Bool
  | .amSync _ _ _ _ _ => Event.fatalAM
  | _ => Event.fatal

end Workflow

/-- One of the two rules workflows, with the arguments in which they
differ. -/
inductive RulesWorkflow where
  | mimir (mimirAddress mimirID namespaceArg : String)
  | loki (lokiAddress orgID : String)

namespace RulesWorkflow

variable {σ : Type}

/-- The `Sync` function of the rules workflow. -/
def Sync (os : OS σ) (w : RulesWorkflow) (rulesPath tempBaseDir : String) : Prog σ error :=
  match w with
  | .mimir mimirAddress mimirID namespaceArg =>
    mimirrules.Sync os rulesPath mimirAddress mimirID namespaceArg tempBaseDir
  | .loki lokiAddress orgID => lokirules.Sync os rulesPath lokiAddress orgID tempBaseDir

/-- The temporary directory of the rules workflow. -/
def syncTempDir (os : OS σ) (w : RulesWorkflow) (tempBaseDir : String) : String :=
  match w with
  | .mimir _ _ _ => mimirrules.syncTempDir os tempBaseDir
  | .loki _ _ => lokirules.syncTempDir os tempBaseDir

/-- The loop of step 2 over the entries of the rules directory. -/
def copyLoop (os : OS σ) (w : RulesWorkflow) (rulesPath tempBaseDir : String)
    (entries : List DirEntry) : Prog σ (Except GoError (List String)) :=
  match w with
  | .mimir _ _ _ =>
    forRange (mimirrules.copyEntry os rulesPath (mimirrules.syncTempDir os tempBaseDir)) entries []
  | .loki _ _ =>
    forRange (lokirules.copyEntry os rulesPath (lokirules.syncTempDir os tempBaseDir)) entries []

end RulesWorkflow

/-- The precedence the specification gives for a parameter: the explicit
value when the flag was set, else the environment value when it is not
empty, else the default. -/
def resolveSpec (value : String) (wasSet : Bool) (env defVal : String) : String :=
  if wasSet then value else if env ≠ "" then env else defVal

/-- A directory entry that `alertmanager.Sync` stages as a template: not a
directory, and its name ends in `.tmpl`. -/
def isTemplate (entry : DirEntry) : Bool :=
  !entry.IsDir && strings.HasSuffix entry.Name ".tmpl"

/-- The staged copies of the templates among `entries`, in listing order:
each is `<tempDir>/templates/<entry name>`. -/
def stagedTemplates (tempDir : String) (entries : List DirEntry) : List String :=
  (entries.filter isTemplate).map
    (fun entry => filepath.Join [filepath.Join [tempDir, "templates"], entry.Name])

/-- The template arguments `t1 .. tn` of the load invocation: none when no
templates directory is given, none when listing the directory failed, else
the staged copies of the templates of the listing. -/
def templateArgs (templatesDir tempDir : String) (listing : Except GoError (List DirEntry)) :
    List String :=
  if templatesDir = "" then []
  else
    match listing with
    | .error _ => []
    | .ok entries => stagedTemplates tempDir entries

namespace alertmanager

variable {σ : Type}

/-- What `os.ReadDir(templatesDir)` answers at the point where `Sync` calls
it in step 4: after the temporary directory was made, the config file
copied and verified, and the temporary templates directory made. -/
def templatesListing (os : OS σ) (configFile templatesDir tempBaseDir : String) (s : σ) :
    Except GoError (List DirEntry) :=
  let s1 := (common.EnsureDir os (syncTempDir os tempBaseDir) s).st
  let s2 := (common.CopyFile os configFile
    (filepath.Join [syncTempDir os tempBaseDir, "alertmanager-config.yml"]) s1).st
  let s3 := (common.ExecuteCommand os mimirtoolCmd
    (verifyArgs (filepath.Join [syncTempDir os tempBaseDir, "alertmanager-config.yml"])) s2).st
  let s4 := (common.EnsureDir os (filepath.Join [syncTempDir os tempBaseDir, "templates"]) s3).st
  (os.ReadDir templatesDir s4).1

end alertmanager

namespace RulesWorkflow

variable {σ : Type}

/-- The external tool of the rules workflow. -/
def tool : RulesWorkflow → String
  | .mimir _ _ _ => mimirrules.mimirtoolCmd
  | .loki _ _ => lokirules.lokitoolCmd

end RulesWorkflow

namespace FileMode

/-- The bits of a mode that `os.Chmod` sets on Unix: the permission bits
and setuid, setgid and sticky. -/
def chmodBits : FileMode := ModePerm ||| ModeSetuid ||| ModeSetgid ||| ModeSticky

end FileMode

namespace MemFS

/-- The mode of the file at a path. -/
def modeOf (fs : MemFS) (p : String) : Option FileMode :=
  match fs.lookup p with
  | some (.file mode _) => some mode
  | _ => none

/-- The content of the file at a path. -/
def contentOf (fs : MemFS) (p : String) : Option String :=
  match fs.lookup p with
  | some (.file _ content) => some content
  | _ => none

end MemFS

/-! ## Copies the filesystem lets succeed -/

/-- The filesystem lets `src` be copied to `dst` from the state `s`, and
the copy ends in the state `s2`: `Stat` reports `src` as a regular file,
and `Open`, `Create`, the copy of the data and `Chmod` succeed, each in the
state the call before it left; `s2` is the state after the two `Close`
calls. -/
def CopySucceeds {σ : Type} (os : OS σ) (src dst : String) (s s2 : σ) : Prop :=
  ∃ fi source destination,
    (os.Stat src s).1 = .ok fi ∧ fi.Mode.IsRegular = true ∧
    (os.Open src (os.Stat src s).2).1 = .ok source ∧
    (os.Create dst (os.Open src (os.Stat src s).2).2).1 = .ok destination ∧
    (os.Copy destination source (os.Create dst (os.Open src (os.Stat src s).2).2).2).1 = none ∧
    (os.Chmod dst fi.Mode (os.Copy destination source
      (os.Create dst (os.Open src (os.Stat src s).2).2).2).2).1 = none ∧
    s2 = (os.Close source (os.Close destination (os.Chmod dst fi.Mode (os.Copy destination source
      (os.Create dst (os.Open src (os.Stat src s).2).2).2).2).2).2).2

/-- The files a run read from, in order: the successful `os.Open` calls. -/
def openedFiles (evs : List Event) : List String :=
  evs.filterMap (fun e =>
    match e with
    | .Sys (.Open p) none => some p
    | _ => none)

/-- The sources of the rule files among `entries`, in listing order: each
is `<dir>/<entry name>`. -/
def sourcePaths (dir : String) (entries : List DirEntry) : List String :=
  (entries.filter isRuleFile).map (fun entry => filepath.Join [dir, entry.Name])

namespace MemFS

/-- Whether the in-memory filesystem lets `src` be copied to `dst`:
neither path is refused, a regular file is at `src`, and no directory is
at `dst`. -/
def canCopy (fs : MemFS) (src dst : String) : Bool :=
  !decide (src ∈ fs.denied) && !decide (dst ∈ fs.denied) &&
    (match fs.lookup src with
      | some (.file mode _) => FileMode.IsRegular mode
      | _ => false) &&
    (match fs.lookup dst with
      | some .dir => false
      | _ => true)

/-- Whether the in-memory filesystem lets every pair of the list be
copied, source to destination. -/
def canCopyAll (pairs : List (String × String)) (fs : MemFS) : Bool :=
  pairs.all (fun pr => fs.canCopy pr.1 pr.2)

end MemFS

/-- The copies a rules workflow makes for a listing: source and
destination of every rule file, in listing order. -/
def copyPairs (rulesPath tempDir : String) (entries : List DirEntry) : List (String × String) :=
  (entries.filter isRuleFile).map
    (fun entry => (filepath.Join [rulesPath, entry.Name], filepath.Join [tempDir, entry.Name]))

/-! ## Command lines of the `loki-rules` subcommand -/

namespace main

/-- One flag on a command line: `-name=value` or `--name=value`, or, when
`separate`, the two arguments `-name value` or `--name value`. -/
structure FlagArg where
  name : String
  value : String
  doubleDash : Bool
  separate : Bool
deriving DecidableEq

/-- The arguments a flag is written as. -/
def FlagArg.args (a : FlagArg) : List String :=
  if a.separate then [(if a.doubleDash then "--" else "-") ++ a.name, a.value]
  else [(if a.doubleDash then "--" else "-") ++ a.name ++ "=" ++ a.value]

/-- The command line made of the flags, in order. -/
def commandLine : List FlagArg → List String
  | [] => []
  | a :: rest => a.args ++ commandLine rest

/-- The names of the flags of the `loki-rules` subcommand. -/
def lokiFlagNames : List String := lokiRulesCmd.formal.map (fun fl => fl.Name)

/-- The three fatal errors of the `loki-rules` case for a missing
parameter, by the resolved rules path and Loki address: the first check
that fails decides. -/
def lokiFatalLine (rulesPath lokiAddress : String) : String :=
  if rulesPath = "" then
    "Error: -rules.path flag or MALSYNC_LOKIRULES_RULES_PATH env var is " ++
      "required for loki-rules sync"
  else if lokiAddress = "" then
    "Error: -loki.address flag or MALSYNC_LOKIRULES_LOKI_ADDRESS env var is " ++
      "required for loki-rules sync"
  else
    "Error: -loki.org-id flag or MALSYNC_LOKIRULES_LOKI_ORG_ID env var is " ++
      "required for loki-rules sync"

end main

namespace flag

/-- The flags of `loki-rules` with some current values. -/
def LokiShape (f : FlagSet) : Prop :=
  ∃ a b c d, f.formal = [⟨"rules.path", a, ""⟩, ⟨"loki.address", b, ""⟩,
    ⟨"loki.org-id", c, "fake"⟩, ⟨"temp.dir", d, "/tmp"⟩]

/-- The flags of `loki-rules` after `loki.org-id` was set to the empty
string. -/
def OrgEmpty (f : FlagSet) : Prop :=
  "loki.org-id" ∈ f.actual ∧
    ∃ a b d, f.formal = [⟨"rules.path", a, ""⟩, ⟨"loki.address", b, ""⟩,
      ⟨"loki.org-id", "", "fake"⟩, ⟨"temp.dir", d, "/tmp"⟩]

end flag

namespace flag

/-- The flag set after the flags of a command line were set, in order. -/
def setAll (f : FlagSet) (flags : List main.FlagArg) : FlagSet :=
  flags.foldl (fun f a => f.set a.name a.value) f

end flag

/-! ## Concrete runs -/

namespace Example

/-- A filesystem with a rules directory holding `a.yaml`, `b.yml`, `c.txt`
and a subdirectory, an empty directory, an Alertmanager config file and a
writable `/tmp`. -/
def fs : MemFS :=
  ⟨[("/tmp", .dir), ("/rules", .dir), ("/rules/a.yaml", .file 0o644 "groups: []"),
      ("/rules/b.yml", .file 0o600 "groups: []"), ("/rules/c.txt", .file 0o644 "notes"),
      ("/rules/sub", .dir), ("/rules/sub/d.yaml", .file 0o644 "groups: []"),
      ("/empty", .dir), ("/notes.txt", .file 0o644 "notes"),
      ("/am.yml", .file 0o640 "route: default")], [], []⟩

/-- The same filesystem where nothing may be created under `/tmp`. -/
def fsReadOnlyTmp : MemFS :=
  ⟨fs.nodes, [], ["/tmp/mal-sync-mimirrules-42", "/tmp/mal-sync-lokirules-42",
    "/tmp/mal-sync-alertmanager-42"]⟩

/-- An external tool whose `lint` fails with a diagnostic and exit status 1. -/
def toolLintFails : String → List String → String × error := fun _ args =>
  if args.take 2 = ["rules", "lint"] then
    ("rule group invalid", some ⟨"exit status 1", false⟩)
  else ("", none)

/-- An external tool whose upload (`load` or `sync`) fails with a
diagnostic and exit status 1. -/
def toolUploadFails : String → List String → String × error := fun _ args =>
  if args.take 2 = ["rules", "sync"] ∨ args.take 2 = ["alertmanager", "load"] then
    ("connection refused", some ⟨"exit status 1", false⟩)
  else ("", none)

/-- The in-memory operating system when something that is not a directory
(a dangling link) sits at the path `MkdirAll` is asked for: the call
answers with `file exists`, an error that `os.IsExist` recognises. -/
def osMkdirExists : OS MemFS where
  MkdirAll := fun p _ fs => (some ⟨"mkdir " ++ p ++ ": file exists", true⟩, fs)
  Stat := MemFS.Stat
  ReadDir := MemFS.ReadDir
  Open := MemFS.Open
  Create := MemFS.Create
  Copy := MemFS.Copy
  Chmod := MemFS.Chmod
  Close := MemFS.Close
  RemoveAll := MemFS.RemoveAll
  CombinedOutput := fun name args fs => (toolOk name args, fs)
  Getpid := 42
  Getenv := noEnv

/-- A filesystem with an Alertmanager config file and a templates
directory holding `a.tmpl`, `b.txt`, `c.tmpl` and a subdirectory named
`old.tmpl`. -/
def fsTemplates : MemFS :=
  ⟨[("/tmp", .dir), ("/am.yml", .file 0o640 "route: default"), ("/templates", .dir),
      ("/templates/a.tmpl", .file 0o644 "template a"),
      ("/templates/b.txt", .file 0o644 "notes"),
      ("/templates/c.tmpl", .file 0o600 "template c"),
      ("/templates/old.tmpl", .dir)], [], []⟩

/-- The same filesystem where the templates directory may not be read. -/
def fsTemplatesUnreadable : MemFS := ⟨fsTemplates.nodes, [], ["/templates"]⟩

end Example

/-! ## Reasoning about runs -/

namespace Prog

variable {σ α β : Type}

@[simp] theorem pure_apply (a : α) (s : σ) : (pure a : Prog σ α) s = ⟨a, [], s⟩ := rfl

@[simp] theorem bind_apply (x : Prog σ α) (f : α → Prog σ β) (s : σ) :
    (x >>= f) s = ⟨(f (x s).val (x s).st).val, (x s).events ++ (f (x s).val (x s).st).events,
      (f (x s).val (x s).st).st⟩ := rfl

end Prog

section runs

variable {σ : Type}

@[simp] theorem Printf_apply (l : String) (s : σ) :
    (Printf l : Prog σ Unit) s = ⟨(), [Event.Log l], s⟩ := rfl

@[simp] theorem sysCall_apply (c : Call) (op : σ → error × σ) (s : σ) :
    sysCall c op s = ⟨(op s).1, [Event.Sys c (op s).1], (op s).2⟩ := rfl

@[simp] theorem sysCallVal_apply {α : Type} (c : Call) (op : σ → Except GoError α × σ) (s : σ) :
    sysCallVal c op s = ⟨(op s).1, [Event.Sys c (errOf (op s).1)], (op s).2⟩ := rfl

@[simp] theorem CombinedOutput_apply (os : OS σ) (name : String) (args : List String) (s : σ) :
    CombinedOutput os name args s =
      ⟨(os.CombinedOutput name args s).1,
        [Event.Exec name args (os.CombinedOutput name args s).1.1
          (os.CombinedOutput name args s).1.2],
        (os.CombinedOutput name args s).2⟩ := rfl

@[simp] theorem errOf_error {α : Type} (e : GoError) : errOf (Except.error e : Except GoError α) = some e :=
  rfl

@[simp] theorem errOf_ok {α : Type} (a : α) : errOf (Except.ok a : Except GoError α) = none := rfl

theorem forRange_nil {α β : Type} (body : α → β → Prog σ (Except GoError β)) (acc : β) (s : σ) :
    forRange body [] acc s = ⟨.ok acc, [], s⟩ := rfl

theorem forRange_cons {α β : Type} (body : α → β → Prog σ (Except GoError β)) (x : α)
    (xs : List α) (acc : β) (s : σ) :
    forRange body (x :: xs) acc s =
      match (body x acc s).val with
      | .error e => ⟨.error e, (body x acc s).events, (body x acc s).st⟩
      | .ok acc2 =>
        ⟨(forRange body xs acc2 (body x acc s).st).val,
          (body x acc s).events ++ (forRange body xs acc2 (body x acc s).st).events,
          (forRange body xs acc2 (body x acc s).st).st⟩ := by
  simp only [forRange, Prog.bind_apply]
  cases h : (body x acc s).val <;> simp

/-- What holds of the events of every iteration holds of the events of the
loop. -/
theorem forRange_events_forall {α β : Type} (P : Event → Prop)
    (body : α → β → Prog σ (Except GoError β))
    (h : ∀ x acc s, ∀ e ∈ (body x acc s).events, P e) :
    ∀ xs acc s, ∀ e ∈ (forRange body xs acc s).events, P e := by
  intro xs
  induction xs with
  | nil => intro acc s e he; simp [forRange_nil] at he
  | cons x xs ih =>
    intro acc s e he
    rw [forRange_cons] at he
    cases hv : (body x acc s).val with
    | error err => rw [hv] at he; exact h x acc s e he
    | ok acc2 =>
      rw [hv] at he
      simp only [List.mem_append] at he
      rcases he with he | he
      · exact h x acc s e he
      · exact ih _ _ e he

/-- What holds of the events of every iteration that goes on holds of the
events of a loop that runs to its end. -/
theorem forRange_ok_forall {α β : Type} (P : Event → Prop)
    (body : α → β → Prog σ (Except GoError β))
    (h : ∀ x acc s acc2, (body x acc s).val = .ok acc2 → ∀ e ∈ (body x acc s).events, P e) :
    ∀ xs acc s res, (forRange body xs acc s).val = .ok res →
      ∀ e ∈ (forRange body xs acc s).events, P e := by
  intro xs
  induction xs with
  | nil => intro acc s res _ e he; simp [forRange_nil] at he
  | cons x xs ih =>
    intro acc s res hres e he
    rw [forRange_cons] at he hres
    cases hv : (body x acc s).val with
    | error err => rw [hv] at hres; simp at hres
    | ok acc2 =>
      rw [hv] at he hres
      simp only [List.mem_append] at he
      rcases he with he | he
      · exact h x acc s acc2 hv e he
      · exact ih _ _ res hres e he

theorem ExecuteCommand_apply (os : OS σ) (name : String) (args : List String) (s : σ) :
    common.ExecuteCommand os name args s =
      ⟨((os.CombinedOutput name args s).1.1,
          (os.CombinedOutput name args s).1.2.map (fun err => Errorf
            ("command " ++ name ++ " " ++ strings.Join args " " ++ " failed: " ++ err.msg))),
        [Event.Log ("Executing command: " ++ name ++ " " ++ strings.Join args " "),
          Event.Exec name args (os.CombinedOutput name args s).1.1
            (os.CombinedOutput name args s).1.2,
          Event.Log (match (os.CombinedOutput name args s).1.2 with
            | some _ => "Command failed. Output:\n" ++ (os.CombinedOutput name args s).1.1
            | none => "Command successful.")],
        (os.CombinedOutput name args s).2⟩ := by
  simp only [common.ExecuteCommand, Prog.bind_apply, Printf_apply, CombinedOutput_apply]
  cases h : (os.CombinedOutput name args s).1.2 <;> simp

theorem EnsureDir_apply (os : OS σ) (dirName : String) (s : σ) :
    common.EnsureDir os dirName s =
      ⟨(match (os.MkdirAll dirName 0o750 s).1 with
          | some err =>
            if err.isExist then none
            else some (Errorf ("failed to create directory " ++ dirName ++ ": " ++ err.msg))
          | none => none),
        [Event.Sys (.MkdirAll dirName 0o750) (os.MkdirAll dirName 0o750 s).1],
        (os.MkdirAll dirName 0o750 s).2⟩ := by
  simp only [common.EnsureDir, Prog.bind_apply, sysCall_apply]
  cases h : (os.MkdirAll dirName 0o750 s).1 with
  | none => simp
  | some err => cases hx : err.isExist <;> simp [hx]

end runs

section copyfile

variable {σ : Type}

theorem CopyFile_outcome (os : OS σ) (src dst : String) (s : σ) :
    CopyOutcome src dst (common.CopyFile os src dst s).val
      (common.CopyFile os src dst s).events := by
  simp only [common.CopyFile, Prog.bind_apply, sysCallVal_apply]
  cases h1 : (os.Stat src s).1 with
  | error err => simpa [h1] using CopyOutcome.statFailed err
  | ok fi =>
    by_cases hreg : fi.Mode.IsRegular = true
    · cases h2 : (os.Open src (os.Stat src s).2).1 with
      | error err => simpa [h1, hreg, h2] using CopyOutcome.openFailed err
      | ok source =>
        cases h3 : (os.Create dst (os.Open src (os.Stat src s).2).2).1 with
        | error err =>
          simpa [h1, hreg, h2, h3] using CopyOutcome.createFailed err source _
        | ok destination =>
          cases h4 : (os.Copy destination source
              (os.Create dst (os.Open src (os.Stat src s).2).2).2).1 with
          | some err =>
            simpa [h1, hreg, h2, h3, h4] using CopyOutcome.copyFailed err source destination _ _
          | none =>
            simpa [h1, hreg, h2, h3, h4] using
              CopyOutcome.copied fi.Mode source destination _ _ _
    · simpa [h1, hreg] using CopyOutcome.notRegular

theorem CopyFile_noExec (os : OS σ) (src dst : String) (s : σ) :
    ∀ e ∈ (common.CopyFile os src dst s).events, e.isExec = false := by
  have h := CopyFile_outcome os src dst s
  revert h
  generalize (common.CopyFile os src dst s).val = v
  generalize (common.CopyFile os src dst s).events = evs
  intro h
  cases h <;> simp [Event.isExec]

theorem CopyFile_ok_noFailure (os : OS σ) (src dst : String) (s : σ)
    (hok : (common.CopyFile os src dst s).val = none) :
    ∀ e ∈ (common.CopyFile os src dst s).events, e.fsFailure = false := by
  have h := CopyFile_outcome os src dst s
  revert h hok
  generalize (common.CopyFile os src dst s).val = v
  generalize (common.CopyFile os src dst s).events = evs
  intro hok h
  cases h <;> simp_all [Event.fsFailure]

theorem CopyFile_ok_created (os : OS σ) (src dst : String) (s : σ)
    (hok : (common.CopyFile os src dst s).val = none) :
    createdFiles (common.CopyFile os src dst s).events = [dst] := by
  have h := CopyFile_outcome os src dst s
  revert h hok
  generalize (common.CopyFile os src dst s).val = v
  generalize (common.CopyFile os src dst s).events = evs
  intro hok h
  cases h <;> simp_all [createdFiles]

end copyfile

section traces

theorem isExec_of_isValidation {e : Event} (h : e.isValidation = true) : e.isExec = true := by
  cases e <;> simp_all [Event.isValidation, Event.isExec]

theorem isExec_of_isUpload {e : Event} (h : e.isUpload = true) : e.isExec = true := by
  cases e <;> simp_all [Event.isUpload, Event.isExec]

theorem isUpload_eq_false_of_not_isExec {e : Event} (h : e.isExec = false) :
    e.isUpload = false := by
  cases hu : e.isUpload
  · rfl
  · rw [isExec_of_isUpload hu] at h; cases h

theorem UploadGated_of_noExec {v : error} {evs : List Event}
    (h : ∀ e ∈ evs, e.isExec = false) : UploadGated v evs := by
  rintro ⟨e, he, hv, _⟩
  have := h e he
  rw [isExec_of_isValidation hv] at this
  cases this

theorem UploadGated_wrap {v : error} {pre evs post : List Event}
    (hpre : ∀ e ∈ pre, e.isExec = false) (hpost : ∀ e ∈ post, e.isExec = false)
    (h : UploadGated v evs) : UploadGated v (pre ++ evs ++ post) := by
  rintro ⟨e, he, hv, hf⟩
  simp only [List.mem_append] at he
  have hx := isExec_of_isValidation hv
  rcases he with (he | he) | he
  · rw [hpre e he] at hx; cases hx
  · obtain ⟨h1, h2⟩ := h ⟨e, he, hv, hf⟩
    refine ⟨h1, ?_⟩
    intro e2 he2
    simp only [List.mem_append] at he2
    rcases he2 with (he2 | he2) | he2
    · exact isUpload_eq_false_of_not_isExec (hpre e2 he2)
    · exact h2 e2 he2
    · exact isUpload_eq_false_of_not_isExec (hpost e2 he2)
  · rw [hpost e he] at hx; cases hx

theorem FailStop_of_none {bad : Event → Bool} {v : error} {evs : List Event}
    (h : ∀ e ∈ evs, bad e = false) : FailStop bad v evs := by
  intro pre e post heq hb
  have : e ∈ evs := by rw [heq]; simp
  rw [h e this] at hb
  cases hb

theorem FailStop_of_noExec {bad : Event → Bool} {v : error} {evs : List Event}
    (hv : v ≠ none) (h : ∀ e ∈ evs, e.isExec = false) : FailStop bad v evs := by
  intro pre e post heq _
  refine ⟨hv, ?_⟩
  intro e2 he2
  apply h
  rw [heq]
  simp [he2]

theorem FailStop_cons {bad : Event → Bool} {v : error} {x : Event} {evs : List Event} :
    FailStop bad v (x :: evs) ↔
      (bad x = true → v ≠ none ∧ ∀ e2 ∈ evs, e2.isExec = false) ∧ FailStop bad v evs := by
  constructor
  · intro h
    refine ⟨fun hb => h [] x evs rfl hb, ?_⟩
    intro pre e post heq hb
    exact h (x :: pre) e post (by rw [heq]; rfl) hb
  · rintro ⟨h1, h2⟩ pre e post heq hb
    cases pre with
    | nil =>
      simp only [List.nil_append, List.cons.injEq] at heq
      obtain ⟨rfl, rfl⟩ := heq
      exact h1 hb
    | cons y pre =>
      simp only [List.cons_append, List.cons.injEq] at heq
      exact h2 pre e post heq.2 hb

theorem FailStop_append_left {bad : Event → Bool} {v : error} {pre evs : List Event}
    (hpre : ∀ e ∈ pre, bad e = false) (h : FailStop bad v evs) :
    FailStop bad v (pre ++ evs) := by
  induction pre with
  | nil => simpa using h
  | cons x pre ih =>
    rw [List.cons_append, FailStop_cons]
    refine ⟨?_, ih (fun e he => hpre e (List.mem_cons_of_mem _ he))⟩
    intro hb
    rw [hpre x (List.mem_cons_self _ _)] at hb
    cases hb

theorem FailStop_append_right {bad : Event → Bool} {v : error} {evs post : List Event}
    (hpost : ∀ e ∈ post, bad e = false ∧ e.isExec = false) (h : FailStop bad v evs) :
    FailStop bad v (evs ++ post) := by
  induction evs with
  | nil => simpa using FailStop_of_none (fun e he => (hpost e he).1)
  | cons x evs ih =>
    rw [FailStop_cons] at h
    rw [List.cons_append, FailStop_cons]
    refine ⟨?_, ih h.2⟩
    intro hb
    obtain ⟨h1, h2⟩ := h.1 hb
    refine ⟨h1, ?_⟩
    intro e2 he2
    simp only [List.mem_append] at he2
    rcases he2 with he2 | he2
    · exact h2 e2 he2
    · exact (hpost e2 he2).2

theorem FailStop_wrap {bad : Event → Bool} {v : error} {pre evs post : List Event}
    (hpre : ∀ e ∈ pre, bad e = false)
    (hpost : ∀ e ∈ post, bad e = false ∧ e.isExec = false)
    (h : FailStop bad v evs) : FailStop bad v (pre ++ evs ++ post) := by
  rw [List.append_assoc]
  exact FailStop_append_left hpre (FailStop_append_right hpost h)

theorem OutputReported_of_noExec {v : error} {evs : List Event}
    (h : ∀ e ∈ evs, e.isExec = false) : OutputReported v evs := by
  intro name args output err he
  have := h _ he
  simp [Event.isExec] at this

theorem OutputReported_wrap {v : error} {pre evs post : List Event}
    (hpre : ∀ e ∈ pre, e.isExec = false) (hpost : ∀ e ∈ post, e.isExec = false)
    (h : OutputReported v evs) : OutputReported v (pre ++ evs ++ post) := by
  intro name args output err he
  simp only [List.mem_append] at he
  rcases he with (he | he) | he
  · have := hpre _ he
    simp [Event.isExec] at this
  · obtain ⟨e2, h1, h2⟩ := h name args output err he
    refine ⟨e2, h1, ?_⟩
    split
    · rename_i hl
      rw [if_pos hl] at h2
      exact ⟨h2.1, List.mem_append_left _ (List.mem_append_right _ h2.2)⟩
    · rename_i hl
      rw [if_neg hl] at h2
      exact h2
  · have := hpost _ he
    simp [Event.isExec] at this

theorem UploadIs_of_noExec {name : String} {args : List String} {evs : List Event}
    (h : ∀ e ∈ evs, e.isExec = false) : UploadIs name args evs := by
  intro e he hu
  have := h e he
  rw [isExec_of_isUpload hu] at this
  cases this

theorem UploadIs_wrap {name : String} {args : List String} {pre evs post : List Event}
    (hpre : ∀ e ∈ pre, e.isExec = false) (hpost : ∀ e ∈ post, e.isExec = false)
    (h : UploadIs name args evs) : UploadIs name args (pre ++ evs ++ post) := by
  intro e he hu
  simp only [List.mem_append] at he
  have hx := isExec_of_isUpload hu
  rcases he with (he | he) | he
  · rw [hpre e he] at hx; cases hx
  · exact h e he hu
  · rw [hpost e he] at hx; cases hx

end traces

section quiet

theorem fsFailure_eq_false_of_not_isSys {e : Event} (h : e.isSys = false) :
    e.fsFailure = false := by
  cases e <;> simp_all [Event.isSys, Event.fsFailure]

theorem fatal_eq_false_of_fsFailure {e : Event} (h : e.fsFailure = false) : e.fatal = false := by
  simp [Event.fatal, h]

theorem createdFiles_append (a b : List Event) :
    createdFiles (a ++ b) = createdFiles a ++ createdFiles b := by
  simp [createdFiles, List.filterMap_append]

theorem createdFiles_eq_nil_of_noSys {evs : List Event} (h : ∀ e ∈ evs, e.isSys = false) :
    createdFiles evs = [] := by
  induction evs with
  | nil => rfl
  | cons x evs ih =>
    have hx := h x (List.mem_cons_self _ _)
    have := ih (fun e he => h e (List.mem_cons_of_mem _ he))
    cases x <;> simp_all [createdFiles, Event.isSys]

end quiet

namespace mimirrules

variable {σ : Type}

theorem mimir_cleanup_apply (os : OS σ) (dir : String) (s : σ) :
    cleanup os dir s =
      ⟨(), Event.Log ("Cleaning up temporary directory: " ++ dir) ::
          Event.Sys (.RemoveAll dir) (os.RemoveAll dir s).1 ::
          (match (os.RemoveAll dir s).1 with
            | some err => [Event.Log ("Warning: failed to clean up temporary directory " ++
                dir ++ ": " ++ err.msg)]
            | none => []),
        (os.RemoveAll dir s).2⟩ := by
  simp only [cleanup, Prog.bind_apply, Printf_apply, sysCall_apply]
  cases h : (os.RemoveAll dir s).1 <;> simp

theorem mimir_lintFile_apply (os : OS σ) (ruleFile : String) (u : Unit) (s : σ) :
    lintFile os ruleFile u s =
      ⟨(match (os.CombinedOutput mimirtoolCmd (lintArgs ruleFile) s).1.2 with
          | some err => .error (Errorf (lintFailureMsg mimirtoolCmd (lintArgs ruleFile) err))
          | none => .ok ()),
        [Event.Log ("Linting rule file: " ++ ruleFile),
          Event.Log ("Executing command: " ++ mimirtoolCmd ++ " " ++
            strings.Join (lintArgs ruleFile) " "),
          Event.Exec mimirtoolCmd (lintArgs ruleFile)
            (os.CombinedOutput mimirtoolCmd (lintArgs ruleFile) s).1.1
            (os.CombinedOutput mimirtoolCmd (lintArgs ruleFile) s).1.2,
          Event.Log (match (os.CombinedOutput mimirtoolCmd (lintArgs ruleFile) s).1.2 with
            | some _ => "Command failed. Output:\n" ++
                (os.CombinedOutput mimirtoolCmd (lintArgs ruleFile) s).1.1
            | none => "Command successful."),
          Event.Log (match (os.CombinedOutput mimirtoolCmd (lintArgs ruleFile) s).1.2 with
            | some _ => "Linting failed for " ++ ruleFile ++ ":\n" ++
                (os.CombinedOutput mimirtoolCmd (lintArgs ruleFile) s).1.1
            | none => "Linting successful for " ++ ruleFile)],
        (os.CombinedOutput mimirtoolCmd (lintArgs ruleFile) s).2⟩ := by
  simp only [lintFile, Prog.bind_apply, Printf_apply, ExecuteCommand_apply]
  cases h : (os.CombinedOutput mimirtoolCmd (lintArgs ruleFile) s).1.2 <;>
    simp [Errorf, lintFailureMsg, lintArgs]

/-- The lint loop makes no filesystem call and no upload invocation. -/
theorem mimir_lintLoop_events (os : OS σ) (files : List String) (s : σ) :
    ∀ e ∈ (forRange (lintFile os) files () s).events,
      e.isSys = false ∧ e.isUpload = false := by
  apply forRange_events_forall (fun e => e.isSys = false ∧ e.isUpload = false)
  intro f u s e he
  rw [mimir_lintFile_apply] at he
  simp only [List.mem_cons, List.mem_singleton, List.not_mem_nil, or_false] at he
  rcases he with rfl | rfl | rfl | rfl | rfl <;> simp [Event.isSys, Event.isUpload, lintArgs]

/-- A lint loop that runs to its end has no failed invocation. -/
theorem mimir_lintLoop_ok (os : OS σ) (files : List String) (s : σ) (u : Unit)
    (h : (forRange (lintFile os) files () s).val = .ok u) :
    ∀ e ∈ (forRange (lintFile os) files () s).events, e.failed = false := by
  refine forRange_ok_forall (fun e => e.failed = false) (lintFile os) ?_ files () s u h
  intro f u s u2 hok e he
  rw [mimir_lintFile_apply] at he hok
  cases hc : (os.CombinedOutput mimirtoolCmd (lintArgs f) s).1.2 with
  | some err => rw [hc] at hok; simp at hok
  | none =>
    rw [hc] at he
    simp only [List.mem_cons, List.mem_singleton, List.not_mem_nil, or_false] at he
    rcases he with rfl | rfl | rfl | rfl | rfl <;> simp [Event.failed]

/-- A failed invocation of the lint loop ends it with the lint error, and
the output is logged. -/
theorem mimir_lintLoop_failed (os : OS σ) (files : List String) (s : σ)
    (name : String) (args : List String) (output : String) (err : GoError)
    (he : Event.Exec name args output (some err) ∈ (forRange (lintFile os) files () s).events) :
    (forRange (lintFile os) files () s).val = .error (Errorf (lintFailureMsg name args err)) ∧
      (Event.Exec name args output (some err)).isLint = true ∧
      Event.Log ("Linting failed for " ++ args.getD 2 "" ++ ":\n" ++ output) ∈
        (forRange (lintFile os) files () s).events := by
  induction files generalizing s with
  | nil => simp [forRange_nil] at he
  | cons f files ih =>
    rw [forRange_cons] at he ⊢
    rw [mimir_lintFile_apply] at he ⊢
    cases hc : (os.CombinedOutput mimirtoolCmd (lintArgs f) s).1.2 with
    | some err2 =>
      simp only [hc] at he ⊢
      simp only [List.mem_cons, List.mem_singleton, List.not_mem_nil, or_false,
        Event.Exec.injEq, reduceCtorEq, false_or] at he
      obtain ⟨rfl, rfl, rfl, h4⟩ := he
      cases h4
      refine ⟨rfl, by simp [Event.isLint, lintArgs], ?_⟩
      simp [lintArgs]
    | none =>
      simp only [hc] at he ⊢
      simp only [List.mem_append, List.mem_cons, List.mem_singleton, List.not_mem_nil, or_false,
        Event.Exec.injEq, reduceCtorEq, false_or, and_false] at he
      obtain ⟨h1, h2, h3⟩ := ih _ he
      exact ⟨h1, h2, List.mem_append_right _ h3⟩

end mimirrules

namespace mimirrules

variable {σ : Type}

/-- The two ways `lintAndSync` can go: a lint fails and its error is
returned; or every lint succeeds, the sync invocation is made after some
log lines, and its error, if any, is returned with the output. -/
theorem mimir_lintAndSync_run (os : OS σ) (mimirAddress mimirID syncTempDir : String)
    (tempRuleFiles : List String) (s : σ) :
    (∃ err, (forRange (lintFile os) tempRuleFiles () s).val = .error err ∧
      (lintAndSync os mimirAddress mimirID syncTempDir tempRuleFiles s).val = some err ∧
      (lintAndSync os mimirAddress mimirID syncTempDir tempRuleFiles s).events =
        [Event.Log ("Copied " ++ toString tempRuleFiles.length ++ " rule file(s) to " ++
            syncTempDir), Event.Log "Linting Mimir rule files..."] ++
          (forRange (lintFile os) tempRuleFiles () s).events) ∨
    (∃ u output xerr logs l2,
      (∀ e ∈ logs, ∃ l, e = Event.Log l) ∧
      (forRange (lintFile os) tempRuleFiles () s).val = .ok u ∧
      (lintAndSync os mimirAddress mimirID syncTempDir tempRuleFiles s).val =
        xerr.map (fun (err : GoError) => Errorf ("failed to sync Mimir rules with Mimir: " ++
          ("command " ++ mimirtoolCmd ++ " " ++
            strings.Join (syncArgs mimirAddress mimirID syncTempDir) " " ++ " failed: " ++
            err.msg) ++ "\nOutput:\n" ++ output)) ∧
      (lintAndSync os mimirAddress mimirID syncTempDir tempRuleFiles s).events =
        [Event.Log ("Copied " ++ toString tempRuleFiles.length ++ " rule file(s) to " ++
            syncTempDir), Event.Log "Linting Mimir rule files..."] ++
          (forRange (lintFile os) tempRuleFiles () s).events ++
          (logs ++
            Event.Exec mimirtoolCmd (syncArgs mimirAddress mimirID syncTempDir) output xerr ::
            Event.Log l2 ::
            (match xerr with
              | some _ => []
              | none => [Event.Log "Mimir rules successfully synced."]))) := by
  cases h : (forRange (lintFile os) tempRuleFiles () s).val with
  | error err =>
    left
    refine ⟨err, rfl, ?_, ?_⟩ <;>
      simp [lintAndSync, Prog.bind_apply, Printf_apply, h]
  | ok u =>
    right
    refine ⟨u, (os.CombinedOutput mimirtoolCmd (syncArgs mimirAddress mimirID syncTempDir)
        (forRange (lintFile os) tempRuleFiles () s).st).1.1,
      (os.CombinedOutput mimirtoolCmd (syncArgs mimirAddress mimirID syncTempDir)
        (forRange (lintFile os) tempRuleFiles () s).st).1.2,
      [Event.Log "Syncing Mimir rules with Mimir...",
        Event.Log ("Executing command: " ++ mimirtoolCmd ++ " " ++
          strings.Join (syncArgs mimirAddress mimirID syncTempDir) " ")],
      (match (os.CombinedOutput mimirtoolCmd (syncArgs mimirAddress mimirID syncTempDir)
          (forRange (lintFile os) tempRuleFiles () s).st).1.2 with
        | some _ => "Command failed. Output:\n" ++
          (os.CombinedOutput mimirtoolCmd (syncArgs mimirAddress mimirID syncTempDir)
            (forRange (lintFile os) tempRuleFiles () s).st).1.1
        | none => "Command successful."), by simp, rfl, ?_, ?_⟩ <;>
    cases h2 : (os.CombinedOutput mimirtoolCmd (syncArgs mimirAddress mimirID syncTempDir)
      (forRange (lintFile os) tempRuleFiles () s).st).1.2 <;>
    simp [lintAndSync, Prog.bind_apply, Printf_apply, h, h2, ExecuteCommand_apply, Errorf]

end mimirrules

namespace mimirrules

variable {σ : Type}

theorem mimir_lintAndSync_noSys (os : OS σ) (mimirAddress mimirID syncTempDir : String)
    (tempRuleFiles : List String) (s : σ) :
    ∀ e ∈ (lintAndSync os mimirAddress mimirID syncTempDir tempRuleFiles s).events,
      e.isSys = false := by
  intro e he
  have hL := mimir_lintLoop_events os tempRuleFiles s
  rcases mimir_lintAndSync_run os mimirAddress mimirID syncTempDir tempRuleFiles s with
    ⟨err, _, _, hev⟩ | ⟨u, output, xerr, logs, l2, hlogs, _, _, hev⟩
  · rw [hev] at he
    simp only [List.mem_append, List.mem_cons, List.mem_singleton, List.not_mem_nil,
      or_false] at he
    rcases he with (rfl | rfl) | he
    · rfl
    · rfl
    · exact (hL e he).1
  · rw [hev] at he
    simp only [List.mem_append, List.mem_cons, List.mem_singleton, List.not_mem_nil,
      or_false] at he
    rcases he with ((rfl | rfl) | he) | he | rfl | rfl | he
    · rfl
    · rfl
    · exact (hL e he).1
    · obtain ⟨l, rfl⟩ := hlogs e he; rfl
    · rfl
    · rfl
    · cases xerr <;> simp at he
      subst he; rfl

theorem mimir_lintAndSync_gated (os : OS σ) (mimirAddress mimirID syncTempDir : String)
    (tempRuleFiles : List String) (s : σ) :
    UploadGated (lintAndSync os mimirAddress mimirID syncTempDir tempRuleFiles s).val
      (lintAndSync os mimirAddress mimirID syncTempDir tempRuleFiles s).events := by
  have hL := mimir_lintLoop_events os tempRuleFiles s
  rcases mimir_lintAndSync_run os mimirAddress mimirID syncTempDir tempRuleFiles s with
    ⟨err, _, hv, hev⟩ | ⟨u, output, xerr, logs, l2, hlogs, hok, _, hev⟩
  · rw [hv, hev]
    intro _
    refine ⟨by simp, ?_⟩
    intro e he
    simp only [List.mem_append, List.mem_cons, List.mem_singleton, List.not_mem_nil,
      or_false] at he
    rcases he with (rfl | rfl) | he
    · rfl
    · rfl
    · exact (hL e he).2
  · rw [hev]
    rintro ⟨e, he, hval, hfail⟩
    exfalso
    simp only [List.mem_append, List.mem_cons, List.mem_singleton, List.not_mem_nil,
      or_false] at he
    rcases he with ((rfl | rfl) | he) | he | rfl | rfl | he
    · simp [Event.isValidation] at hval
    · simp [Event.isValidation] at hval
    · rw [mimir_lintLoop_ok os tempRuleFiles s u hok e he] at hfail; cases hfail
    · obtain ⟨l, rfl⟩ := hlogs e he; simp [Event.isValidation] at hval
    · simp [Event.isValidation, syncArgs] at hval
    · simp [Event.isValidation] at hval
    · cases xerr <;> simp at he
      subst he; simp [Event.isValidation] at hval

theorem mimir_lintAndSync_reported (os : OS σ) (mimirAddress mimirID syncTempDir : String)
    (tempRuleFiles : List String) (s : σ) :
    OutputReported (lintAndSync os mimirAddress mimirID syncTempDir tempRuleFiles s).val
      (lintAndSync os mimirAddress mimirID syncTempDir tempRuleFiles s).events := by
  rcases mimir_lintAndSync_run os mimirAddress mimirID syncTempDir tempRuleFiles s with
    ⟨err, herr, hv, hev⟩ | ⟨u, output, xerr, logs, l2, hlogs, hok, hv, hev⟩
  · rw [hv, hev]
    intro name args out err2 he
    simp only [List.mem_append, List.mem_cons, List.mem_singleton, List.not_mem_nil,
      or_false, reduceCtorEq, false_or] at he
    obtain ⟨h1, h2, h3⟩ := mimir_lintLoop_failed os tempRuleFiles s name args out err2 he
    rw [herr] at h1
    cases h1
    refine ⟨_, rfl, ?_⟩
    rw [if_pos h2]
    exact ⟨rfl, List.mem_append_right _ h3⟩
  · rw [hv, hev]
    intro name args out err2 he
    simp only [List.mem_append, List.mem_cons, List.mem_singleton, List.not_mem_nil,
      or_false, reduceCtorEq, false_or, Event.Exec.injEq] at he
    rcases he with he | he | ⟨rfl, rfl, rfl, rfl⟩ | he
    · have := mimir_lintLoop_ok os tempRuleFiles s u hok _ he
      simp [Event.failed] at this
    · obtain ⟨l, hl⟩ := hlogs _ he; cases hl
    · refine ⟨_, rfl, ?_⟩
      rw [if_neg (by simp [Event.isLint, syncArgs])]
      simp only [Errorf]
      exact List.suffix_append _ _ |>.isInfix
    · cases xerr <;> simp at he

end mimirrules

namespace mimirrules

variable {σ : Type}

theorem mimir_copyEntry_skip (os : OS σ) (rulesPath syncTempDir : String) (entry : DirEntry)
    (acc : List String) (s : σ) (h : isRuleFile entry = false) :
    copyEntry os rulesPath syncTempDir entry acc s = ⟨.ok acc, [], s⟩ := by
  unfold isRuleFile at h
  simp [copyEntry, h]

theorem mimir_copyEntry_copy (os : OS σ) (rulesPath syncTempDir : String) (entry : DirEntry)
    (acc : List String) (s : σ) (h : isRuleFile entry = true) :
    copyEntry os rulesPath syncTempDir entry acc s =
      ⟨(match (common.CopyFile os (filepath.Join [rulesPath, entry.Name])
            (filepath.Join [syncTempDir, entry.Name]) s).val with
          | some err => .error (Errorf ("failed to copy rule file " ++
              filepath.Join [rulesPath, entry.Name] ++ " to " ++
              filepath.Join [syncTempDir, entry.Name] ++ ": " ++ err.msg))
          | none => .ok (acc ++ [filepath.Join [syncTempDir, entry.Name]])),
        Event.Log ("Copying rule file " ++ filepath.Join [rulesPath, entry.Name] ++ " to " ++
            filepath.Join [syncTempDir, entry.Name]) ::
          (common.CopyFile os (filepath.Join [rulesPath, entry.Name])
            (filepath.Join [syncTempDir, entry.Name]) s).events,
        (common.CopyFile os (filepath.Join [rulesPath, entry.Name])
          (filepath.Join [syncTempDir, entry.Name]) s).st⟩ := by
  unfold isRuleFile at h
  simp only [copyEntry, h, if_true, Prog.bind_apply, Printf_apply]
  cases hc : (common.CopyFile os (filepath.Join [rulesPath, entry.Name])
    (filepath.Join [syncTempDir, entry.Name]) s).val <;> simp

theorem mimir_copyEntry_noExec (os : OS σ) (rulesPath syncTempDir : String) (entry : DirEntry)
    (acc : List String) (s : σ) :
    ∀ e ∈ (copyEntry os rulesPath syncTempDir entry acc s).events, e.isExec = false := by
  intro e he
  cases h : isRuleFile entry with
  | false => rw [mimir_copyEntry_skip _ _ _ _ _ _ h] at he; simp at he
  | true =>
    rw [mimir_copyEntry_copy _ _ _ _ _ _ h] at he
    simp only [List.mem_cons] at he
    rcases he with rfl | he
    · rfl
    · exact CopyFile_noExec _ _ _ _ e he

theorem mimir_copyLoop_noExec (os : OS σ) (rulesPath syncTempDir : String) (entries : List DirEntry)
    (acc : List String) (s : σ) :
    ∀ e ∈ (forRange (copyEntry os rulesPath syncTempDir) entries acc s).events,
      e.isExec = false :=
  forRange_events_forall (fun e => e.isExec = false) _
    (fun entry acc s => mimir_copyEntry_noExec os rulesPath syncTempDir entry acc s) entries acc s

theorem mimir_copyLoop_ok_noFailure (os : OS σ) (rulesPath syncTempDir : String)
    (entries : List DirEntry) (acc : List String) (s : σ) (files : List String)
    (h : (forRange (copyEntry os rulesPath syncTempDir) entries acc s).val = .ok files) :
    ∀ e ∈ (forRange (copyEntry os rulesPath syncTempDir) entries acc s).events,
      e.fsFailure = false := by
  refine forRange_ok_forall (fun e => e.fsFailure = false) _ ?_ entries acc s files h
  intro entry acc s acc2 hok e he
  cases hq : isRuleFile entry with
  | false => rw [mimir_copyEntry_skip _ _ _ _ _ _ hq] at he; simp at he
  | true =>
    rw [mimir_copyEntry_copy _ _ _ _ _ _ hq] at he hok
    cases hc : (common.CopyFile os (filepath.Join [rulesPath, entry.Name])
      (filepath.Join [syncTempDir, entry.Name]) s).val with
    | some err => rw [hc] at hok; simp at hok
    | none =>
      simp only [List.mem_cons] at he
      rcases he with rfl | he
      · rfl
      · exact CopyFile_ok_noFailure _ _ _ _ hc e he

/-- A copy loop that runs to its end has staged exactly the rule files of
the listing, in order, and has created exactly those files. -/
theorem mimir_copyLoop_ok_staged (os : OS σ) (rulesPath syncTempDir : String)
    (entries : List DirEntry) (acc : List String) (s : σ) (files : List String)
    (h : (forRange (copyEntry os rulesPath syncTempDir) entries acc s).val = .ok files) :
    files = acc ++ stagedPaths syncTempDir entries ∧
      createdFiles (forRange (copyEntry os rulesPath syncTempDir) entries acc s).events =
        stagedPaths syncTempDir entries := by
  induction entries generalizing acc s with
  | nil =>
    rw [forRange_nil] at h
    simp only [Except.ok.injEq] at h
    simp [forRange_nil, stagedPaths, createdFiles, h]
  | cons entry entries ih =>
    rw [forRange_cons] at h ⊢
    cases hq : isRuleFile entry with
    | false =>
      rw [mimir_copyEntry_skip _ _ _ _ _ _ hq] at h ⊢
      obtain ⟨h1, h2⟩ := ih acc s h
      simp only [List.nil_append]
      simp [stagedPaths, List.filter_cons, hq] at h1 h2 ⊢
      exact ⟨h1, h2⟩
    | true =>
      rw [mimir_copyEntry_copy _ _ _ _ _ _ hq] at h ⊢
      cases hc : (common.CopyFile os (filepath.Join [rulesPath, entry.Name])
        (filepath.Join [syncTempDir, entry.Name]) s).val with
      | some err => simp [hc] at h
      | none =>
        simp only [hc] at h ⊢
        obtain ⟨h1, h2⟩ := ih _ _ h
        have hcr := CopyFile_ok_created _ _ _ _ hc
        constructor
        · rw [h1]; simp [stagedPaths, List.filter_cons, hq]
        · rw [createdFiles_append, h2]
          have : createdFiles (Event.Log ("Copying rule file " ++
              filepath.Join [rulesPath, entry.Name] ++ " to " ++
              filepath.Join [syncTempDir, entry.Name]) ::
              (common.CopyFile os (filepath.Join [rulesPath, entry.Name])
                (filepath.Join [syncTempDir, entry.Name]) s).events) =
              [filepath.Join [syncTempDir, entry.Name]] := by
            rw [← hcr]; simp [createdFiles]
          rw [this]
          simp [stagedPaths, List.filter_cons, hq]

/-- Over a listing without rule files the copy loop does nothing. -/
theorem mimir_copyLoop_none (os : OS σ) (rulesPath syncTempDir : String)
    (entries : List DirEntry) (acc : List String) (s : σ)
    (h : ∀ entry ∈ entries, isRuleFile entry = false) :
    forRange (copyEntry os rulesPath syncTempDir) entries acc s = ⟨.ok acc, [], s⟩ := by
  induction entries with
  | nil => rfl
  | cons entry entries ih =>
    rw [forRange_cons, mimir_copyEntry_skip _ _ _ _ _ _ (h entry (List.mem_cons_self _ _))]
    simp only [List.nil_append]
    exact ih (fun e he => h e (List.mem_cons_of_mem _ he))

end mimirrules

namespace mimirrules

variable {σ : Type}

/-- The three ways steps 2 to 4 can go: a failure before any invocation; a
directory without rule files; or staging without a failure followed by
linting and syncing. -/
theorem mimir_syncSteps_cases (os : OS σ) (rulesPath mimirAddress mimirID syncTempDir : String)
    (s : σ) :
    ((syncSteps os rulesPath mimirAddress mimirID syncTempDir s).val ≠ none ∧
      ∀ e ∈ (syncSteps os rulesPath mimirAddress mimirID syncTempDir s).events,
        e.isExec = false) ∨
    ((syncSteps os rulesPath mimirAddress mimirID syncTempDir s).val = none ∧
      ∀ e ∈ (syncSteps os rulesPath mimirAddress mimirID syncTempDir s).events,
        e.isExec = false ∧ e.fsFailure = false) ∨
    (∃ pre files s2,
      (syncSteps os rulesPath mimirAddress mimirID syncTempDir s).events =
        pre ++ (lintAndSync os mimirAddress mimirID syncTempDir files s2).events ∧
      (syncSteps os rulesPath mimirAddress mimirID syncTempDir s).val =
        (lintAndSync os mimirAddress mimirID syncTempDir files s2).val ∧
      ∀ e ∈ pre, e.isExec = false ∧ e.fsFailure = false) := by
  simp only [syncSteps, Prog.bind_apply, Printf_apply, sysCallVal_apply]
  cases hstat : (os.Stat rulesPath s).1 with
  | error err => left; simp [Event.isExec]
  | ok fileInfo =>
    cases hdir : fileInfo.IsDir with
    | true =>
      cases hread : (os.ReadDir rulesPath (os.Stat rulesPath s).2).1 with
      | error err => left; simp [hdir, hread, Event.isExec]
      | ok entries =>
        have hnx := mimir_copyLoop_noExec os rulesPath syncTempDir entries []
          (os.ReadDir rulesPath (os.Stat rulesPath s).2).2
        cases hloop : (forRange (copyEntry os rulesPath syncTempDir) entries []
            (os.ReadDir rulesPath (os.Stat rulesPath s).2).2).val with
        | error err =>
          left
          simp only [hdir, hread, hloop, if_true, Prog.bind_apply, Printf_apply,
            sysCallVal_apply, Prog.pure_apply]
          refine ⟨by simp, ?_⟩
          intro e he
          simp only [List.mem_append, List.mem_cons, List.mem_singleton, List.not_mem_nil,
            or_false, List.append_nil] at he
          rcases he with rfl | rfl | rfl | rfl | he
          · rfl
          · rfl
          · rfl
          · rfl
          · exact hnx e he
        | ok files =>
          have hnf := mimir_copyLoop_ok_noFailure os rulesPath syncTempDir entries [] _ files hloop
          by_cases hlen : files.length = 0
          · right; left
            simp only [hdir, hread, hloop, hlen, if_true, Prog.bind_apply, Printf_apply,
              sysCallVal_apply, Prog.pure_apply]
            refine ⟨by simp, ?_⟩
            intro e he
            simp only [List.mem_append, List.mem_cons, List.mem_singleton, List.not_mem_nil,
              or_false, List.append_nil] at he
            rcases he with rfl | rfl | rfl | rfl | he | rfl
            · exact ⟨rfl, rfl⟩
            · exact ⟨rfl, rfl⟩
            · exact ⟨rfl, rfl⟩
            · exact ⟨rfl, rfl⟩
            · exact ⟨hnx e he, hnf e he⟩
            · exact ⟨rfl, rfl⟩
          · right; right
            have hne : ¬ files = [] := fun h0 => hlen (by simp [h0])
            refine ⟨[Event.Log ("Using temporary directory: " ++ syncTempDir),
              Event.Sys (.Stat rulesPath) none,
              Event.Log ("Processing rules from directory: " ++ rulesPath),
              Event.Sys (.ReadDir rulesPath) none] ++
              (forRange (copyEntry os rulesPath syncTempDir) entries []
                (os.ReadDir rulesPath (os.Stat rulesPath s).2).2).events, files,
              (forRange (copyEntry os rulesPath syncTempDir) entries []
                (os.ReadDir rulesPath (os.Stat rulesPath s).2).2).st, ?_, ?_, ?_⟩
            · simp [hdir, hread, hloop, hne]
            · simp [hdir, hread, hloop, hne]
            · intro e he
              simp only [List.mem_append, List.mem_cons, List.mem_singleton, List.not_mem_nil,
                or_false] at he
              rcases he with (rfl | rfl | rfl | rfl) | he
              · exact ⟨rfl, rfl⟩
              · exact ⟨rfl, rfl⟩
              · exact ⟨rfl, rfl⟩
              · exact ⟨rfl, rfl⟩
              · exact ⟨hnx e he, hnf e he⟩
    | false =>
      by_cases hsuf : (strings.HasSuffix rulesPath ".yaml" ||
          strings.HasSuffix rulesPath ".yml") = true
      · have hnx := CopyFile_noExec os rulesPath
          (filepath.Join [syncTempDir, filepath.Base rulesPath]) (os.Stat rulesPath s).2
        cases hc : (common.CopyFile os rulesPath
            (filepath.Join [syncTempDir, filepath.Base rulesPath]) (os.Stat rulesPath s).2).val with
        | some err =>
          left
          refine ⟨by simp [hdir, hsuf, hc], ?_⟩
          intro e he
          simp [hdir, hsuf, hc] at he
          rcases he with rfl | rfl | rfl | he
          · rfl
          · rfl
          · rfl
          · exact hnx e he
        | none =>
          have hnf := CopyFile_ok_noFailure os rulesPath _ _ hc
          right; right
          refine ⟨[Event.Log ("Using temporary directory: " ++ syncTempDir),
            Event.Sys (.Stat rulesPath) none,
            Event.Log ("Copying single rule file " ++ rulesPath ++ " to " ++
              filepath.Join [syncTempDir, filepath.Base rulesPath])] ++
            (common.CopyFile os rulesPath
              (filepath.Join [syncTempDir, filepath.Base rulesPath])
              (os.Stat rulesPath s).2).events,
            [filepath.Join [syncTempDir, filepath.Base rulesPath]],
            (common.CopyFile os rulesPath
              (filepath.Join [syncTempDir, filepath.Base rulesPath])
              (os.Stat rulesPath s).2).st, ?_, ?_, ?_⟩
          · simp [hdir, hsuf, hc]
          · simp [hdir, hsuf, hc]
          · intro e he
            simp only [List.mem_append, List.mem_cons, List.mem_singleton, List.not_mem_nil,
              or_false] at he
            rcases he with (rfl | rfl | rfl) | he
            · exact ⟨rfl, rfl⟩
            · exact ⟨rfl, rfl⟩
            · exact ⟨rfl, rfl⟩
            · exact ⟨hnx e he, hnf e he⟩
      · left
        simp [hdir, hsuf, Event.isExec]

end mimirrules

namespace mimirrules

variable {σ : Type}

theorem mimir_cleanup_quiet (os : OS σ) (dir : String) (s : σ) :
    ∀ e ∈ (cleanup os dir s).events, e.isExec = false ∧ e.fsFailure = false := by
  intro e he
  rw [mimir_cleanup_apply] at he
  simp only [List.mem_cons] at he
  rcases he with rfl | rfl | he
  · exact ⟨rfl, rfl⟩
  · exact ⟨rfl, rfl⟩
  · cases h : (os.RemoveAll dir s).1 <;> simp [h] at he
    subst he; exact ⟨rfl, rfl⟩

theorem mimir_Sync_apply (os : OS σ) (rulesPath mimirAddress mimirID namespaceArg tempBaseDir : String)
    (s : σ) :
    Sync os rulesPath mimirAddress mimirID namespaceArg tempBaseDir s =
      match (common.EnsureDir os (syncTempDir os tempBaseDir) s).val with
      | some err =>
        ⟨some (Errorf ("failed to create temporary sync directory " ++
            syncTempDir os tempBaseDir ++ ": " ++ err.msg)),
          [Event.Log ("Starting Mimir rules sync for Mimir instance: " ++ mimirAddress ++
              " (ID: " ++ mimirID ++ "), Namespace: " ++ namespaceArg),
            Event.Log ("Rules path: " ++ rulesPath),
            Event.Sys (.MkdirAll (syncTempDir os tempBaseDir) 0o750)
              (os.MkdirAll (syncTempDir os tempBaseDir) 0o750 s).1],
          (os.MkdirAll (syncTempDir os tempBaseDir) 0o750 s).2⟩
      | none =>
        ⟨(syncSteps os rulesPath mimirAddress mimirID (syncTempDir os tempBaseDir)
            (os.MkdirAll (syncTempDir os tempBaseDir) 0o750 s).2).val,
          [Event.Log ("Starting Mimir rules sync for Mimir instance: " ++ mimirAddress ++
              " (ID: " ++ mimirID ++ "), Namespace: " ++ namespaceArg),
            Event.Log ("Rules path: " ++ rulesPath),
            Event.Sys (.MkdirAll (syncTempDir os tempBaseDir) 0o750)
              (os.MkdirAll (syncTempDir os tempBaseDir) 0o750 s).1] ++
            (syncSteps os rulesPath mimirAddress mimirID (syncTempDir os tempBaseDir)
              (os.MkdirAll (syncTempDir os tempBaseDir) 0o750 s).2).events ++
            (cleanup os (syncTempDir os tempBaseDir)
              (syncSteps os rulesPath mimirAddress mimirID (syncTempDir os tempBaseDir)
                (os.MkdirAll (syncTempDir os tempBaseDir) 0o750 s).2).st).events,
          (os.RemoveAll (syncTempDir os tempBaseDir)
            (syncSteps os rulesPath mimirAddress mimirID (syncTempDir os tempBaseDir)
              (os.MkdirAll (syncTempDir os tempBaseDir) 0o750 s).2).st).2⟩ := by
  simp only [Sync, Prog.bind_apply, Printf_apply]
  cases h : (common.EnsureDir os (syncTempDir os tempBaseDir) s).val with
  | some err => simp [EnsureDir_apply]
  | none => simp [EnsureDir_apply, mimir_cleanup_apply]

/-- When `EnsureDir` returns nil, the `MkdirAll` event is no fatal failure. -/
theorem mimir_mkdir_not_fatal (os : OS σ) (dir : String) (s : σ)
    (h : (common.EnsureDir os dir s).val = none) :
    (Event.Sys (.MkdirAll dir 0o750) (os.MkdirAll dir 0o750 s).1).fatal = false := by
  rw [EnsureDir_apply] at h
  cases hm : (os.MkdirAll dir 0o750 s).1 with
  | none => rfl
  | some err =>
    simp only [hm] at h
    cases hx : err.isExist with
    | true => simp [Event.fatal, Event.mkdirExists, hx]
    | false => simp [hx] at h

/-- The three ways a run of `Sync` can go: a failure before any
invocation; a directory without rule files; or staging without a fatal
failure followed by linting and syncing, then the cleanup. -/
theorem mimir_Sync_cases (os : OS σ) (rulesPath mimirAddress mimirID namespaceArg tempBaseDir : String)
    (s : σ) :
    ((Sync os rulesPath mimirAddress mimirID namespaceArg tempBaseDir s).val ≠ none ∧
      ∀ e ∈ (Sync os rulesPath mimirAddress mimirID namespaceArg tempBaseDir s).events,
        e.isExec = false) ∨
    ((Sync os rulesPath mimirAddress mimirID namespaceArg tempBaseDir s).val = none ∧
      ∀ e ∈ (Sync os rulesPath mimirAddress mimirID namespaceArg tempBaseDir s).events,
        e.isExec = false ∧ e.fatal = false) ∨
    (∃ pre files s2 post,
      (Sync os rulesPath mimirAddress mimirID namespaceArg tempBaseDir s).events =
        pre ++ (lintAndSync os mimirAddress mimirID (syncTempDir os tempBaseDir) files s2).events
          ++ post ∧
      (Sync os rulesPath mimirAddress mimirID namespaceArg tempBaseDir s).val =
        (lintAndSync os mimirAddress mimirID (syncTempDir os tempBaseDir) files s2).val ∧
      (∀ e ∈ pre, e.isExec = false ∧ e.fatal = false) ∧
      (∀ e ∈ post, e.isExec = false ∧ e.fatal = false)) := by
  rw [mimir_Sync_apply]
  cases hmk : (common.EnsureDir os (syncTempDir os tempBaseDir) s).val with
  | some err => left; simp [Event.isExec]
  | none =>
    have hm := mimir_mkdir_not_fatal os _ s hmk
    have hcl := mimir_cleanup_quiet os (syncTempDir os tempBaseDir)
      (syncSteps os rulesPath mimirAddress mimirID (syncTempDir os tempBaseDir)
        (os.MkdirAll (syncTempDir os tempBaseDir) 0o750 s).2).st
    simp only
    rcases mimir_syncSteps_cases os rulesPath mimirAddress mimirID (syncTempDir os tempBaseDir)
        (os.MkdirAll (syncTempDir os tempBaseDir) 0o750 s).2 with
      ⟨hv, hx⟩ | ⟨hv, hx⟩ | ⟨pre, files, s2, hev, hv, hpre⟩
    · left
      refine ⟨hv, ?_⟩
      intro e he
      simp only [List.mem_append, List.mem_cons, List.mem_singleton, List.not_mem_nil,
        or_false] at he
      rcases he with ((rfl | rfl | rfl) | he) | he
      · rfl
      · rfl
      · rfl
      · exact hx e he
      · exact (hcl e he).1
    · right; left
      refine ⟨hv, ?_⟩
      intro e he
      simp only [List.mem_append, List.mem_cons, List.mem_singleton, List.not_mem_nil,
        or_false] at he
      rcases he with ((rfl | rfl | rfl) | he) | he
      · exact ⟨rfl, rfl⟩
      · exact ⟨rfl, rfl⟩
      · exact ⟨rfl, hm⟩
      · exact ⟨(hx e he).1, fatal_eq_false_of_fsFailure (hx e he).2⟩
      · exact ⟨(hcl e he).1, fatal_eq_false_of_fsFailure (hcl e he).2⟩
    · right; right
      refine ⟨[Event.Log ("Starting Mimir rules sync for Mimir instance: " ++ mimirAddress ++
            " (ID: " ++ mimirID ++ "), Namespace: " ++ namespaceArg),
          Event.Log ("Rules path: " ++ rulesPath),
          Event.Sys (.MkdirAll (syncTempDir os tempBaseDir) 0o750)
            (os.MkdirAll (syncTempDir os tempBaseDir) 0o750 s).1] ++ pre, files, s2,
        (cleanup os (syncTempDir os tempBaseDir)
          (syncSteps os rulesPath mimirAddress mimirID (syncTempDir os tempBaseDir)
            (os.MkdirAll (syncTempDir os tempBaseDir) 0o750 s).2).st).events, ?_, hv, ?_, ?_⟩
      · rw [hev]; simp only [List.append_assoc]
      · intro e he
        simp only [List.mem_append, List.mem_cons, List.mem_singleton, List.not_mem_nil,
          or_false] at he
        rcases he with (rfl | rfl | rfl) | he
        · exact ⟨rfl, rfl⟩
        · exact ⟨rfl, rfl⟩
        · exact ⟨rfl, hm⟩
        · exact ⟨(hpre e he).1, fatal_eq_false_of_fsFailure (hpre e he).2⟩
      · intro e he
        exact ⟨(hcl e he).1, fatal_eq_false_of_fsFailure (hcl e he).2⟩

theorem mimir_Sync_gated (os : OS σ) (rulesPath mimirAddress mimirID namespaceArg tempBaseDir : String)
    (s : σ) :
    UploadGated (Sync os rulesPath mimirAddress mimirID namespaceArg tempBaseDir s).val
      (Sync os rulesPath mimirAddress mimirID namespaceArg tempBaseDir s).events := by
  rcases mimir_Sync_cases os rulesPath mimirAddress mimirID namespaceArg tempBaseDir s with
    ⟨_, hx⟩ | ⟨_, hx⟩ | ⟨pre, files, s2, post, hev, hv, hpre, hpost⟩
  · exact UploadGated_of_noExec hx
  · exact UploadGated_of_noExec (fun e he => (hx e he).1)
  · rw [hev, hv]
    exact UploadGated_wrap (fun e he => (hpre e he).1) (fun e he => (hpost e he).1)
      (mimir_lintAndSync_gated _ _ _ _ _ _)

theorem mimir_Sync_failStop (os : OS σ)
    (rulesPath mimirAddress mimirID namespaceArg tempBaseDir : String) (s : σ) :
    FailStop Event.fatal (Sync os rulesPath mimirAddress mimirID namespaceArg tempBaseDir s).val
      (Sync os rulesPath mimirAddress mimirID namespaceArg tempBaseDir s).events := by
  rcases mimir_Sync_cases os rulesPath mimirAddress mimirID namespaceArg tempBaseDir s with
    ⟨hv, hx⟩ | ⟨_, hx⟩ | ⟨pre, files, s2, post, hev, hv, hpre, hpost⟩
  · exact FailStop_of_noExec hv hx
  · exact FailStop_of_none (fun e he => (hx e he).2)
  · rw [hev, hv]
    refine FailStop_wrap (fun e he => (hpre e he).2) (fun e he => ⟨(hpost e he).2, (hpost e he).1⟩)
      (FailStop_of_none ?_)
    intro e he
    exact fatal_eq_false_of_fsFailure
      (fsFailure_eq_false_of_not_isSys (mimir_lintAndSync_noSys _ _ _ _ _ _ e he))

theorem mimir_Sync_reported (os : OS σ)
    (rulesPath mimirAddress mimirID namespaceArg tempBaseDir : String) (s : σ) :
    OutputReported (Sync os rulesPath mimirAddress mimirID namespaceArg tempBaseDir s).val
      (Sync os rulesPath mimirAddress mimirID namespaceArg tempBaseDir s).events := by
  rcases mimir_Sync_cases os rulesPath mimirAddress mimirID namespaceArg tempBaseDir s with
    ⟨_, hx⟩ | ⟨_, hx⟩ | ⟨pre, files, s2, post, hev, hv, hpre, hpost⟩
  · exact OutputReported_of_noExec hx
  · exact OutputReported_of_noExec (fun e he => (hx e he).1)
  · rw [hev, hv]
    exact OutputReported_wrap (fun e he => (hpre e he).1) (fun e he => (hpost e he).1)
      (mimir_lintAndSync_reported _ _ _ _ _ _)

end mimirrules
namespace lokirules

variable {σ : Type}

theorem loki_cleanup_apply (os : OS σ) (dir : String) (s : σ) :
    cleanup os dir s =
      ⟨(), Event.Log ("Cleaning up temporary directory: " ++ dir) ::
          Event.Sys (.RemoveAll dir) (os.RemoveAll dir s).1 ::
          (match (os.RemoveAll dir s).1 with
            | some err => [Event.Log ("Warning: failed to clean up temporary directory " ++
                dir ++ ": " ++ err.msg)]
            | none => []),
        (os.RemoveAll dir s).2⟩ := by
  simp only [cleanup, Prog.bind_apply, Printf_apply, sysCall_apply]
  cases h : (os.RemoveAll dir s).1 <;> simp

theorem loki_lintFile_apply (os : OS σ) (ruleFile : String) (u : Unit) (s : σ) :
    lintFile os ruleFile u s =
      ⟨(match (os.CombinedOutput lokitoolCmd (lintArgs ruleFile) s).1.2 with
          | some err => .error (Errorf (lintFailureMsg lokitoolCmd (lintArgs ruleFile) err))
          | none => .ok ()),
        [Event.Log ("Linting rule file: " ++ ruleFile),
          Event.Log ("Executing command: " ++ lokitoolCmd ++ " " ++
            strings.Join (lintArgs ruleFile) " "),
          Event.Exec lokitoolCmd (lintArgs ruleFile)
            (os.CombinedOutput lokitoolCmd (lintArgs ruleFile) s).1.1
            (os.CombinedOutput lokitoolCmd (lintArgs ruleFile) s).1.2,
          Event.Log (match (os.CombinedOutput lokitoolCmd (lintArgs ruleFile) s).1.2 with
            | some _ => "Command failed. Output:\n" ++
                (os.CombinedOutput lokitoolCmd (lintArgs ruleFile) s).1.1
            | none => "Command successful."),
          Event.Log (match (os.CombinedOutput lokitoolCmd (lintArgs ruleFile) s).1.2 with
            | some _ => "Linting failed for " ++ ruleFile ++ ":\n" ++
                (os.CombinedOutput lokitoolCmd (lintArgs ruleFile) s).1.1
            | none => "Linting successful for " ++ ruleFile)],
        (os.CombinedOutput lokitoolCmd (lintArgs ruleFile) s).2⟩ := by
  simp only [lintFile, Prog.bind_apply, Printf_apply, ExecuteCommand_apply]
  cases h : (os.CombinedOutput lokitoolCmd (lintArgs ruleFile) s).1.2 <;>
    simp [Errorf, lintFailureMsg, lintArgs]

/-- The lint loop makes no filesystem call and no upload invocation. -/
theorem loki_lintLoop_events (os : OS σ) (files : List String) (s : σ) :
    ∀ e ∈ (forRange (lintFile os) files () s).events,
      e.isSys = false ∧ e.isUpload = false := by
  apply forRange_events_forall (fun e => e.isSys = false ∧ e.isUpload = false)
  intro f u s e he
  rw [loki_lintFile_apply] at he
  simp only [List.mem_cons, List.mem_singleton, List.not_mem_nil, or_false] at he
  rcases he with rfl | rfl | rfl | rfl | rfl <;> simp [Event.isSys, Event.isUpload, lintArgs]

/-- A lint loop that runs to its end has no failed invocation. -/
theorem loki_lintLoop_ok (os : OS σ) (files : List String) (s : σ) (u : Unit)
    (h : (forRange (lintFile os) files () s).val = .ok u) :
    ∀ e ∈ (forRange (lintFile os) files () s).events, e.failed = false := by
  refine forRange_ok_forall (fun e => e.failed = false) (lintFile os) ?_ files () s u h
  intro f u s u2 hok e he
  rw [loki_lintFile_apply] at he hok
  cases hc : (os.CombinedOutput lokitoolCmd (lintArgs f) s).1.2 with
  | some err => rw [hc] at hok; simp at hok
  | none =>
    rw [hc] at he
    simp only [List.mem_cons, List.mem_singleton, List.not_mem_nil, or_false] at he
    rcases he with rfl | rfl | rfl | rfl | rfl <;> simp [Event.failed]

/-- A failed invocation of the lint loop ends it with the lint error, and
the output is logged. -/
theorem loki_lintLoop_failed (os : OS σ) (files : List String) (s : σ)
    (name : String) (args : List String) (output : String) (err : GoError)
    (he : Event.Exec name args output (some err) ∈ (forRange (lintFile os) files () s).events) :
    (forRange (lintFile os) files () s).val = .error (Errorf (lintFailureMsg name args err)) ∧
      (Event.Exec name args output (some err)).isLint = true ∧
      Event.Log ("Linting failed for " ++ args.getD 2 "" ++ ":\n" ++ output) ∈
        (forRange (lintFile os) files () s).events := by
  induction files generalizing s with
  | nil => simp [forRange_nil] at he
  | cons f files ih =>
    rw [forRange_cons] at he ⊢
    rw [loki_lintFile_apply] at he ⊢
    cases hc : (os.CombinedOutput lokitoolCmd (lintArgs f) s).1.2 with
    | some err2 =>
      simp only [hc] at he ⊢
      simp only [List.mem_cons, List.mem_singleton, List.not_mem_nil, or_false,
        Event.Exec.injEq, reduceCtorEq, false_or] at he
      obtain ⟨rfl, rfl, rfl, h4⟩ := he
      cases h4
      refine ⟨rfl, by simp [Event.isLint, lintArgs], ?_⟩
      simp [lintArgs]
    | none =>
      simp only [hc] at he ⊢
      simp only [List.mem_append, List.mem_cons, List.mem_singleton, List.not_mem_nil, or_false,
        Event.Exec.injEq, reduceCtorEq, false_or, and_false] at he
      obtain ⟨h1, h2, h3⟩ := ih _ he
      exact ⟨h1, h2, List.mem_append_right _ h3⟩

end lokirules

namespace lokirules

variable {σ : Type}

/-- The two ways `lintAndSync` can go: a lint fails and its error is
returned; or every lint succeeds, the sync invocation is made after some
log lines, and its error, if any, is returned with the output. -/
theorem loki_lintAndSync_run (os : OS σ) (lokiAddress orgID syncTempDir : String)
    (tempRuleFiles : List String) (s : σ) :
    (∃ err, (forRange (lintFile os) tempRuleFiles () s).val = .error err ∧
      (lintAndSync os lokiAddress orgID syncTempDir tempRuleFiles s).val = some err ∧
      (lintAndSync os lokiAddress orgID syncTempDir tempRuleFiles s).events =
        [Event.Log ("Copied " ++ toString tempRuleFiles.length ++ " rule file(s) to " ++
            syncTempDir), Event.Log "Linting Loki rule files..."] ++
          (forRange (lintFile os) tempRuleFiles () s).events) ∨
    (∃ u output xerr logs l2,
      (∀ e ∈ logs, ∃ l, e = Event.Log l) ∧
      (forRange (lintFile os) tempRuleFiles () s).val = .ok u ∧
      (lintAndSync os lokiAddress orgID syncTempDir tempRuleFiles s).val =
        xerr.map (fun (err : GoError) => Errorf ("failed to sync Loki rules with Loki: " ++
          ("command " ++ lokitoolCmd ++ " " ++
            strings.Join (syncArgs lokiAddress orgID syncTempDir) " " ++ " failed: " ++
            err.msg) ++ "\nOutput:\n" ++ output)) ∧
      (lintAndSync os lokiAddress orgID syncTempDir tempRuleFiles s).events =
        [Event.Log ("Copied " ++ toString tempRuleFiles.length ++ " rule file(s) to " ++
            syncTempDir), Event.Log "Linting Loki rule files..."] ++
          (forRange (lintFile os) tempRuleFiles () s).events ++
          (logs ++
            Event.Exec lokitoolCmd (syncArgs lokiAddress orgID syncTempDir) output xerr ::
            Event.Log l2 ::
            (match xerr with
              | some _ => []
              | none => [Event.Log "Loki rules synced successfully."]))) := by
  cases h : (forRange (lintFile os) tempRuleFiles () s).val with
  | error err =>
    left
    refine ⟨err, rfl, ?_, ?_⟩ <;>
      simp [lintAndSync, Prog.bind_apply, Printf_apply, h]
  | ok u =>
    right
    refine ⟨u, (os.CombinedOutput lokitoolCmd (syncArgs lokiAddress orgID syncTempDir)
        (forRange (lintFile os) tempRuleFiles () s).st).1.1,
      (os.CombinedOutput lokitoolCmd (syncArgs lokiAddress orgID syncTempDir)
        (forRange (lintFile os) tempRuleFiles () s).st).1.2,
      Event.Log "Syncing Loki rules with Loki..." ::
        ((if tempRuleFiles.length = 0 then
            [Event.Log ("No rule files to sync. If --rule-dirs is empty, lokitool might " ++
              "remove all rules for the given org-id. Proceeding with empty rule set.")]
          else []) ++
        [Event.Log ("Executing command: " ++ lokitoolCmd ++ " " ++
          strings.Join (syncArgs lokiAddress orgID syncTempDir) " ")]),
      (match (os.CombinedOutput lokitoolCmd (syncArgs lokiAddress orgID syncTempDir)
          (forRange (lintFile os) tempRuleFiles () s).st).1.2 with
        | some _ => "Command failed. Output:\n" ++
          (os.CombinedOutput lokitoolCmd (syncArgs lokiAddress orgID syncTempDir)
            (forRange (lintFile os) tempRuleFiles () s).st).1.1
        | none => "Command successful."), ?_, rfl, ?_, ?_⟩
    · intro e he
      by_cases hlen : tempRuleFiles.length = 0 <;> simp [hlen] at he
      · rcases he with rfl | rfl | rfl <;> exact ⟨_, rfl⟩
      · rcases he with rfl | rfl <;> exact ⟨_, rfl⟩
    all_goals
      cases h2 : (os.CombinedOutput lokitoolCmd (syncArgs lokiAddress orgID syncTempDir)
        (forRange (lintFile os) tempRuleFiles () s).st).1.2 <;>
      cases tempRuleFiles <;>
      simp_all [lintAndSync, Prog.bind_apply, Printf_apply, ExecuteCommand_apply, Errorf]

end lokirules

namespace lokirules

variable {σ : Type}

theorem loki_lintAndSync_noSys (os : OS σ) (lokiAddress orgID syncTempDir : String)
    (tempRuleFiles : List String) (s : σ) :
    ∀ e ∈ (lintAndSync os lokiAddress orgID syncTempDir tempRuleFiles s).events,
      e.isSys = false := by
  intro e he
  have hL := loki_lintLoop_events os tempRuleFiles s
  rcases loki_lintAndSync_run os lokiAddress orgID syncTempDir tempRuleFiles s with
    ⟨err, _, _, hev⟩ | ⟨u, output, xerr, logs, l2, hlogs, _, _, hev⟩
  · rw [hev] at he
    simp only [List.mem_append, List.mem_cons, List.mem_singleton, List.not_mem_nil,
      or_false] at he
    rcases he with (rfl | rfl) | he
    · rfl
    · rfl
    · exact (hL e he).1
  · rw [hev] at he
    simp only [List.mem_append, List.mem_cons, List.mem_singleton, List.not_mem_nil,
      or_false] at he
    rcases he with ((rfl | rfl) | he) | he | rfl | rfl | he
    · rfl
    · rfl
    · exact (hL e he).1
    · obtain ⟨l, rfl⟩ := hlogs e he; rfl
    · rfl
    · rfl
    · cases xerr <;> simp at he
      subst he; rfl

theorem loki_lintAndSync_gated (os : OS σ) (lokiAddress orgID syncTempDir : String)
    (tempRuleFiles : List String) (s : σ) :
    UploadGated (lintAndSync os lokiAddress orgID syncTempDir tempRuleFiles s).val
      (lintAndSync os lokiAddress orgID syncTempDir tempRuleFiles s).events := by
  have hL := loki_lintLoop_events os tempRuleFiles s
  rcases loki_lintAndSync_run os lokiAddress orgID syncTempDir tempRuleFiles s with
    ⟨err, _, hv, hev⟩ | ⟨u, output, xerr, logs, l2, hlogs, hok, _, hev⟩
  · rw [hv, hev]
    intro _
    refine ⟨by simp, ?_⟩
    intro e he
    simp only [List.mem_append, List.mem_cons, List.mem_singleton, List.not_mem_nil,
      or_false] at he
    rcases he with (rfl | rfl) | he
    · rfl
    · rfl
    · exact (hL e he).2
  · rw [hev]
    rintro ⟨e, he, hval, hfail⟩
    exfalso
    simp only [List.mem_append, List.mem_cons, List.mem_singleton, List.not_mem_nil,
      or_false] at he
    rcases he with ((rfl | rfl) | he) | he | rfl | rfl | he
    · simp [Event.isValidation] at hval
    · simp [Event.isValidation] at hval
    · rw [loki_lintLoop_ok os tempRuleFiles s u hok e he] at hfail; cases hfail
    · obtain ⟨l, rfl⟩ := hlogs e he; simp [Event.isValidation] at hval
    · simp [Event.isValidation, syncArgs] at hval
    · simp [Event.isValidation] at hval
    · cases xerr <;> simp at he
      subst he; simp [Event.isValidation] at hval

theorem loki_lintAndSync_reported (os : OS σ) (lokiAddress orgID syncTempDir : String)
    (tempRuleFiles : List String) (s : σ) :
    OutputReported (lintAndSync os lokiAddress orgID syncTempDir tempRuleFiles s).val
      (lintAndSync os lokiAddress orgID syncTempDir tempRuleFiles s).events := by
  rcases loki_lintAndSync_run os lokiAddress orgID syncTempDir tempRuleFiles s with
    ⟨err, herr, hv, hev⟩ | ⟨u, output, xerr, logs, l2, hlogs, hok, hv, hev⟩
  · rw [hv, hev]
    intro name args out err2 he
    simp only [List.mem_append, List.mem_cons, List.mem_singleton, List.not_mem_nil,
      or_false, reduceCtorEq, false_or] at he
    obtain ⟨h1, h2, h3⟩ := loki_lintLoop_failed os tempRuleFiles s name args out err2 he
    rw [herr] at h1
    cases h1
    refine ⟨_, rfl, ?_⟩
    rw [if_pos h2]
    exact ⟨rfl, List.mem_append_right _ h3⟩
  · rw [hv, hev]
    intro name args out err2 he
    simp only [List.mem_append, List.mem_cons, List.mem_singleton, List.not_mem_nil,
      or_false, reduceCtorEq, false_or, Event.Exec.injEq] at he
    rcases he with he | he | ⟨rfl, rfl, rfl, rfl⟩ | he
    · have := loki_lintLoop_ok os tempRuleFiles s u hok _ he
      simp [Event.failed] at this
    · obtain ⟨l, hl⟩ := hlogs _ he; cases hl
    · refine ⟨_, rfl, ?_⟩
      rw [if_neg (by simp [Event.isLint, syncArgs])]
      simp only [Errorf]
      exact List.suffix_append _ _ |>.isInfix
    · cases xerr <;> simp at he

theorem loki_lintAndSync_uploadIs (os : OS σ) (lokiAddress orgID syncTempDir : String)
    (tempRuleFiles : List String) (s : σ) :
    UploadIs lokitoolCmd (syncArgs lokiAddress orgID syncTempDir)
      (lintAndSync os lokiAddress orgID syncTempDir tempRuleFiles s).events := by
  have hL := loki_lintLoop_events os tempRuleFiles s
  intro e he hup
  rcases loki_lintAndSync_run os lokiAddress orgID syncTempDir tempRuleFiles s with
    ⟨err, _, _, hev⟩ | ⟨u, output, xerr, logs, l2, hlogs, _, _, hev⟩
  · rw [hev] at he
    simp only [List.mem_append, List.mem_cons, List.mem_singleton, List.not_mem_nil,
      or_false] at he
    rcases he with (rfl | rfl) | he
    · simp [Event.isUpload] at hup
    · simp [Event.isUpload] at hup
    · rw [(hL e he).2] at hup; cases hup
  · rw [hev] at he
    simp only [List.mem_append, List.mem_cons, List.mem_singleton, List.not_mem_nil,
      or_false] at he
    rcases he with ((rfl | rfl) | he) | he | rfl | rfl | he
    · simp [Event.isUpload] at hup
    · simp [Event.isUpload] at hup
    · rw [(hL e he).2] at hup; cases hup
    · obtain ⟨l, rfl⟩ := hlogs e he; simp [Event.isUpload] at hup
    · exact ⟨_, _, rfl⟩
    · simp [Event.isUpload] at hup
    · cases xerr <;> simp at he
      subst he; simp [Event.isUpload] at hup

end lokirules

namespace lokirules

variable {σ : Type}

theorem loki_copyEntry_skip (os : OS σ) (rulesPath syncTempDir : String) (entry : DirEntry)
    (acc : List String) (s : σ) (h : isRuleFile entry = false) :
    copyEntry os rulesPath syncTempDir entry acc s = ⟨.ok acc, [], s⟩ := by
  unfold isRuleFile at h
  simp [copyEntry, h]

theorem loki_copyEntry_copy (os : OS σ) (rulesPath syncTempDir : String) (entry : DirEntry)
    (acc : List String) (s : σ) (h : isRuleFile entry = true) :
    copyEntry os rulesPath syncTempDir entry acc s =
      ⟨(match (common.CopyFile os (filepath.Join [rulesPath, entry.Name])
            (filepath.Join [syncTempDir, entry.Name]) s).val with
          | some err => .error (Errorf ("failed to copy rule file " ++
              filepath.Join [rulesPath, entry.Name] ++ " to " ++
              filepath.Join [syncTempDir, entry.Name] ++ ": " ++ err.msg))
          | none => .ok (acc ++ [filepath.Join [syncTempDir, entry.Name]])),
        Event.Log ("Copying rule file " ++ filepath.Join [rulesPath, entry.Name] ++ " to " ++
            filepath.Join [syncTempDir, entry.Name]) ::
          (common.CopyFile os (filepath.Join [rulesPath, entry.Name])
            (filepath.Join [syncTempDir, entry.Name]) s).events,
        (common.CopyFile os (filepath.Join [rulesPath, entry.Name])
          (filepath.Join [syncTempDir, entry.Name]) s).st⟩ := by
  unfold isRuleFile at h
  simp only [copyEntry, h, if_true, Prog.bind_apply, Printf_apply]
  cases hc : (common.CopyFile os (filepath.Join [rulesPath, entry.Name])
    (filepath.Join [syncTempDir, entry.Name]) s).val <;> simp

theorem loki_copyEntry_noExec (os : OS σ) (rulesPath syncTempDir : String) (entry : DirEntry)
    (acc : List String) (s : σ) :
    ∀ e ∈ (copyEntry os rulesPath syncTempDir entry acc s).events, e.isExec = false := by
  intro e he
  cases h : isRuleFile entry with
  | false => rw [loki_copyEntry_skip _ _ _ _ _ _ h] at he; simp at he
  | true =>
    rw [loki_copyEntry_copy _ _ _ _ _ _ h] at he
    simp only [List.mem_cons] at he
    rcases he with rfl | he
    · rfl
    · exact CopyFile_noExec _ _ _ _ e he

theorem loki_copyLoop_noExec (os : OS σ) (rulesPath syncTempDir : String) (entries : List DirEntry)
    (acc : List String) (s : σ) :
    ∀ e ∈ (forRange (copyEntry os rulesPath syncTempDir) entries acc s).events,
      e.isExec = false :=
  forRange_events_forall (fun e => e.isExec = false) _
    (fun entry acc s => loki_copyEntry_noExec os rulesPath syncTempDir entry acc s) entries acc s

theorem loki_copyLoop_ok_noFailure (os : OS σ) (rulesPath syncTempDir : String)
    (entries : List DirEntry) (acc : List String) (s : σ) (files : List String)
    (h : (forRange (copyEntry os rulesPath syncTempDir) entries acc s).val = .ok files) :
    ∀ e ∈ (forRange (copyEntry os rulesPath syncTempDir) entries acc s).events,
      e.fsFailure = false := by
  refine forRange_ok_forall (fun e => e.fsFailure = false) _ ?_ entries acc s files h
  intro entry acc s acc2 hok e he
  cases hq : isRuleFile entry with
  | false => rw [loki_copyEntry_skip _ _ _ _ _ _ hq] at he; simp at he
  | true =>
    rw [loki_copyEntry_copy _ _ _ _ _ _ hq] at he hok
    cases hc : (common.CopyFile os (filepath.Join [rulesPath, entry.Name])
      (filepath.Join [syncTempDir, entry.Name]) s).val with
    | some err => rw [hc] at hok; simp at hok
    | none =>
      simp only [List.mem_cons] at he
      rcases he with rfl | he
      · rfl
      · exact CopyFile_ok_noFailure _ _ _ _ hc e he

/-- A copy loop that runs to its end has staged exactly the rule files of
the listing, in order, and has created exactly those files. -/
theorem loki_copyLoop_ok_staged (os : OS σ) (rulesPath syncTempDir : String)
    (entries : List DirEntry) (acc : List String) (s : σ) (files : List String)
    (h : (forRange (copyEntry os rulesPath syncTempDir) entries acc s).val = .ok files) :
    files = acc ++ stagedPaths syncTempDir entries ∧
      createdFiles (forRange (copyEntry os rulesPath syncTempDir) entries acc s).events =
        stagedPaths syncTempDir entries := by
  induction entries generalizing acc s with
  | nil =>
    rw [forRange_nil] at h
    simp only [Except.ok.injEq] at h
    simp [forRange_nil, stagedPaths, createdFiles, h]
  | cons entry entries ih =>
    rw [forRange_cons] at h ⊢
    cases hq : isRuleFile entry with
    | false =>
      rw [loki_copyEntry_skip _ _ _ _ _ _ hq] at h ⊢
      obtain ⟨h1, h2⟩ := ih acc s h
      simp only [List.nil_append]
      simp [stagedPaths, List.filter_cons, hq] at h1 h2 ⊢
      exact ⟨h1, h2⟩
    | true =>
      rw [loki_copyEntry_copy _ _ _ _ _ _ hq] at h ⊢
      cases hc : (common.CopyFile os (filepath.Join [rulesPath, entry.Name])
        (filepath.Join [syncTempDir, entry.Name]) s).val with
      | some err => simp [hc] at h
      | none =>
        simp only [hc] at h ⊢
        obtain ⟨h1, h2⟩ := ih _ _ h
        have hcr := CopyFile_ok_created _ _ _ _ hc
        constructor
        · rw [h1]; simp [stagedPaths, List.filter_cons, hq]
        · rw [createdFiles_append, h2]
          have : createdFiles (Event.Log ("Copying rule file " ++
              filepath.Join [rulesPath, entry.Name] ++ " to " ++
              filepath.Join [syncTempDir, entry.Name]) ::
              (common.CopyFile os (filepath.Join [rulesPath, entry.Name])
                (filepath.Join [syncTempDir, entry.Name]) s).events) =
              [filepath.Join [syncTempDir, entry.Name]] := by
            rw [← hcr]; simp [createdFiles]
          rw [this]
          simp [stagedPaths, List.filter_cons, hq]

/-- Over a listing without rule files the copy loop does nothing. -/
theorem loki_copyLoop_none (os : OS σ) (rulesPath syncTempDir : String)
    (entries : List DirEntry) (acc : List String) (s : σ)
    (h : ∀ entry ∈ entries, isRuleFile entry = false) :
    forRange (copyEntry os rulesPath syncTempDir) entries acc s = ⟨.ok acc, [], s⟩ := by
  induction entries with
  | nil => rfl
  | cons entry entries ih =>
    rw [forRange_cons, loki_copyEntry_skip _ _ _ _ _ _ (h entry (List.mem_cons_self _ _))]
    simp only [List.nil_append]
    exact ih (fun e he => h e (List.mem_cons_of_mem _ he))

end lokirules

namespace lokirules

variable {σ : Type}

/-- The three ways steps 2 to 4 can go: a failure before any invocation; a
directory without rule files; or staging without a failure followed by
linting and syncing. -/
theorem loki_syncSteps_cases (os : OS σ) (rulesPath lokiAddress orgID syncTempDir : String)
    (s : σ) :
    ((syncSteps os rulesPath lokiAddress orgID syncTempDir s).val ≠ none ∧
      ∀ e ∈ (syncSteps os rulesPath lokiAddress orgID syncTempDir s).events,
        e.isExec = false) ∨
    ((syncSteps os rulesPath lokiAddress orgID syncTempDir s).val = none ∧
      ∀ e ∈ (syncSteps os rulesPath lokiAddress orgID syncTempDir s).events,
        e.isExec = false ∧ e.fsFailure = false) ∨
    (∃ pre files s2,
      (syncSteps os rulesPath lokiAddress orgID syncTempDir s).events =
        pre ++ (lintAndSync os lokiAddress orgID syncTempDir files s2).events ∧
      (syncSteps os rulesPath lokiAddress orgID syncTempDir s).val =
        (lintAndSync os lokiAddress orgID syncTempDir files s2).val ∧
      ∀ e ∈ pre, e.isExec = false ∧ e.fsFailure = false) := by
  simp only [syncSteps, Prog.bind_apply, Printf_apply, sysCallVal_apply]
  cases hstat : (os.Stat rulesPath s).1 with
  | error err => left; simp [Event.isExec]
  | ok fileInfo =>
    cases hdir : fileInfo.IsDir with
    | true =>
      cases hread : (os.ReadDir rulesPath (os.Stat rulesPath s).2).1 with
      | error err => left; simp [hdir, hread, Event.isExec]
      | ok entries =>
        have hnx := loki_copyLoop_noExec os rulesPath syncTempDir entries []
          (os.ReadDir rulesPath (os.Stat rulesPath s).2).2
        cases hloop : (forRange (copyEntry os rulesPath syncTempDir) entries []
            (os.ReadDir rulesPath (os.Stat rulesPath s).2).2).val with
        | error err =>
          left
          simp only [hdir, hread, hloop, if_true, Prog.bind_apply, Printf_apply,
            sysCallVal_apply, Prog.pure_apply]
          refine ⟨by simp, ?_⟩
          intro e he
          simp only [List.mem_append, List.mem_cons, List.mem_singleton, List.not_mem_nil,
            or_false, List.append_nil] at he
          rcases he with rfl | rfl | rfl | rfl | he
          · rfl
          · rfl
          · rfl
          · rfl
          · exact hnx e he
        | ok files =>
          have hnf := loki_copyLoop_ok_noFailure os rulesPath syncTempDir entries [] _ files hloop
          by_cases hlen : files.length = 0
          · right; left
            simp only [hdir, hread, hloop, hlen, if_true, Prog.bind_apply, Printf_apply,
              sysCallVal_apply, Prog.pure_apply]
            refine ⟨by simp, ?_⟩
            intro e he
            simp only [List.mem_append, List.mem_cons, List.mem_singleton, List.not_mem_nil,
              or_false, List.append_nil] at he
            rcases he with rfl | rfl | rfl | rfl | he | rfl
            · exact ⟨rfl, rfl⟩
            · exact ⟨rfl, rfl⟩
            · exact ⟨rfl, rfl⟩
            · exact ⟨rfl, rfl⟩
            · exact ⟨hnx e he, hnf e he⟩
            · exact ⟨rfl, rfl⟩
          · right; right
            have hne : ¬ files = [] := fun h0 => hlen (by simp [h0])
            refine ⟨[Event.Log ("Using temporary directory: " ++ syncTempDir),
              Event.Sys (.Stat rulesPath) none,
              Event.Log ("Processing rules from directory: " ++ rulesPath),
              Event.Sys (.ReadDir rulesPath) none] ++
              (forRange (copyEntry os rulesPath syncTempDir) entries []
                (os.ReadDir rulesPath (os.Stat rulesPath s).2).2).events, files,
              (forRange (copyEntry os rulesPath syncTempDir) entries []
                (os.ReadDir rulesPath (os.Stat rulesPath s).2).2).st, ?_, ?_, ?_⟩
            · simp [hdir, hread, hloop, hne]
            · simp [hdir, hread, hloop, hne]
            · intro e he
              simp only [List.mem_append, List.mem_cons, List.mem_singleton, List.not_mem_nil,
                or_false] at he
              rcases he with (rfl | rfl | rfl | rfl) | he
              · exact ⟨rfl, rfl⟩
              · exact ⟨rfl, rfl⟩
              · exact ⟨rfl, rfl⟩
              · exact ⟨rfl, rfl⟩
              · exact ⟨hnx e he, hnf e he⟩
    | false =>
      by_cases hsuf : (strings.HasSuffix rulesPath ".yaml" ||
          strings.HasSuffix rulesPath ".yml") = true
      · have hnx := CopyFile_noExec os rulesPath
          (filepath.Join [syncTempDir, filepath.Base rulesPath]) (os.Stat rulesPath s).2
        cases hc : (common.CopyFile os rulesPath
            (filepath.Join [syncTempDir, filepath.Base rulesPath]) (os.Stat rulesPath s).2).val with
        | some err =>
          left
          refine ⟨by simp [hdir, hsuf, hc], ?_⟩
          intro e he
          simp [hdir, hsuf, hc] at he
          rcases he with rfl | rfl | rfl | he
          · rfl
          · rfl
          · rfl
          · exact hnx e he
        | none =>
          have hnf := CopyFile_ok_noFailure os rulesPath _ _ hc
          right; right
          refine ⟨[Event.Log ("Using temporary directory: " ++ syncTempDir),
            Event.Sys (.Stat rulesPath) none,
            Event.Log ("Copying single rule file " ++ rulesPath ++ " to " ++
              filepath.Join [syncTempDir, filepath.Base rulesPath])] ++
            (common.CopyFile os rulesPath
              (filepath.Join [syncTempDir, filepath.Base rulesPath])
              (os.Stat rulesPath s).2).events,
            [filepath.Join [syncTempDir, filepath.Base rulesPath]],
            (common.CopyFile os rulesPath
              (filepath.Join [syncTempDir, filepath.Base rulesPath])
              (os.Stat rulesPath s).2).st, ?_, ?_, ?_⟩
          · simp [hdir, hsuf, hc]
          · simp [hdir, hsuf, hc]
          · intro e he
            simp only [List.mem_append, List.mem_cons, List.mem_singleton, List.not_mem_nil,
              or_false] at he
            rcases he with (rfl | rfl | rfl) | he
            · exact ⟨rfl, rfl⟩
            · exact ⟨rfl, rfl⟩
            · exact ⟨rfl, rfl⟩
            · exact ⟨hnx e he, hnf e he⟩
      · left
        simp [hdir, hsuf, Event.isExec]

end lokirules

namespace lokirules

variable {σ : Type}

theorem loki_cleanup_quiet (os : OS σ) (dir : String) (s : σ) :
    ∀ e ∈ (cleanup os dir s).events, e.isExec = false ∧ e.fsFailure = false := by
  intro e he
  rw [loki_cleanup_apply] at he
  simp only [List.mem_cons] at he
  rcases he with rfl | rfl | he
  · exact ⟨rfl, rfl⟩
  · exact ⟨rfl, rfl⟩
  · cases h : (os.RemoveAll dir s).1 <;> simp [h] at he
    subst he; exact ⟨rfl, rfl⟩

theorem loki_Sync_apply (os : OS σ) (rulesPath lokiAddress orgID tempBaseDir : String)
    (s : σ) :
    Sync os rulesPath lokiAddress orgID tempBaseDir s =
      match (common.EnsureDir os (syncTempDir os tempBaseDir) s).val with
      | some err =>
        ⟨some (Errorf ("failed to create temporary sync directory " ++
            syncTempDir os tempBaseDir ++ ": " ++ err.msg)),
          [Event.Log ("Starting Loki rules sync for Loki instance: " ++ lokiAddress ++
              " (OrgID: " ++ orgID ++ ")"),
            Event.Log ("Rules path: " ++ rulesPath),
            Event.Sys (.MkdirAll (syncTempDir os tempBaseDir) 0o750)
              (os.MkdirAll (syncTempDir os tempBaseDir) 0o750 s).1],
          (os.MkdirAll (syncTempDir os tempBaseDir) 0o750 s).2⟩
      | none =>
        ⟨(syncSteps os rulesPath lokiAddress orgID (syncTempDir os tempBaseDir)
            (os.MkdirAll (syncTempDir os tempBaseDir) 0o750 s).2).val,
          [Event.Log ("Starting Loki rules sync for Loki instance: " ++ lokiAddress ++
              " (OrgID: " ++ orgID ++ ")"),
            Event.Log ("Rules path: " ++ rulesPath),
            Event.Sys (.MkdirAll (syncTempDir os tempBaseDir) 0o750)
              (os.MkdirAll (syncTempDir os tempBaseDir) 0o750 s).1] ++
            (syncSteps os rulesPath lokiAddress orgID (syncTempDir os tempBaseDir)
              (os.MkdirAll (syncTempDir os tempBaseDir) 0o750 s).2).events ++
            (cleanup os (syncTempDir os tempBaseDir)
              (syncSteps os rulesPath lokiAddress orgID (syncTempDir os tempBaseDir)
                (os.MkdirAll (syncTempDir os tempBaseDir) 0o750 s).2).st).events,
          (os.RemoveAll (syncTempDir os tempBaseDir)
            (syncSteps os rulesPath lokiAddress orgID (syncTempDir os tempBaseDir)
              (os.MkdirAll (syncTempDir os tempBaseDir) 0o750 s).2).st).2⟩ := by
  simp only [Sync, Prog.bind_apply, Printf_apply]
  cases h : (common.EnsureDir os (syncTempDir os tempBaseDir) s).val with
  | some err => simp [EnsureDir_apply]
  | none => simp [EnsureDir_apply, loki_cleanup_apply]

/-- When `EnsureDir` returns nil, the `MkdirAll` event is no fatal failure. -/
theorem loki_mkdir_not_fatal (os : OS σ) (dir : String) (s : σ)
    (h : (common.EnsureDir os dir s).val = none) :
    (Event.Sys (.MkdirAll dir 0o750) (os.MkdirAll dir 0o750 s).1).fatal = false := by
  rw [EnsureDir_apply] at h
  cases hm : (os.MkdirAll dir 0o750 s).1 with
  | none => rfl
  | some err =>
    simp only [hm] at h
    cases hx : err.isExist with
    | true => simp [Event.fatal, Event.mkdirExists, hx]
    | false => simp [hx] at h

/-- The three ways a run of `Sync` can go: a failure before any
invocation; a directory without rule files; or staging without a fatal
failure followed by linting and syncing, then the cleanup. -/
theorem loki_Sync_cases (os : OS σ) (rulesPath lokiAddress orgID tempBaseDir : String)
    (s : σ) :
    ((Sync os rulesPath lokiAddress orgID tempBaseDir s).val ≠ none ∧
      ∀ e ∈ (Sync os rulesPath lokiAddress orgID tempBaseDir s).events,
        e.isExec = false) ∨
    ((Sync os rulesPath lokiAddress orgID tempBaseDir s).val = none ∧
      ∀ e ∈ (Sync os rulesPath lokiAddress orgID tempBaseDir s).events,
        e.isExec = false ∧ e.fatal = false) ∨
    (∃ pre files s2 post,
      (Sync os rulesPath lokiAddress orgID tempBaseDir s).events =
        pre ++ (lintAndSync os lokiAddress orgID (syncTempDir os tempBaseDir) files s2).events
          ++ post ∧
      (Sync os rulesPath lokiAddress orgID tempBaseDir s).val =
        (lintAndSync os lokiAddress orgID (syncTempDir os tempBaseDir) files s2).val ∧
      (∀ e ∈ pre, e.isExec = false ∧ e.fatal = false) ∧
      (∀ e ∈ post, e.isExec = false ∧ e.fatal = false)) := by
  rw [loki_Sync_apply]
  cases hmk : (common.EnsureDir os (syncTempDir os tempBaseDir) s).val with
  | some err => left; simp [Event.isExec]
  | none =>
    have hm := loki_mkdir_not_fatal os _ s hmk
    have hcl := loki_cleanup_quiet os (syncTempDir os tempBaseDir)
      (syncSteps os rulesPath lokiAddress orgID (syncTempDir os tempBaseDir)
        (os.MkdirAll (syncTempDir os tempBaseDir) 0o750 s).2).st
    simp only
    rcases loki_syncSteps_cases os rulesPath lokiAddress orgID (syncTempDir os tempBaseDir)
        (os.MkdirAll (syncTempDir os tempBaseDir) 0o750 s).2 with
      ⟨hv, hx⟩ | ⟨hv, hx⟩ | ⟨pre, files, s2, hev, hv, hpre⟩
    · left
      refine ⟨hv, ?_⟩
      intro e he
      simp only [List.mem_append, List.mem_cons, List.mem_singleton, List.not_mem_nil,
        or_false] at he
      rcases he with ((rfl | rfl | rfl) | he) | he
      · rfl
      · rfl
      · rfl
      · exact hx e he
      · exact (hcl e he).1
    · right; left
      refine ⟨hv, ?_⟩
      intro e he
      simp only [List.mem_append, List.mem_cons, List.mem_singleton, List.not_mem_nil,
        or_false] at he
      rcases he with ((rfl | rfl | rfl) | he) | he
      · exact ⟨rfl, rfl⟩
      · exact ⟨rfl, rfl⟩
      · exact ⟨rfl, hm⟩
      · exact ⟨(hx e he).1, fatal_eq_false_of_fsFailure (hx e he).2⟩
      · exact ⟨(hcl e he).1, fatal_eq_false_of_fsFailure (hcl e he).2⟩
    · right; right
      refine ⟨[Event.Log ("Starting Loki rules sync for Loki instance: " ++ lokiAddress ++
            " (OrgID: " ++ orgID ++ ")"),
          Event.Log ("Rules path: " ++ rulesPath),
          Event.Sys (.MkdirAll (syncTempDir os tempBaseDir) 0o750)
            (os.MkdirAll (syncTempDir os tempBaseDir) 0o750 s).1] ++ pre, files, s2,
        (cleanup os (syncTempDir os tempBaseDir)
          (syncSteps os rulesPath lokiAddress orgID (syncTempDir os tempBaseDir)
            (os.MkdirAll (syncTempDir os tempBaseDir) 0o750 s).2).st).events, ?_, hv, ?_, ?_⟩
      · rw [hev]; simp only [List.append_assoc]
      · intro e he
        simp only [List.mem_append, List.mem_cons, List.mem_singleton, List.not_mem_nil,
          or_false] at he
        rcases he with (rfl | rfl | rfl) | he
        · exact ⟨rfl, rfl⟩
        · exact ⟨rfl, rfl⟩
        · exact ⟨rfl, hm⟩
        · exact ⟨(hpre e he).1, fatal_eq_false_of_fsFailure (hpre e he).2⟩
      · intro e he
        exact ⟨(hcl e he).1, fatal_eq_false_of_fsFailure (hcl e he).2⟩

theorem loki_Sync_gated (os : OS σ) (rulesPath lokiAddress orgID tempBaseDir : String)
    (s : σ) :
    UploadGated (Sync os rulesPath lokiAddress orgID tempBaseDir s).val
      (Sync os rulesPath lokiAddress orgID tempBaseDir s).events := by
  rcases loki_Sync_cases os rulesPath lokiAddress orgID tempBaseDir s with
    ⟨_, hx⟩ | ⟨_, hx⟩ | ⟨pre, files, s2, post, hev, hv, hpre, hpost⟩
  · exact UploadGated_of_noExec hx
  · exact UploadGated_of_noExec (fun e he => (hx e he).1)
  · rw [hev, hv]
    exact UploadGated_wrap (fun e he => (hpre e he).1) (fun e he => (hpost e he).1)
      (loki_lintAndSync_gated _ _ _ _ _ _)

theorem loki_Sync_failStop (os : OS σ)
    (rulesPath lokiAddress orgID tempBaseDir : String) (s : σ) :
    FailStop Event.fatal (Sync os rulesPath lokiAddress orgID tempBaseDir s).val
      (Sync os rulesPath lokiAddress orgID tempBaseDir s).events := by
  rcases loki_Sync_cases os rulesPath lokiAddress orgID tempBaseDir s with
    ⟨hv, hx⟩ | ⟨_, hx⟩ | ⟨pre, files, s2, post, hev, hv, hpre, hpost⟩
  · exact FailStop_of_noExec hv hx
  · exact FailStop_of_none (fun e he => (hx e he).2)
  · rw [hev, hv]
    refine FailStop_wrap (fun e he => (hpre e he).2) (fun e he => ⟨(hpost e he).2, (hpost e he).1⟩)
      (FailStop_of_none ?_)
    intro e he
    exact fatal_eq_false_of_fsFailure
      (fsFailure_eq_false_of_not_isSys (loki_lintAndSync_noSys _ _ _ _ _ _ e he))

theorem loki_Sync_reported (os : OS σ)
    (rulesPath lokiAddress orgID tempBaseDir : String) (s : σ) :
    OutputReported (Sync os rulesPath lokiAddress orgID tempBaseDir s).val
      (Sync os rulesPath lokiAddress orgID tempBaseDir s).events := by
  rcases loki_Sync_cases os rulesPath lokiAddress orgID tempBaseDir s with
    ⟨_, hx⟩ | ⟨_, hx⟩ | ⟨pre, files, s2, post, hev, hv, hpre, hpost⟩
  · exact OutputReported_of_noExec hx
  · exact OutputReported_of_noExec (fun e he => (hx e he).1)
  · rw [hev, hv]
    exact OutputReported_wrap (fun e he => (hpre e he).1) (fun e he => (hpost e he).1)
      (loki_lintAndSync_reported _ _ _ _ _ _)

theorem loki_Sync_uploadIs (os : OS σ)
    (rulesPath lokiAddress orgID tempBaseDir : String) (s : σ) :
    UploadIs lokitoolCmd (syncArgs lokiAddress orgID (syncTempDir os tempBaseDir))
      (Sync os rulesPath lokiAddress orgID tempBaseDir s).events := by
  rcases loki_Sync_cases os rulesPath lokiAddress orgID tempBaseDir s with
    ⟨_, hx⟩ | ⟨_, hx⟩ | ⟨pre, files, s2, post, hev, hv, hpre, hpost⟩
  · exact UploadIs_of_noExec hx
  · exact UploadIs_of_noExec (fun e he => (hx e he).1)
  · rw [hev]
    exact UploadIs_wrap (fun e he => (hpre e he).1) (fun e he => (hpost e he).1)
      (loki_lintAndSync_uploadIs _ _ _ _ _ _)

end lokirules

namespace alertmanager

variable {σ : Type}

theorem am_cleanup_apply (os : OS σ) (dir : String) (s : σ) :
    cleanup os dir s =
      ⟨(), Event.Log ("Cleaning up temporary directory: " ++ dir) ::
          Event.Sys (.RemoveAll dir) (os.RemoveAll dir s).1 ::
          (match (os.RemoveAll dir s).1 with
            | some err => [Event.Log ("Warning: failed to clean up temporary directory " ++
                dir ++ ": " ++ err.msg)]
            | none => []),
        (os.RemoveAll dir s).2⟩ := by
  simp only [cleanup, Prog.bind_apply, Printf_apply, sysCall_apply]
  cases h : (os.RemoveAll dir s).1 <;> simp

theorem am_cleanup_quiet (os : OS σ) (dir : String) (s : σ) :
    ∀ e ∈ (cleanup os dir s).events, e.isExec = false ∧ e.fsFailure = false := by
  intro e he
  rw [am_cleanup_apply] at he
  simp only [List.mem_cons] at he
  rcases he with rfl | rfl | he
  · exact ⟨rfl, rfl⟩
  · exact ⟨rfl, rfl⟩
  · cases h : (os.RemoveAll dir s).1 <;> simp [h] at he
    subst he; exact ⟨rfl, rfl⟩

/-- An entry that is not a template is skipped without a call. -/
theorem am_copyTemplate_skip (os : OS σ) (templatesDir tempTemplatesDir : String)
    (entry : DirEntry) (vars : List String × Bool) (s : σ)
    (h : (!entry.IsDir && strings.HasSuffix entry.Name ".tmpl") = false) :
    copyTemplate os templatesDir tempTemplatesDir entry vars s = ⟨.ok vars, [], s⟩ := by
  simp [copyTemplate, h]

theorem am_copyTemplate_copy (os : OS σ) (templatesDir tempTemplatesDir : String)
    (entry : DirEntry) (vars : List String × Bool) (s : σ)
    (h : (!entry.IsDir && strings.HasSuffix entry.Name ".tmpl") = true) :
    copyTemplate os templatesDir tempTemplatesDir entry vars s =
      ⟨(match (common.CopyFile os (filepath.Join [templatesDir, entry.Name])
            (filepath.Join [tempTemplatesDir, entry.Name]) s).val with
          | some err => .error (Errorf ("failed to copy template file " ++
              filepath.Join [templatesDir, entry.Name] ++ " to " ++
              filepath.Join [tempTemplatesDir, entry.Name] ++ ": " ++ err.msg))
          | none => .ok (vars.1 ++ [filepath.Join [tempTemplatesDir, entry.Name]], true)),
        Event.Log ("Copying template " ++ filepath.Join [templatesDir, entry.Name] ++ " to " ++
            filepath.Join [tempTemplatesDir, entry.Name]) ::
          (common.CopyFile os (filepath.Join [templatesDir, entry.Name])
            (filepath.Join [tempTemplatesDir, entry.Name]) s).events,
        (common.CopyFile os (filepath.Join [templatesDir, entry.Name])
          (filepath.Join [tempTemplatesDir, entry.Name]) s).st⟩ := by
  simp only [copyTemplate, h, if_true, Prog.bind_apply, Printf_apply]
  cases hc : (common.CopyFile os (filepath.Join [templatesDir, entry.Name])
    (filepath.Join [tempTemplatesDir, entry.Name]) s).val <;> simp

theorem am_copyTemplate_noExec (os : OS σ) (templatesDir tempTemplatesDir : String)
    (entry : DirEntry) (vars : List String × Bool) (s : σ) :
    ∀ e ∈ (copyTemplate os templatesDir tempTemplatesDir entry vars s).events,
      e.isExec = false := by
  intro e he
  cases h : (!entry.IsDir && strings.HasSuffix entry.Name ".tmpl") with
  | false => rw [am_copyTemplate_skip _ _ _ _ _ _ h] at he; simp at he
  | true =>
    rw [am_copyTemplate_copy _ _ _ _ _ _ h] at he
    simp only [List.mem_cons] at he
    rcases he with rfl | he
    · rfl
    · exact CopyFile_noExec _ _ _ _ e he

theorem am_templateLoop_noExec (os : OS σ) (templatesDir tempTemplatesDir : String)
    (entries : List DirEntry) (vars : List String × Bool) (s : σ) :
    ∀ e ∈ (forRange (copyTemplate os templatesDir tempTemplatesDir) entries vars s).events,
      e.isExec = false :=
  forRange_events_forall (fun e => e.isExec = false) _
    (fun entry vars s => am_copyTemplate_noExec os templatesDir tempTemplatesDir entry vars s)
    entries vars s

theorem am_templateLoop_ok_noFailure (os : OS σ) (templatesDir tempTemplatesDir : String)
    (entries : List DirEntry) (vars : List String × Bool) (s : σ) (res : List String × Bool)
    (h : (forRange (copyTemplate os templatesDir tempTemplatesDir) entries vars s).val =
      .ok res) :
    ∀ e ∈ (forRange (copyTemplate os templatesDir tempTemplatesDir) entries vars s).events,
      e.fsFailure = false := by
  refine forRange_ok_forall (fun e => e.fsFailure = false) _ ?_ entries vars s res h
  intro entry vars s acc2 hok e he
  cases hq : (!entry.IsDir && strings.HasSuffix entry.Name ".tmpl") with
  | false => rw [am_copyTemplate_skip _ _ _ _ _ _ hq] at he; simp at he
  | true =>
    rw [am_copyTemplate_copy _ _ _ _ _ _ hq] at he hok
    cases hc : (common.CopyFile os (filepath.Join [templatesDir, entry.Name])
      (filepath.Join [tempTemplatesDir, entry.Name]) s).val with
    | some err => rw [hc] at hok; simp at hok
    | none =>
      simp only [List.mem_cons] at he
      rcases he with rfl | he
      · rfl
      · exact CopyFile_ok_noFailure _ _ _ _ hc e he

/-- Step 4 invokes no external tool, and when it returns no error it had
no fatal failure. -/
theorem am_handleTemplates_quiet (os : OS σ) (templatesDir syncTempDir : String) (s : σ) :
    (∀ e ∈ (handleTemplates os templatesDir syncTempDir s).events, e.isExec = false) ∧
    (∀ files, (handleTemplates os templatesDir syncTempDir s).val = .ok files →
      ∀ e ∈ (handleTemplates os templatesDir syncTempDir s).events, e.fatalAM = false) := by
  generalize hr : handleTemplates os templatesDir syncTempDir s = r
  by_cases htd : templatesDir = ""
  · simp [handleTemplates, htd] at hr
    subst hr
    simp
  · have hmkq : ∀ e0, (os.MkdirAll (filepath.Join [syncTempDir, "templates"]) 0o750 s).1 = e0 →
        (e0 = none ∨ ∃ err, e0 = some err ∧ err.isExist = true) →
        (Event.Sys (.MkdirAll (filepath.Join [syncTempDir, "templates"]) 0o750) e0).isExec = false ∧
        (Event.Sys (.MkdirAll (filepath.Join [syncTempDir, "templates"]) 0o750) e0).fatalAM =
          false := by
      rintro e0 - (rfl | ⟨err, rfl, hx⟩)
      · exact ⟨rfl, rfl⟩
      · exact ⟨rfl, by simp [Event.fatalAM, Event.fatal, Event.mkdirExists, hx]⟩
    have hmk2 : (os.MkdirAll (filepath.Join [syncTempDir, "templates"]) 0o750 s).1 = none ∨
        (∃ err, (os.MkdirAll (filepath.Join [syncTempDir, "templates"]) 0o750 s).1 = some err ∧
          err.isExist = true) ∨
        (∃ err, (os.MkdirAll (filepath.Join [syncTempDir, "templates"]) 0o750 s).1 = some err ∧
          err.isExist = false) := by
      cases hm : (os.MkdirAll (filepath.Join [syncTempDir, "templates"]) 0o750 s).1 with
      | none => exact Or.inl rfl
      | some err => cases hx : err.isExist <;> simp [hx]
    have hfail : (∃ err, (os.MkdirAll (filepath.Join [syncTempDir, "templates"]) 0o750 s).1 =
          some err ∧ err.isExist = false) →
        (∀ e ∈ r.events, e.isExec = false) ∧
          (∀ files, r.val = .ok files → ∀ e ∈ r.events, e.fatalAM = false) := by
      rintro ⟨err, hm, hx⟩
      simp [handleTemplates, htd, EnsureDir_apply, hm, hx] at hr
      subst hr
      simp [Event.isExec]
    have hgo : ∀ e0, (os.MkdirAll (filepath.Join [syncTempDir, "templates"]) 0o750 s).1 = e0 →
        (e0 = none ∨ ∃ err, e0 = some err ∧ err.isExist = true) →
        (∀ e ∈ r.events, e.isExec = false) ∧
          (∀ files, r.val = .ok files → ∀ e ∈ r.events, e.fatalAM = false) := by
      intro e0 hm he0
      have hq := hmkq e0 hm he0
      have hens : (common.EnsureDir os (filepath.Join [syncTempDir, "templates"]) s).val =
          none := by
        rw [EnsureDir_apply]
        rcases he0 with rfl | ⟨err, rfl, hx⟩
        · simp [hm]
        · simp [hm, hx]
      cases hread : (os.ReadDir templatesDir
          (os.MkdirAll (filepath.Join [syncTempDir, "templates"]) 0o750 s).2).1 with
      | error err =>
        simp only [handleTemplates, htd, ne_eq, not_false_eq_true, if_true, Prog.bind_apply,
          hens] at hr
        simp [EnsureDir_apply, hread] at hr
        subst hr
        simp only [List.mem_cons, List.mem_singleton, List.not_mem_nil, or_false, hm]
        refine ⟨?_, ?_⟩
        · rintro e (rfl | rfl | rfl | rfl)
          · exact hq.1
          · rfl
          · rfl
          · rfl
        · rintro _ _ e (rfl | rfl | rfl | rfl)
          · exact hq.2
          · rfl
          · simp [Event.fatalAM, Event.readDirFailure]
          · rfl
      | ok entries =>
        have hnx := am_templateLoop_noExec os templatesDir
          (filepath.Join [syncTempDir, "templates"]) entries ([], false)
          (os.ReadDir templatesDir
            (os.MkdirAll (filepath.Join [syncTempDir, "templates"]) 0o750 s).2).2
        cases hloop : (forRange (copyTemplate os templatesDir
            (filepath.Join [syncTempDir, "templates"])) entries ([], false)
            (os.ReadDir templatesDir
              (os.MkdirAll (filepath.Join [syncTempDir, "templates"]) 0o750 s).2).2).val with
        | error err =>
          simp only [handleTemplates, htd, ne_eq, not_false_eq_true, if_true, Prog.bind_apply,
            hens] at hr
          simp [EnsureDir_apply, hread, hloop] at hr
          subst hr
          simp only [List.mem_cons, List.mem_append, hm]
          refine ⟨?_, by simp⟩
          rintro e (rfl | rfl | rfl | he)
          · exact hq.1
          · rfl
          · rfl
          · exact hnx e he
        | ok res =>
          have hnf := am_templateLoop_ok_noFailure os templatesDir _ entries _ _ res hloop
          obtain ⟨files, found⟩ := res
          simp only [handleTemplates, htd, ne_eq, not_false_eq_true, if_true, Prog.bind_apply,
            hens] at hr
          cases found <;>
          · simp [EnsureDir_apply, hread, hloop] at hr
            subst hr
            simp only [List.mem_cons, List.mem_append, List.mem_singleton, List.not_mem_nil,
              or_false, hm]
            refine ⟨?_, ?_⟩
            · rintro e (rfl | rfl | rfl | he | rfl)
              · exact hq.1
              · rfl
              · rfl
              · exact hnx e he
              · rfl
            · rintro _ _ e (rfl | rfl | rfl | he | rfl)
              · exact hq.2
              · rfl
              · rfl
              · simp [Event.fatalAM, Event.fatal, hnf e he]
              · rfl
    rcases hmk2 with h0 | h0 | h0
    · exact hgo _ rfl (Or.inl h0)
    · exact hgo _ rfl (Or.inr h0)
    · exact hfail h0

end alertmanager

namespace alertmanager

variable {σ : Type}

/-- The four ways steps 2 to 5 can go: the config copy fails; the verify
invocation fails; staging the templates fails after a successful verify;
or the load invocation is made. -/
theorem am_syncSteps_cases (os : OS σ)
    (configFile templatesDir mimirAddress mimirID syncTempDir : String) (s : σ) :
    ((syncSteps os configFile templatesDir mimirAddress mimirID syncTempDir s).val ≠ none ∧
      ∀ e ∈ (syncSteps os configFile templatesDir mimirAddress mimirID syncTempDir s).events,
        e.isExec = false) ∨
    (∃ pre output err post e2,
      (syncSteps os configFile templatesDir mimirAddress mimirID syncTempDir s).events =
        pre ++ Event.Exec mimirtoolCmd
          (verifyArgs (filepath.Join [syncTempDir, "alertmanager-config.yml"]))
          output (some err) :: post ∧
      (∀ e ∈ pre, e.isExec = false ∧ e.fsFailure = false) ∧
      (∀ e ∈ post, ∃ l, e = Event.Log l) ∧
      (syncSteps os configFile templatesDir mimirAddress mimirID syncTempDir s).val = some e2 ∧
      output.data <:+: e2.msg.data) ∨
    (∃ pre output mid e2,
      (syncSteps os configFile templatesDir mimirAddress mimirID syncTempDir s).events =
        pre ++ Event.Exec mimirtoolCmd
          (verifyArgs (filepath.Join [syncTempDir, "alertmanager-config.yml"]))
          output none :: mid ∧
      (∀ e ∈ pre, e.isExec = false ∧ e.fsFailure = false) ∧
      (∀ e ∈ mid, e.isExec = false) ∧
      (syncSteps os configFile templatesDir mimirAddress mimirID syncTempDir s).val = some e2) ∨
    (∃ pre output mid files out2 xerr post,
      (syncSteps os configFile templatesDir mimirAddress mimirID syncTempDir s).events =
        pre ++ Event.Exec mimirtoolCmd
          (verifyArgs (filepath.Join [syncTempDir, "alertmanager-config.yml"]))
          output none ::
          (mid ++ Event.Exec mimirtoolCmd
            (loadArgs (filepath.Join [syncTempDir, "alertmanager-config.yml"]) files
              mimirAddress mimirID) out2 xerr :: post) ∧
      (∀ e ∈ pre, e.isExec = false ∧ e.fsFailure = false) ∧
      (∀ e ∈ mid, e.isExec = false ∧ e.fatalAM = false) ∧
      (∀ e ∈ post, ∃ l, e = Event.Log l) ∧
      (xerr = none →
        (syncSteps os configFile templatesDir mimirAddress mimirID syncTempDir s).val = none) ∧
      (∀ err, xerr = some err → ∃ e2,
        (syncSteps os configFile templatesDir mimirAddress mimirID syncTempDir s).val =
          some e2 ∧ out2.data <:+: e2.msg.data)) := by
  generalize hr : syncSteps os configFile templatesDir mimirAddress mimirID syncTempDir s = r
  have hnx := CopyFile_noExec os configFile
    (filepath.Join [syncTempDir, "alertmanager-config.yml"]) s
  have hnf := CopyFile_ok_noFailure os configFile
    (filepath.Join [syncTempDir, "alertmanager-config.yml"]) s
  simp only [syncSteps, Prog.bind_apply, Printf_apply] at hr
  generalize common.CopyFile os configFile
    (filepath.Join [syncTempDir, "alertmanager-config.yml"]) s = cp at hr hnx hnf
  obtain ⟨cv, cev, cst⟩ := cp
  cases cv with
  | some err =>
    left
    simp at hr
    subst hr
    refine ⟨by simp, ?_⟩
    simp only [List.mem_cons]
    rintro e (rfl | rfl | he)
    · rfl
    · rfl
    · exact hnx e he
  | none =>
    have hpre : ∀ e ∈ Event.Log ("Using temporary directory: " ++ syncTempDir) ::
        Event.Log ("Copying main config file " ++ configFile ++ " to " ++
          filepath.Join [syncTempDir, "alertmanager-config.yml"]) ::
        (cev ++
          [Event.Log ("Verifying Alertmanager config: " ++
            filepath.Join [syncTempDir, "alertmanager-config.yml"]),
          Event.Log ("Executing command: " ++ mimirtoolCmd ++ " " ++ strings.Join (verifyArgs
            (filepath.Join [syncTempDir, "alertmanager-config.yml"])) " ")]),
        e.isExec = false ∧ e.fsFailure = false := by
      simp only [List.mem_cons, List.mem_append, List.mem_singleton, List.not_mem_nil, or_false]
      rintro e (rfl | rfl | he | rfl | rfl)
      · exact ⟨rfl, rfl⟩
      · exact ⟨rfl, rfl⟩
      · exact ⟨hnx e he, hnf rfl e he⟩
      · exact ⟨rfl, rfl⟩
      · exact ⟨rfl, rfl⟩
    simp only [ExecuteCommand_apply, Prog.bind_apply, Printf_apply] at hr
    generalize os.CombinedOutput mimirtoolCmd
      (verifyArgs (filepath.Join [syncTempDir, "alertmanager-config.yml"])) cst = V at hr
    obtain ⟨⟨vout, verr⟩, vst⟩ := V
    cases verr with
    | some err =>
      right; left
      simp at hr
      subst hr
      refine ⟨_, vout, err, [Event.Log ("Command failed. Output:\n" ++ vout)], _, ?_, hpre, ?_,
        rfl, ?_⟩
      · simp
      · simp
      · simp only [Errorf]
        exact List.suffix_append _ _ |>.isInfix
    | none =>
      have hT := am_handleTemplates_quiet os templatesDir syncTempDir vst
      simp at hr
      generalize handleTemplates os templatesDir syncTempDir vst = T at hr hT
      obtain ⟨tv, tev, tst⟩ := T
      cases tv with
      | error err =>
        right; right; left
        simp at hr
        subst hr
        refine ⟨_, vout, Event.Log "Command successful." ::
          Event.Log "Alertmanager config verified successfully." :: tev, err, ?_, hpre, ?_, rfl⟩
        · simp
        · simp only [List.mem_cons]
          rintro e (rfl | rfl | he)
          · rfl
          · rfl
          · exact hT.1 e he
      | ok files =>
        right; right; right
        have hq := hT.2 files rfl
        have hmid : ∀ e ∈ Event.Log "Command successful." ::
            Event.Log "Alertmanager config verified successfully." :: (tev ++
            [Event.Log "Loading Alertmanager config and templates into Mimir...",
              Event.Log ("Executing command: " ++ mimirtoolCmd ++ " " ++ strings.Join
                (loadArgs (filepath.Join [syncTempDir, "alertmanager-config.yml"]) files
                  mimirAddress mimirID) " ")]),
            e.isExec = false ∧ e.fatalAM = false := by
          simp only [List.mem_cons, List.mem_append, List.mem_singleton, List.not_mem_nil,
            or_false]
          rintro e (rfl | rfl | he | rfl | rfl)
          · exact ⟨rfl, rfl⟩
          · exact ⟨rfl, rfl⟩
          · exact ⟨hT.1 e he, hq e he⟩
          · exact ⟨rfl, rfl⟩
          · exact ⟨rfl, rfl⟩
        simp [ExecuteCommand_apply] at hr
        generalize os.CombinedOutput mimirtoolCmd
          (loadArgs (filepath.Join [syncTempDir, "alertmanager-config.yml"]) files
            mimirAddress mimirID) tst = X at hr
        obtain ⟨⟨xout, xerr⟩, xst⟩ := X
        cases xerr with
        | none =>
          simp at hr
          subst hr
          refine ⟨_, vout, _, files, xout, none, [Event.Log "Command successful.",
            Event.Log "Alertmanager configuration and templates loaded successfully."],
            ?_, hpre, hmid, ?_, ?_, ?_⟩
          · simp
          · simp
          · simp
          · simp
        | some err =>
          simp at hr
          subst hr
          refine ⟨_, vout, _, files, xout, some err,
            [Event.Log ("Command failed. Output:\n" ++ xout)], ?_, hpre, hmid, ?_, ?_, ?_⟩
          · simp
          · simp
          · simp
          · intro err2 h2
            cases h2
            refine ⟨_, rfl, ?_⟩
            simp only [Errorf]
            exact List.suffix_append _ _ |>.isInfix

end alertmanager

theorem fatalAM_eq_false_of_fsFailure {e : Event} (h : e.fsFailure = false) :
    e.fatalAM = false := by
  simp [Event.fatalAM, Event.fatal, h]

theorem fatalAM_eq_false_of_fatal {e : Event} (h : e.fatal = false) : e.fatalAM = false := by
  simp [Event.fatalAM, h]

namespace alertmanager

variable {σ : Type}

theorem am_syncSteps_gated (os : OS σ)
    (configFile templatesDir mimirAddress mimirID syncTempDir : String) (s : σ) :
    UploadGated (syncSteps os configFile templatesDir mimirAddress mimirID syncTempDir s).val
      (syncSteps os configFile templatesDir mimirAddress mimirID syncTempDir s).events := by
  rcases am_syncSteps_cases os configFile templatesDir mimirAddress mimirID syncTempDir s with
    ⟨_, hx⟩ | ⟨pre, output, err, post, e2, hev, hpre, hpost, hv, _⟩ |
    ⟨pre, output, mid, e2, hev, hpre, hmid, hv⟩ |
    ⟨pre, output, mid, files, out2, xerr, post, hev, hpre, hmid, hpost, _, _⟩
  · exact UploadGated_of_noExec hx
  · rw [hev, hv]
    intro _
    refine ⟨by simp, ?_⟩
    intro e he
    simp only [List.mem_append, List.mem_cons] at he
    rcases he with he | rfl | he
    · exact isUpload_eq_false_of_not_isExec (hpre e he).1
    · simp [Event.isUpload, verifyArgs]
    · obtain ⟨l, rfl⟩ := hpost e he; rfl
  · rw [hev]
    rintro ⟨e, he, hval, hfail⟩
    exfalso
    have hx := isExec_of_isValidation hval
    simp only [List.mem_append, List.mem_cons] at he
    rcases he with he | rfl | he
    · rw [(hpre e he).1] at hx; cases hx
    · simp [Event.failed] at hfail
    · rw [hmid e he] at hx; cases hx
  · rw [hev]
    rintro ⟨e, he, hval, hfail⟩
    exfalso
    have hx := isExec_of_isValidation hval
    simp only [List.mem_append, List.mem_cons] at he
    rcases he with he | rfl | he | rfl | he
    · rw [(hpre e he).1] at hx; cases hx
    · simp [Event.failed] at hfail
    · rw [(hmid e he).1] at hx; cases hx
    · simp [Event.isValidation, loadArgs] at hval
    · obtain ⟨l, rfl⟩ := hpost e he; simp [Event.isExec] at hx

theorem am_syncSteps_failStop (os : OS σ)
    (configFile templatesDir mimirAddress mimirID syncTempDir : String) (s : σ) :
    FailStop Event.fatalAM
      (syncSteps os configFile templatesDir mimirAddress mimirID syncTempDir s).val
      (syncSteps os configFile templatesDir mimirAddress mimirID syncTempDir s).events := by
  rcases am_syncSteps_cases os configFile templatesDir mimirAddress mimirID syncTempDir s with
    ⟨hv, hx⟩ | ⟨pre, output, err, post, e2, hev, hpre, hpost, hv, _⟩ |
    ⟨pre, output, mid, e2, hev, hpre, hmid, hv⟩ |
    ⟨pre, output, mid, files, out2, xerr, post, hev, hpre, hmid, hpost, _, _⟩
  · exact FailStop_of_noExec hv hx
  · rw [hev]
    apply FailStop_of_none
    intro e he
    simp only [List.mem_append, List.mem_cons] at he
    rcases he with he | rfl | he
    · exact fatalAM_eq_false_of_fsFailure (hpre e he).2
    · rfl
    · obtain ⟨l, rfl⟩ := hpost e he; rfl
  · rw [hev, hv]
    have : pre ++ Event.Exec mimirtoolCmd
        (verifyArgs (filepath.Join [syncTempDir, "alertmanager-config.yml"])) output none ::
        mid = (pre ++ [Event.Exec mimirtoolCmd
        (verifyArgs (filepath.Join [syncTempDir, "alertmanager-config.yml"])) output none]) ++
        mid := by simp
    rw [this]
    refine FailStop_append_left ?_ (FailStop_of_noExec (by simp) hmid)
    intro e he
    simp only [List.mem_append, List.mem_singleton] at he
    rcases he with he | rfl
    · exact fatalAM_eq_false_of_fsFailure (hpre e he).2
    · rfl
  · rw [hev]
    apply FailStop_of_none
    intro e he
    simp only [List.mem_append, List.mem_cons] at he
    rcases he with he | rfl | he | rfl | he
    · exact fatalAM_eq_false_of_fsFailure (hpre e he).2
    · rfl
    · exact (hmid e he).2
    · rfl
    · obtain ⟨l, rfl⟩ := hpost e he; rfl

theorem am_syncSteps_reported (os : OS σ)
    (configFile templatesDir mimirAddress mimirID syncTempDir : String) (s : σ) :
    OutputReported (syncSteps os configFile templatesDir mimirAddress mimirID syncTempDir s).val
      (syncSteps os configFile templatesDir mimirAddress mimirID syncTempDir s).events := by
  rcases am_syncSteps_cases os configFile templatesDir mimirAddress mimirID syncTempDir s with
    ⟨_, hx⟩ | ⟨pre, output, err, post, e2, hev, hpre, hpost, hv, hinf⟩ |
    ⟨pre, output, mid, e2, hev, hpre, hmid, hv⟩ |
    ⟨pre, output, mid, files, out2, xerr, post, hev, hpre, hmid, hpost, _, hxe⟩
  · exact OutputReported_of_noExec hx
  · rw [hev, hv]
    intro name args out err2 he
    simp only [List.mem_append, List.mem_cons] at he
    rcases he with he | he | he
    · have := (hpre _ he).1; simp [Event.isExec] at this
    · simp only [Event.Exec.injEq] at he
      obtain ⟨rfl, rfl, rfl, h4⟩ := he
      refine ⟨e2, rfl, ?_⟩
      rw [if_neg (by simp [Event.isLint, verifyArgs])]
      exact hinf
    · obtain ⟨l, hl⟩ := hpost _ he; cases hl
  · rw [hev]
    intro name args out err2 he
    exfalso
    simp only [List.mem_append, List.mem_cons] at he
    rcases he with he | he | he
    · have := (hpre _ he).1; simp [Event.isExec] at this
    · simp at he
    · have := hmid _ he; simp [Event.isExec] at this
  · rw [hev]
    intro name args out err2 he
    simp only [List.mem_append, List.mem_cons] at he
    rcases he with he | he | he | he | he
    · have := (hpre _ he).1; simp [Event.isExec] at this
    · simp at he
    · have := (hmid _ he).1; simp [Event.isExec] at this
    · simp only [Event.Exec.injEq] at he
      obtain ⟨rfl, rfl, rfl, h4⟩ := he
      obtain ⟨e2, h1, h2⟩ := hxe err2 h4.symm
      refine ⟨e2, h1, ?_⟩
      rw [if_neg (by simp [Event.isLint, loadArgs])]
      exact h2
    · obtain ⟨l, hl⟩ := hpost _ he; cases hl

theorem am_Sync_apply (os : OS σ)
    (configFile templatesDir mimirAddress mimirID tempBaseDir : String) (s : σ) :
    Sync os configFile templatesDir mimirAddress mimirID tempBaseDir s =
      match (common.EnsureDir os (syncTempDir os tempBaseDir) s).val with
      | some err =>
        ⟨some (Errorf ("failed to create temporary sync directory " ++
            syncTempDir os tempBaseDir ++ ": " ++ err.msg)),
          Event.Log ("Starting Alertmanager sync for Mimir instance: " ++ mimirAddress ++
              " (ID: " ++ mimirID ++ ")") ::
            Event.Log ("Config file: " ++ configFile) ::
            ((if templatesDir ≠ "" then [Event.Log ("Templates directory: " ++ templatesDir)]
              else []) ++
            [Event.Sys (.MkdirAll (syncTempDir os tempBaseDir) 0o750)
              (os.MkdirAll (syncTempDir os tempBaseDir) 0o750 s).1]),
          (os.MkdirAll (syncTempDir os tempBaseDir) 0o750 s).2⟩
      | none =>
        ⟨(syncSteps os configFile templatesDir mimirAddress mimirID (syncTempDir os tempBaseDir)
            (os.MkdirAll (syncTempDir os tempBaseDir) 0o750 s).2).val,
          (Event.Log ("Starting Alertmanager sync for Mimir instance: " ++ mimirAddress ++
              " (ID: " ++ mimirID ++ ")") ::
            Event.Log ("Config file: " ++ configFile) ::
            ((if templatesDir ≠ "" then [Event.Log ("Templates directory: " ++ templatesDir)]
              else []) ++
            [Event.Sys (.MkdirAll (syncTempDir os tempBaseDir) 0o750)
              (os.MkdirAll (syncTempDir os tempBaseDir) 0o750 s).1])) ++
            (syncSteps os configFile templatesDir mimirAddress mimirID
              (syncTempDir os tempBaseDir)
              (os.MkdirAll (syncTempDir os tempBaseDir) 0o750 s).2).events ++
            (cleanup os (syncTempDir os tempBaseDir)
              (syncSteps os configFile templatesDir mimirAddress mimirID
                (syncTempDir os tempBaseDir)
                (os.MkdirAll (syncTempDir os tempBaseDir) 0o750 s).2).st).events,
          (os.RemoveAll (syncTempDir os tempBaseDir)
            (syncSteps os configFile templatesDir mimirAddress mimirID
              (syncTempDir os tempBaseDir)
              (os.MkdirAll (syncTempDir os tempBaseDir) 0o750 s).2).st).2⟩ := by
  by_cases htd : templatesDir = ""
  · simp only [Sync, htd, ne_eq, not_true_eq_false, if_false, Prog.bind_apply, Printf_apply,
      Prog.pure_apply]
    cases h : (common.EnsureDir os (syncTempDir os tempBaseDir) s).val <;>
      simp [EnsureDir_apply, am_cleanup_apply]
  · simp only [Sync, htd, ne_eq, not_false_eq_true, if_true, Prog.bind_apply, Printf_apply]
    cases h : (common.EnsureDir os (syncTempDir os tempBaseDir) s).val <;>
      simp [EnsureDir_apply, am_cleanup_apply]

/-- The events of `Sync` before step 2 invoke no tool, and have no fatal
failure when `EnsureDir` returns nil. -/
theorem am_Sync_head_quiet (os : OS σ) (configFile templatesDir mimirAddress mimirID : String)
    (dir : String) (s : σ) :
    ∀ e ∈ Event.Log ("Starting Alertmanager sync for Mimir instance: " ++ mimirAddress ++
        " (ID: " ++ mimirID ++ ")") ::
      Event.Log ("Config file: " ++ configFile) ::
      ((if templatesDir ≠ "" then [Event.Log ("Templates directory: " ++ templatesDir)]
        else []) ++
      [Event.Sys (.MkdirAll dir 0o750) (os.MkdirAll dir 0o750 s).1]),
      e.isExec = false ∧ ((common.EnsureDir os dir s).val = none → e.fatal = false) := by
  intro e he
  simp only [List.mem_cons, List.mem_append, List.mem_singleton, List.not_mem_nil,
    or_false] at he
  rcases he with rfl | rfl | he | rfl
  · exact ⟨rfl, fun _ => rfl⟩
  · exact ⟨rfl, fun _ => rfl⟩
  · by_cases htd : templatesDir = "" <;> simp [htd] at he
    subst he; exact ⟨rfl, fun _ => rfl⟩
  · exact ⟨rfl, fun h => mimirrules.mimir_mkdir_not_fatal os dir s h⟩

theorem am_Sync_gated (os : OS σ)
    (configFile templatesDir mimirAddress mimirID tempBaseDir : String) (s : σ) :
    UploadGated (Sync os configFile templatesDir mimirAddress mimirID tempBaseDir s).val
      (Sync os configFile templatesDir mimirAddress mimirID tempBaseDir s).events := by
  have hh := am_Sync_head_quiet os configFile templatesDir mimirAddress mimirID
    (syncTempDir os tempBaseDir) s
  rw [am_Sync_apply]
  cases hmk : (common.EnsureDir os (syncTempDir os tempBaseDir) s).val with
  | some err => exact UploadGated_of_noExec (fun e he => (hh e he).1)
  | none =>
    exact UploadGated_wrap (fun e he => (hh e he).1) (fun e he => (am_cleanup_quiet _ _ _ e he).1)
      (am_syncSteps_gated _ _ _ _ _ _ _)

theorem am_Sync_failStop (os : OS σ)
    (configFile templatesDir mimirAddress mimirID tempBaseDir : String) (s : σ) :
    FailStop Event.fatalAM
      (Sync os configFile templatesDir mimirAddress mimirID tempBaseDir s).val
      (Sync os configFile templatesDir mimirAddress mimirID tempBaseDir s).events := by
  have hh := am_Sync_head_quiet os configFile templatesDir mimirAddress mimirID
    (syncTempDir os tempBaseDir) s
  rw [am_Sync_apply]
  cases hmk : (common.EnsureDir os (syncTempDir os tempBaseDir) s).val with
  | some err => exact FailStop_of_noExec (by simp) (fun e he => (hh e he).1)
  | none =>
    exact FailStop_wrap (fun e he => fatalAM_eq_false_of_fatal ((hh e he).2 hmk))
      (fun e he => ⟨fatalAM_eq_false_of_fsFailure (am_cleanup_quiet _ _ _ e he).2,
        (am_cleanup_quiet _ _ _ e he).1⟩)
      (am_syncSteps_failStop _ _ _ _ _ _ _)

theorem am_Sync_reported (os : OS σ)
    (configFile templatesDir mimirAddress mimirID tempBaseDir : String) (s : σ) :
    OutputReported (Sync os configFile templatesDir mimirAddress mimirID tempBaseDir s).val
      (Sync os configFile templatesDir mimirAddress mimirID tempBaseDir s).events := by
  have hh := am_Sync_head_quiet os configFile templatesDir mimirAddress mimirID
    (syncTempDir os tempBaseDir) s
  rw [am_Sync_apply]
  cases hmk : (common.EnsureDir os (syncTempDir os tempBaseDir) s).val with
  | some err => exact OutputReported_of_noExec (fun e he => (hh e he).1)
  | none =>
    exact OutputReported_wrap (fun e he => (hh e he).1)
      (fun e he => (am_cleanup_quiet _ _ _ e he).1) (am_syncSteps_reported _ _ _ _ _ _ _)

end alertmanager

namespace mimirrules

variable {σ : Type}

/-- Steps 2 to 4 on a path that is a file without a rule-file suffix. -/
theorem mimir_syncSteps_badFile (os : OS σ) (rulesPath mimirAddress mimirID syncTempDir : String)
    (s : σ) (fileInfo : FileInfo) (hstat : (os.Stat rulesPath s).1 = .ok fileInfo)
    (hdir : fileInfo.IsDir = false)
    (hsuf : (strings.HasSuffix rulesPath ".yaml" || strings.HasSuffix rulesPath ".yml") = false) :
    syncSteps os rulesPath mimirAddress mimirID syncTempDir s =
      ⟨some (Errorf ("rules.path points to a file but it is not a .yaml or .yml file: " ++
          rulesPath)),
        [Event.Log ("Using temporary directory: " ++ syncTempDir),
          Event.Sys (.Stat rulesPath) none],
        (os.Stat rulesPath s).2⟩ := by
  simp [syncSteps, hstat, hdir, hsuf]

/-- Steps 2 to 4 on a directory, up to the end of the copy loop. -/
theorem mimir_syncSteps_dir (os : OS σ) (rulesPath mimirAddress mimirID syncTempDir : String)
    (s : σ) (fileInfo : FileInfo) (hstat : (os.Stat rulesPath s).1 = .ok fileInfo)
    (hdir : fileInfo.IsDir = true) (entries : List DirEntry)
    (hread : (os.ReadDir rulesPath (os.Stat rulesPath s).2).1 = .ok entries)
    (files : List String)
    (hloop : (forRange (copyEntry os rulesPath syncTempDir) entries []
      (os.ReadDir rulesPath (os.Stat rulesPath s).2).2).val = .ok files) :
    (syncSteps os rulesPath mimirAddress mimirID syncTempDir s).val =
        (if files = [] then none
          else (lintAndSync os mimirAddress mimirID syncTempDir files
            (forRange (copyEntry os rulesPath syncTempDir) entries []
              (os.ReadDir rulesPath (os.Stat rulesPath s).2).2).st).val) ∧
      (syncSteps os rulesPath mimirAddress mimirID syncTempDir s).events =
        [Event.Log ("Using temporary directory: " ++ syncTempDir),
          Event.Sys (.Stat rulesPath) none,
          Event.Log ("Processing rules from directory: " ++ rulesPath),
          Event.Sys (.ReadDir rulesPath) none] ++
        (forRange (copyEntry os rulesPath syncTempDir) entries []
          (os.ReadDir rulesPath (os.Stat rulesPath s).2).2).events ++
        (if files = [] then
          [Event.Log ("No .yaml or .yml files found in directory " ++ rulesPath ++
            ". Nothing to sync.")]
          else (lintAndSync os mimirAddress mimirID syncTempDir files
            (forRange (copyEntry os rulesPath syncTempDir) entries []
              (os.ReadDir rulesPath (os.Stat rulesPath s).2).2).st).events) := by
  by_cases hf : files = [] <;> simp [syncSteps, hstat, hdir, hread, hloop, hf]

/-- The files created by a whole run are those created by steps 2 to 4. -/
theorem mimir_Sync_created (os : OS σ)
    (rulesPath mimirAddress mimirID namespaceArg tempBaseDir : String) (s : σ)
    (hmk : (common.EnsureDir os (syncTempDir os tempBaseDir) s).val = none) :
    createdFiles (Sync os rulesPath mimirAddress mimirID namespaceArg tempBaseDir s).events =
      createdFiles (syncSteps os rulesPath mimirAddress mimirID (syncTempDir os tempBaseDir)
        (os.MkdirAll (syncTempDir os tempBaseDir) 0o750 s).2).events := by
  rw [mimir_Sync_apply, hmk]
  simp only [createdFiles_append, mimir_cleanup_apply]
  have h1 : ∀ (l1 l2 : String) (c : Call) (r : error) (hc : ∀ p, c ≠ .Create p),
      createdFiles [Event.Log l1, Event.Log l2, Event.Sys c r] = [] := by
    intro l1 l2 c r hc
    cases c <;> simp_all [createdFiles]
  rw [h1 _ _ _ _ (by simp)]
  cases hr : (os.RemoveAll (syncTempDir os tempBaseDir)
    (syncSteps os rulesPath mimirAddress mimirID (syncTempDir os tempBaseDir)
      (os.MkdirAll (syncTempDir os tempBaseDir) 0o750 s).2).st).1 <;> simp [createdFiles]

end mimirrules

namespace lokirules

variable {σ : Type}

/-- Steps 2 to 4 on a path that is a file without a rule-file suffix. -/
theorem loki_syncSteps_badFile (os : OS σ) (rulesPath lokiAddress orgID syncTempDir : String)
    (s : σ) (fileInfo : FileInfo) (hstat : (os.Stat rulesPath s).1 = .ok fileInfo)
    (hdir : fileInfo.IsDir = false)
    (hsuf : (strings.HasSuffix rulesPath ".yaml" || strings.HasSuffix rulesPath ".yml") = false) :
    syncSteps os rulesPath lokiAddress orgID syncTempDir s =
      ⟨some (Errorf ("rules.path points to a file but it is not a .yaml or .yml file: " ++
          rulesPath)),
        [Event.Log ("Using temporary directory: " ++ syncTempDir),
          Event.Sys (.Stat rulesPath) none],
        (os.Stat rulesPath s).2⟩ := by
  simp [syncSteps, hstat, hdir, hsuf]

/-- Steps 2 to 4 on a directory, up to the end of the copy loop. -/
theorem loki_syncSteps_dir (os : OS σ) (rulesPath lokiAddress orgID syncTempDir : String)
    (s : σ) (fileInfo : FileInfo) (hstat : (os.Stat rulesPath s).1 = .ok fileInfo)
    (hdir : fileInfo.IsDir = true) (entries : List DirEntry)
    (hread : (os.ReadDir rulesPath (os.Stat rulesPath s).2).1 = .ok entries)
    (files : List String)
    (hloop : (forRange (copyEntry os rulesPath syncTempDir) entries []
      (os.ReadDir rulesPath (os.Stat rulesPath s).2).2).val = .ok files) :
    (syncSteps os rulesPath lokiAddress orgID syncTempDir s).val =
        (if files = [] then none
          else (lintAndSync os lokiAddress orgID syncTempDir files
            (forRange (copyEntry os rulesPath syncTempDir) entries []
              (os.ReadDir rulesPath (os.Stat rulesPath s).2).2).st).val) ∧
      (syncSteps os rulesPath lokiAddress orgID syncTempDir s).events =
        [Event.Log ("Using temporary directory: " ++ syncTempDir),
          Event.Sys (.Stat rulesPath) none,
          Event.Log ("Processing rules from directory: " ++ rulesPath),
          Event.Sys (.ReadDir rulesPath) none] ++
        (forRange (copyEntry os rulesPath syncTempDir) entries []
          (os.ReadDir rulesPath (os.Stat rulesPath s).2).2).events ++
        (if files = [] then
          [Event.Log ("No .yaml or .yml files found in directory " ++ rulesPath ++
            ". Nothing to sync.")]
          else (lintAndSync os lokiAddress orgID syncTempDir files
            (forRange (copyEntry os rulesPath syncTempDir) entries []
              (os.ReadDir rulesPath (os.Stat rulesPath s).2).2).st).events) := by
  by_cases hf : files = [] <;> simp [syncSteps, hstat, hdir, hread, hloop, hf]

/-- The files created by a whole run are those created by steps 2 to 4. -/
theorem loki_Sync_created (os : OS σ)
    (rulesPath lokiAddress orgID tempBaseDir : String) (s : σ)
    (hmk : (common.EnsureDir os (syncTempDir os tempBaseDir) s).val = none) :
    createdFiles (Sync os rulesPath lokiAddress orgID tempBaseDir s).events =
      createdFiles (syncSteps os rulesPath lokiAddress orgID (syncTempDir os tempBaseDir)
        (os.MkdirAll (syncTempDir os tempBaseDir) 0o750 s).2).events := by
  rw [loki_Sync_apply, hmk]
  simp only [createdFiles_append, loki_cleanup_apply]
  have h1 : ∀ (l1 l2 : String) (c : Call) (r : error) (hc : ∀ p, c ≠ .Create p),
      createdFiles [Event.Log l1, Event.Log l2, Event.Sys c r] = [] := by
    intro l1 l2 c r hc
    cases c <;> simp_all [createdFiles]
  rw [h1 _ _ _ _ (by simp)]
  cases hr : (os.RemoveAll (syncTempDir os tempBaseDir)
    (syncSteps os rulesPath lokiAddress orgID (syncTempDir os tempBaseDir)
      (os.MkdirAll (syncTempDir os tempBaseDir) 0o750 s).2).st).1 <;> simp [createdFiles]

end lokirules

namespace mimirrules

variable {σ : Type}

/-- A copy loop that ends with an error failed on the copy of a rule file. -/
theorem mimir_copyLoop_error (os : OS σ) (rulesPath syncTempDir : String)
    (entries : List DirEntry) (acc : List String) (s : σ) (err : GoError)
    (h : (forRange (copyEntry os rulesPath syncTempDir) entries acc s).val = .error err) :
    ∃ entry ∈ entries, isRuleFile entry = true ∧ ∃ cause : GoError,
      err = Errorf ("failed to copy rule file " ++ filepath.Join [rulesPath, entry.Name] ++
        " to " ++ filepath.Join [syncTempDir, entry.Name] ++ ": " ++ cause.msg) := by
  induction entries generalizing acc s with
  | nil => simp [forRange_nil] at h
  | cons entry entries ih =>
    rw [forRange_cons] at h
    cases hq : isRuleFile entry with
    | false =>
      rw [mimir_copyEntry_skip _ _ _ _ _ _ hq] at h
      obtain ⟨e2, he2, h2⟩ := ih _ _ h
      exact ⟨e2, List.mem_cons_of_mem _ he2, h2⟩
    | true =>
      rw [mimir_copyEntry_copy _ _ _ _ _ _ hq] at h
      cases hc : (common.CopyFile os (filepath.Join [rulesPath, entry.Name])
        (filepath.Join [syncTempDir, entry.Name]) s).val with
      | some cause =>
        simp only [hc, Except.error.injEq] at h
        exact ⟨entry, List.mem_cons_self _ _, hq, cause, h.symm⟩
      | none =>
        simp only [hc] at h
        obtain ⟨e2, he2, h2⟩ := ih _ _ h
        exact ⟨e2, List.mem_cons_of_mem _ he2, h2⟩

end mimirrules

namespace lokirules

variable {σ : Type}

/-- A copy loop that ends with an error failed on the copy of a rule file. -/
theorem loki_copyLoop_error (os : OS σ) (rulesPath syncTempDir : String)
    (entries : List DirEntry) (acc : List String) (s : σ) (err : GoError)
    (h : (forRange (copyEntry os rulesPath syncTempDir) entries acc s).val = .error err) :
    ∃ entry ∈ entries, isRuleFile entry = true ∧ ∃ cause : GoError,
      err = Errorf ("failed to copy rule file " ++ filepath.Join [rulesPath, entry.Name] ++
        " to " ++ filepath.Join [syncTempDir, entry.Name] ++ ": " ++ cause.msg) := by
  induction entries generalizing acc s with
  | nil => simp [forRange_nil] at h
  | cons entry entries ih =>
    rw [forRange_cons] at h
    cases hq : isRuleFile entry with
    | false =>
      rw [loki_copyEntry_skip _ _ _ _ _ _ hq] at h
      obtain ⟨e2, he2, h2⟩ := ih _ _ h
      exact ⟨e2, List.mem_cons_of_mem _ he2, h2⟩
    | true =>
      rw [loki_copyEntry_copy _ _ _ _ _ _ hq] at h
      cases hc : (common.CopyFile os (filepath.Join [rulesPath, entry.Name])
        (filepath.Join [syncTempDir, entry.Name]) s).val with
      | some cause =>
        simp only [hc, Except.error.injEq] at h
        exact ⟨entry, List.mem_cons_self _ _, hq, cause, h.symm⟩
      | none =>
        simp only [hc] at h
        obtain ⟨e2, he2, h2⟩ := ih _ _ h
        exact ⟨e2, List.mem_cons_of_mem _ he2, h2⟩

end lokirules

namespace MemFS

/-- In the in-memory filesystem a `RemoveAll` that succeeds leaves nothing
at the path. -/
theorem RemoveAll_absent (p : String) (fs : MemFS) (h : (RemoveAll p fs).1 = none) :
    Absent p (RemoveAll p fs).2 := by
  unfold RemoveAll at h ⊢
  by_cases hd : p ∈ fs.denied
  · simp [hd] at h
  · simp only [hd, if_false, Absent, lookup, Option.map_eq_none']
    rw [List.find?_eq_none]
    intro e he
    simp only [List.mem_filter, decide_eq_true_eq] at he
    simpa using he.2.1

end MemFS

/-! ## The load invocation of the Alertmanager workflow -/

section uploads

theorem filter_isUpload_of_noExec {evs : List Event} (h : ∀ e ∈ evs, e.isExec = false) :
    evs.filter Event.isUpload = [] := by
  rw [List.filter_eq_nil_iff]
  intro e he
  simp [isUpload_eq_false_of_not_isExec (h e he)]

end uploads

namespace alertmanager

variable {σ : Type}

/-- A template loop that runs to its end has staged exactly the templates
of the listing, in order, and has created exactly those files. -/
theorem am_templateLoop_ok_staged (os : OS σ) (templatesDir syncTempDir : String)
    (entries : List DirEntry) (vars : List String × Bool) (s : σ) (res : List String × Bool)
    (h : (forRange (copyTemplate os templatesDir (filepath.Join [syncTempDir, "templates"]))
      entries vars s).val = .ok res) :
    res.1 = vars.1 ++ stagedTemplates syncTempDir entries ∧
      createdFiles (forRange (copyTemplate os templatesDir
        (filepath.Join [syncTempDir, "templates"])) entries vars s).events =
        stagedTemplates syncTempDir entries := by
  induction entries generalizing vars s with
  | nil =>
    rw [forRange_nil] at h
    simp only [Except.ok.injEq] at h
    simp [forRange_nil, stagedTemplates, createdFiles, h]
  | cons entry entries ih =>
    rw [forRange_cons] at h ⊢
    cases hq : isTemplate entry with
    | false =>
      rw [am_copyTemplate_skip _ _ _ _ _ _ hq] at h ⊢
      obtain ⟨h1, h2⟩ := ih vars s h
      simp only [List.nil_append]
      simp [stagedTemplates, List.filter_cons, hq] at h1 h2 ⊢
      exact ⟨h1, h2⟩
    | true =>
      rw [am_copyTemplate_copy _ _ _ _ _ _ hq] at h ⊢
      cases hc : (common.CopyFile os (filepath.Join [templatesDir, entry.Name])
        (filepath.Join [filepath.Join [syncTempDir, "templates"], entry.Name]) s).val with
      | some err => simp [hc] at h
      | none =>
        simp only [hc] at h ⊢
        obtain ⟨h1, h2⟩ := ih _ _ h
        have hcr := CopyFile_ok_created _ _ _ _ hc
        constructor
        · rw [h1]; simp [stagedTemplates, List.filter_cons, hq]
        · rw [createdFiles_append, h2]
          have : createdFiles (Event.Log ("Copying template " ++
              filepath.Join [templatesDir, entry.Name] ++ " to " ++
              filepath.Join [filepath.Join [syncTempDir, "templates"], entry.Name]) ::
              (common.CopyFile os (filepath.Join [templatesDir, entry.Name])
                (filepath.Join [filepath.Join [syncTempDir, "templates"], entry.Name]) s).events) =
              [filepath.Join [filepath.Join [syncTempDir, "templates"], entry.Name]] := by
            rw [← hcr]; simp [createdFiles]
          rw [this]
          simp [stagedTemplates, List.filter_cons, hq]

end alertmanager

namespace alertmanager

variable {σ : Type}

/-- Step 4 when it returns no error: the template arguments are those of
`templateArgs` for what `ReadDir` answered, and they are exactly the files
step 4 created. -/
theorem am_handleTemplates_ok (os : OS σ) (templatesDir syncTempDir : String) (s : σ)
    (files : List String)
    (h : (handleTemplates os templatesDir syncTempDir s).val = .ok files) :
    files = templateArgs templatesDir syncTempDir
        (os.ReadDir templatesDir
          (os.MkdirAll (filepath.Join [syncTempDir, "templates"]) 0o750 s).2).1 ∧
      createdFiles (handleTemplates os templatesDir syncTempDir s).events = files := by
  generalize hr : handleTemplates os templatesDir syncTempDir s = r at h
  by_cases htd : templatesDir = ""
  · simp [handleTemplates, htd] at hr
    subst hr
    simp at h
    simp [templateArgs, createdFiles, htd, ← h]
  · cases hens : (common.EnsureDir os (filepath.Join [syncTempDir, "templates"]) s).val with
    | some err =>
      simp only [handleTemplates, htd, ne_eq, not_false_eq_true, if_true, Prog.bind_apply,
        hens] at hr
      simp at hr
      subst hr
      simp at h
    | none =>
      cases hread : (os.ReadDir templatesDir
          (os.MkdirAll (filepath.Join [syncTempDir, "templates"]) 0o750 s).2).1 with
      | error err =>
        simp only [handleTemplates, htd, ne_eq, not_false_eq_true, if_true, Prog.bind_apply,
          hens] at hr
        simp [EnsureDir_apply, hread] at hr
        subst hr
        simp at h
        simp [templateArgs, htd, createdFiles, ← h]
      | ok entries =>
        cases hloop : (forRange (copyTemplate os templatesDir
            (filepath.Join [syncTempDir, "templates"])) entries ([], false)
            (os.ReadDir templatesDir
              (os.MkdirAll (filepath.Join [syncTempDir, "templates"]) 0o750 s).2).2).val with
        | error err =>
          simp only [handleTemplates, htd, ne_eq, not_false_eq_true, if_true, Prog.bind_apply,
            hens] at hr
          simp [EnsureDir_apply, hread, hloop] at hr
          subst hr
          simp at h
        | ok res =>
          obtain ⟨h1, h2⟩ := am_templateLoop_ok_staged os templatesDir syncTempDir entries _ _ res
            hloop
          obtain ⟨fs, found⟩ := res
          simp only [List.nil_append] at h1
          simp only [handleTemplates, htd, ne_eq, not_false_eq_true, if_true, Prog.bind_apply,
            hens] at hr
          cases found <;>
          · simp [EnsureDir_apply, hread, hloop] at hr
            subst hr
            simp at h
            subst h
            refine ⟨by simp [templateArgs, htd, h1], ?_⟩
            simpa [createdFiles, List.filterMap_append, h1] using h2

end alertmanager

namespace alertmanager

variable {σ : Type}

theorem am_isUpload_log (l : String) : (Event.Log l).isUpload = false := rfl

theorem am_isUpload_verify (name f output : String) (err : error) :
    (Event.Exec name (verifyArgs f) output err).isUpload = false := rfl

theorem am_isUpload_load (name f a i output : String) (ts : List String) (err : error) :
    (Event.Exec name (loadArgs f ts a i) output err).isUpload = true := rfl

/-- Steps 2 to 5 either make no upload invocation, or make exactly one:
the load of the staged config file with the template arguments of
`templateArgs`, and then the files created are the staged config file and
those templates. -/
theorem am_syncSteps_loads (os : OS σ)
    (configFile templatesDir mimirAddress mimirID syncTempDir : String) (s : σ) :
    (∀ e ∈ (syncSteps os configFile templatesDir mimirAddress mimirID syncTempDir s).events,
      e.isUpload = false) ∨
    (∃ output err,
      (syncSteps os configFile templatesDir mimirAddress mimirID syncTempDir s).events.filter
          Event.isUpload =
        [Event.Exec mimirtoolCmd
          (loadArgs (filepath.Join [syncTempDir, "alertmanager-config.yml"])
            (templateArgs templatesDir syncTempDir
              (os.ReadDir templatesDir
                (os.MkdirAll (filepath.Join [syncTempDir, "templates"]) 0o750
                  (os.CombinedOutput mimirtoolCmd
                    (verifyArgs (filepath.Join [syncTempDir, "alertmanager-config.yml"]))
                    (common.CopyFile os configFile
                      (filepath.Join [syncTempDir, "alertmanager-config.yml"]) s).st).2).2).1)
            mimirAddress mimirID) output err] ∧
      createdFiles (syncSteps os configFile templatesDir mimirAddress mimirID syncTempDir s).events =
        filepath.Join [syncTempDir, "alertmanager-config.yml"] ::
          templateArgs templatesDir syncTempDir
            (os.ReadDir templatesDir
              (os.MkdirAll (filepath.Join [syncTempDir, "templates"]) 0o750
                (os.CombinedOutput mimirtoolCmd
                  (verifyArgs (filepath.Join [syncTempDir, "alertmanager-config.yml"]))
                  (common.CopyFile os configFile
                    (filepath.Join [syncTempDir, "alertmanager-config.yml"]) s).st).2).2).1) := by
  generalize hr : syncSteps os configFile templatesDir mimirAddress mimirID syncTempDir s = r
  have hnx := CopyFile_noExec os configFile
    (filepath.Join [syncTempDir, "alertmanager-config.yml"]) s
  simp only [syncSteps, Prog.bind_apply, Printf_apply] at hr
  cases hcp : (common.CopyFile os configFile
      (filepath.Join [syncTempDir, "alertmanager-config.yml"]) s).val with
  | some err =>
    left
    simp [hcp] at hr
    subst hr
    simp only [List.mem_cons]
    rintro e (rfl | rfl | he)
    · rfl
    · rfl
    · exact isUpload_eq_false_of_not_isExec (hnx e he)
  | none =>
    have hcr := CopyFile_ok_created os configFile
      (filepath.Join [syncTempDir, "alertmanager-config.yml"]) s hcp
    simp only [hcp, ExecuteCommand_apply, Prog.bind_apply, Printf_apply] at hr
    cases hv : (os.CombinedOutput mimirtoolCmd
        (verifyArgs (filepath.Join [syncTempDir, "alertmanager-config.yml"]))
        (common.CopyFile os configFile
          (filepath.Join [syncTempDir, "alertmanager-config.yml"]) s).st).1.2 with
    | some err =>
      left
      simp [hv] at hr
      subst hr
      simp only [List.mem_cons, List.mem_append, List.mem_singleton, List.not_mem_nil, or_false]
      rintro e (rfl | rfl | he | rfl | rfl | rfl | rfl)
      · rfl
      · rfl
      · exact isUpload_eq_false_of_not_isExec (hnx e he)
      · rfl
      · rfl
      · simp [Event.isUpload, verifyArgs]
      · rfl
    | none =>
      have hT := am_handleTemplates_quiet os templatesDir syncTempDir
        (os.CombinedOutput mimirtoolCmd
          (verifyArgs (filepath.Join [syncTempDir, "alertmanager-config.yml"]))
          (common.CopyFile os configFile
            (filepath.Join [syncTempDir, "alertmanager-config.yml"]) s).st).2
      cases ht : (handleTemplates os templatesDir syncTempDir
          (os.CombinedOutput mimirtoolCmd
            (verifyArgs (filepath.Join [syncTempDir, "alertmanager-config.yml"]))
            (common.CopyFile os configFile
              (filepath.Join [syncTempDir, "alertmanager-config.yml"]) s).st).2).val with
      | error err =>
        left
        simp [hv, ht] at hr
        subst hr
        simp only [List.mem_cons, List.mem_append, List.mem_singleton, List.not_mem_nil, or_false]
        rintro e (rfl | rfl | he | rfl | rfl | rfl | rfl | rfl | he)
        · rfl
        · rfl
        · exact isUpload_eq_false_of_not_isExec (hnx e he)
        · rfl
        · rfl
        · simp [Event.isUpload, verifyArgs]
        · rfl
        · rfl
        · exact isUpload_eq_false_of_not_isExec (hT.1 e he)
      | ok files =>
        right
        obtain ⟨hf, hc⟩ := am_handleTemplates_ok os templatesDir syncTempDir _ files ht
        have hup1 := filter_isUpload_of_noExec hnx
        have hup2 := filter_isUpload_of_noExec hT.1
        rw [← hf]
        cases hx : (os.CombinedOutput mimirtoolCmd
            (loadArgs (filepath.Join [syncTempDir, "alertmanager-config.yml"]) files
              mimirAddress mimirID)
            (handleTemplates os templatesDir syncTempDir
              (os.CombinedOutput mimirtoolCmd
                (verifyArgs (filepath.Join [syncTempDir, "alertmanager-config.yml"]))
                (common.CopyFile os configFile
                  (filepath.Join [syncTempDir, "alertmanager-config.yml"]) s).st).2).st).1.2 with
        | none =>
          simp [hv, ht, hx, ExecuteCommand_apply] at hr
          subst hr
          refine ⟨(os.CombinedOutput mimirtoolCmd
            (loadArgs (filepath.Join [syncTempDir, "alertmanager-config.yml"]) files
              mimirAddress mimirID)
            (handleTemplates os templatesDir syncTempDir
              (os.CombinedOutput mimirtoolCmd
                (verifyArgs (filepath.Join [syncTempDir, "alertmanager-config.yml"]))
                (common.CopyFile os configFile
                  (filepath.Join [syncTempDir, "alertmanager-config.yml"]) s).st).2).st).1.1, none, ?_, ?_⟩
          · simp [List.filter_cons, List.filter_append, hup1, hup2, am_isUpload_verify,
              am_isUpload_load, am_isUpload_log]
          · simp only [createdFiles] at hcr hc ⊢
            simp [List.filterMap_append, hcr, hc]
        | some err =>
          simp [hv, ht, hx, ExecuteCommand_apply] at hr
          subst hr
          refine ⟨(os.CombinedOutput mimirtoolCmd
            (loadArgs (filepath.Join [syncTempDir, "alertmanager-config.yml"]) files
              mimirAddress mimirID)
            (handleTemplates os templatesDir syncTempDir
              (os.CombinedOutput mimirtoolCmd
                (verifyArgs (filepath.Join [syncTempDir, "alertmanager-config.yml"]))
                (common.CopyFile os configFile
                  (filepath.Join [syncTempDir, "alertmanager-config.yml"]) s).st).2).st).1.1, some err, ?_, ?_⟩
          · simp [List.filter_cons, List.filter_append, hup1, hup2, am_isUpload_verify,
              am_isUpload_load, am_isUpload_log]
          · simp only [createdFiles] at hcr hc ⊢
            simp [List.filterMap_append, hcr, hc]

end alertmanager

namespace alertmanager

variable {σ : Type}

/-- A run of `Sync` either makes no upload invocation, or makes exactly
one: the load of the staged config file with the template arguments of
`templateArgs` for what `ReadDir` answered, and then the files created are
the staged config file and those templates. -/
theorem am_Sync_loads (os : OS σ)
    (configFile templatesDir mimirAddress mimirID tempBaseDir : String) (s : σ) :
    (∀ e ∈ (Sync os configFile templatesDir mimirAddress mimirID tempBaseDir s).events,
      e.isUpload = false) ∨
    (∃ output err,
      (Sync os configFile templatesDir mimirAddress mimirID tempBaseDir s).events.filter
          Event.isUpload =
        [Event.Exec mimirtoolCmd
          (loadArgs (filepath.Join [syncTempDir os tempBaseDir, "alertmanager-config.yml"])
            (templateArgs templatesDir (syncTempDir os tempBaseDir)
              (templatesListing os configFile templatesDir tempBaseDir s))
            mimirAddress mimirID) output err] ∧
      createdFiles (Sync os configFile templatesDir mimirAddress mimirID tempBaseDir s).events =
        filepath.Join [syncTempDir os tempBaseDir, "alertmanager-config.yml"] ::
          templateArgs templatesDir (syncTempDir os tempBaseDir)
            (templatesListing os configFile templatesDir tempBaseDir s)) := by
  have hh := am_Sync_head_quiet os configFile templatesDir mimirAddress mimirID
    (syncTempDir os tempBaseDir) s
  have hcl := am_cleanup_quiet os (syncTempDir os tempBaseDir)
  have hL : templatesListing os configFile templatesDir tempBaseDir s =
      (os.ReadDir templatesDir
        (os.MkdirAll (filepath.Join [syncTempDir os tempBaseDir, "templates"]) 0o750
          (os.CombinedOutput mimirtoolCmd
            (verifyArgs (filepath.Join [syncTempDir os tempBaseDir, "alertmanager-config.yml"]))
            (common.CopyFile os configFile
              (filepath.Join [syncTempDir os tempBaseDir, "alertmanager-config.yml"])
              (os.MkdirAll (syncTempDir os tempBaseDir) 0o750 s).2).st).2).2).1 := by
    simp [templatesListing, EnsureDir_apply, ExecuteCommand_apply]
  rw [am_Sync_apply, hL]
  cases hmk : (common.EnsureDir os (syncTempDir os tempBaseDir) s).val with
  | some err =>
    left
    intro e he
    exact isUpload_eq_false_of_not_isExec ((hh e he).1)
  | none =>
    simp only
    rcases am_syncSteps_loads os configFile templatesDir mimirAddress mimirID
        (syncTempDir os tempBaseDir) (os.MkdirAll (syncTempDir os tempBaseDir) 0o750 s).2 with
      h | ⟨output, err, h1, h2⟩
    · left
      intro e he
      simp only [List.mem_append] at he
      rcases he with (he | he) | he
      · exact isUpload_eq_false_of_not_isExec ((hh e he).1)
      · exact h e he
      · exact isUpload_eq_false_of_not_isExec ((hcl _ e he).1)
    · right
      refine ⟨output, err, ?_, ?_⟩
      · rw [List.filter_append, List.filter_append, h1,
          filter_isUpload_of_noExec (fun e he => (hh e he).1),
          filter_isUpload_of_noExec (fun e he => (hcl _ e he).1)]
        simp
      · rw [createdFiles_append, createdFiles_append, h2]
        have e1 : createdFiles (Event.Log ("Starting Alertmanager sync for Mimir instance: " ++
            mimirAddress ++ " (ID: " ++ mimirID ++ ")") ::
            Event.Log ("Config file: " ++ configFile) ::
            ((if templatesDir ≠ "" then [Event.Log ("Templates directory: " ++ templatesDir)]
              else []) ++
            [Event.Sys (.MkdirAll (syncTempDir os tempBaseDir) 0o750)
              (os.MkdirAll (syncTempDir os tempBaseDir) 0o750 s).1])) = [] := by
          by_cases htd : templatesDir = "" <;> simp [createdFiles, htd]
        have e2 : ∀ s2, createdFiles (cleanup os (syncTempDir os tempBaseDir) s2).events = [] := by
          intro s2
          rw [am_cleanup_apply]
          cases hrm : (os.RemoveAll (syncTempDir os tempBaseDir) s2).1 <;> simp [createdFiles]
        rw [e1, e2]
        simp

end alertmanager

/-! ## Copies on the in-memory filesystem -/

section copyrun

variable {σ : Type}

/-- A run of `CopyFile` that returns nil: every call succeeded, the mode
passed to `Chmod` is the one the initial `Stat` returned, and the two
deferred `Close` calls come last. -/
theorem CopyFile_ok_run (os : OS σ) (src dst : String) (s : σ)
    (hok : (common.CopyFile os src dst s).val = none) :
    ∃ fi source destination,
      (os.Stat src s).1 = .ok fi ∧ fi.Mode.IsRegular = true ∧
      (os.Open src (os.Stat src s).2).1 = .ok source ∧
      (os.Create dst (os.Open src (os.Stat src s).2).2).1 = .ok destination ∧
      (os.Copy destination source (os.Create dst (os.Open src (os.Stat src s).2).2).2).1 = none ∧
      (os.Chmod dst fi.Mode (os.Copy destination source
        (os.Create dst (os.Open src (os.Stat src s).2).2).2).2).1 = none ∧
      (common.CopyFile os src dst s).st =
        (os.Close source (os.Close destination (os.Chmod dst fi.Mode (os.Copy destination source
          (os.Create dst (os.Open src (os.Stat src s).2).2).2).2).2).2).2 := by
  simp only [common.CopyFile, Prog.bind_apply, sysCallVal_apply] at hok ⊢
  cases h1 : (os.Stat src s).1 with
  | error err => simp [h1] at hok
  | ok fi =>
    by_cases hreg : fi.Mode.IsRegular = true
    · cases h2 : (os.Open src (os.Stat src s).2).1 with
      | error err => simp [h1, hreg, h2] at hok
      | ok source =>
        cases h3 : (os.Create dst (os.Open src (os.Stat src s).2).2).1 with
        | error err => simp [h1, hreg, h2, h3] at hok
        | ok destination =>
          cases h4 : (os.Copy destination source
              (os.Create dst (os.Open src (os.Stat src s).2).2).2).1 with
          | some err => simp [h1, hreg, h2, h3, h4] at hok
          | none =>
            simp [h1, hreg, h2, h3, h4] at hok
            exact ⟨fi, source, destination, rfl, hreg, rfl, rfl, h4, hok,
              by simp [h1, hreg, h2, h3, h4]⟩
    · simp [h1, hreg] at hok

/-- A run of `CopyFile` on a source that `Stat` reports as not regular:
the error, the one call made, and the state after it. -/
theorem CopyFile_notRegular (os : OS σ) (src dst : String) (s : σ) (fi : FileInfo)
    (hstat : (os.Stat src s).1 = .ok fi) (hreg : fi.Mode.IsRegular = false) :
    common.CopyFile os src dst s =
      ⟨some (Errorf (src ++ " is not a regular file")), [Event.Sys (.Stat src) none],
        (os.Stat src s).2⟩ := by
  simp [common.CopyFile, hstat, hreg]

/-- The calls of a run of `CopyFile` that returns nil: all of them
succeed up to the two deferred `Close` calls, `dst` is the file created,
the data goes from the descriptor of `src` to the descriptor of `dst`, and
`Chmod` gives `dst` the mode the initial `Stat` returned. -/
theorem CopyFile_ok_events (os : OS σ) (src dst : String) (s : σ)
    (hok : (common.CopyFile os src dst s).val = none) :
    ∃ fi source destination c1 c2,
      (os.Stat src s).1 = .ok fi ∧ fi.Mode.IsRegular = true ∧
      (os.Open src (os.Stat src s).2).1 = .ok source ∧
      (os.Create dst (os.Open src (os.Stat src s).2).2).1 = .ok destination ∧
      (common.CopyFile os src dst s).events =
        [.Sys (.Stat src) none, .Sys (.Open src) none, .Sys (.Create dst) none,
          .Sys (.Copy destination source) none, .Sys (.Chmod dst fi.Mode) none,
          .Sys (.Close destination) c1, .Sys (.Close source) c2] := by
  simp only [common.CopyFile, Prog.bind_apply, sysCallVal_apply] at hok ⊢
  cases h1 : (os.Stat src s).1 with
  | error err => simp [h1] at hok
  | ok fi =>
    by_cases hreg : fi.Mode.IsRegular = true
    · cases h2 : (os.Open src (os.Stat src s).2).1 with
      | error err => simp [h1, hreg, h2] at hok
      | ok source =>
        cases h3 : (os.Create dst (os.Open src (os.Stat src s).2).2).1 with
        | error err => simp [h1, hreg, h2, h3] at hok
        | ok destination =>
          cases h4 : (os.Copy destination source
              (os.Create dst (os.Open src (os.Stat src s).2).2).2).1 with
          | some err => simp [h1, hreg, h2, h3, h4] at hok
          | none =>
            simp [h1, hreg, h2, h3, h4] at hok
            exact ⟨fi, source, destination,
              (os.Close destination (os.Chmod dst fi.Mode (os.Copy destination source
                (os.Create dst (os.Open src (os.Stat src s).2).2).2).2).2).1,
              (os.Close source (os.Close destination (os.Chmod dst fi.Mode
                (os.Copy destination source
                  (os.Create dst (os.Open src (os.Stat src s).2).2).2).2).2).2).1,
              rfl, hreg, rfl, rfl, by simp [h1, hreg, h2, h3, h4, hok]⟩
    · simp [h1, hreg] at hok

end copyrun

namespace MemFS

theorem find_filter_ne (nodes : List (String × Node)) (p q : String) (h : q ≠ p) :
    (nodes.filter (fun e => e.1 ≠ p)).find? (fun e => e.1 = q) =
      nodes.find? (fun e => e.1 = q) := by
  rw [List.find?_filter]
  congr 1
  funext e
  by_cases he : e.1 = q
  · have hp : ¬ e.1 = p := by rw [he]; exact h
    simp [he, hp]
    exact h
  · simp [he]

theorem find_filter_self (nodes : List (String × Node)) (p : String) :
    (nodes.filter (fun e => e.1 ≠ p)).find? (fun e => e.1 = p) = none := by
  rw [List.find?_eq_none]
  intro e he
  simpa using (List.mem_filter.mp he).2

theorem lookup_put_same (fs : MemFS) (p : String) (n : Node) : (fs.put p n).lookup p = some n := by
  simp [lookup, put, List.find?_append, find_filter_self]

theorem lookup_put_other (fs : MemFS) (p q : String) (n : Node) (h : q ≠ p) :
    (fs.put p n).lookup q = fs.lookup q := by
  have hp : ¬ p = q := fun h2 => h h2.symm
  simp only [lookup, put, List.find?_append, find_filter_ne _ _ _ h]
  cases hf : fs.nodes.find? (fun e => e.1 = q) <;> simp [hp]

theorem lookup_of_nodes {a b : MemFS} (h : a.nodes = b.nodes) (p : String) :
    a.lookup p = b.lookup p := by
  simp [lookup, h]

theorem le_foldl_max (l : List Nat) (a : Nat) : a ≤ l.foldl max a ∧ ∀ x ∈ l, x ≤ l.foldl max a := by
  induction l generalizing a with
  | nil => simp
  | cons y ys ih =>
    obtain ⟨h1, h2⟩ := ih (max a y)
    simp only [List.foldl_cons, List.mem_cons]
    refine ⟨le_trans (le_max_left a y) h1, ?_⟩
    rintro x (rfl | hx)
    · exact le_trans (le_max_right a x) h1
    · exact h2 x hx

theorem lt_freshFd (fs : MemFS) : ∀ e ∈ fs.fds, e.1 < fs.freshFd := by
  intro e he
  have := (le_foldl_max (fs.fds.map (fun e => e.1)) 2).2 e.1 (List.mem_map_of_mem _ he)
  exact Nat.lt_succ_of_le this

theorem find_fd_fresh (fds : List (File × String)) (f : File) (p : String)
    (h : ∀ e ∈ fds, e.1 ≠ f) :
    (fds ++ [(f, p)]).find? (fun e => e.1 = f) = some (f, p) := by
  have : fds.find? (fun e => e.1 = f) = none := by
    rw [List.find?_eq_none]
    intro e he
    simpa using h e he
  simp [List.find?_append, this]

theorem find_fd_other (fds : List (File × String)) (f g : File) (p : String) (h : g ≠ f) :
    (fds ++ [(f, p)]).find? (fun e => e.1 = g) = fds.find? (fun e => e.1 = g) := by
  have hp : ¬ f = g := fun h2 => h h2.symm
  rw [List.find?_append]
  cases hf : fds.find? (fun e => e.1 = g) <;> simp [hp]

theorem Stat_snd (p : String) (fs : MemFS) : (Stat p fs).2 = fs := by
  unfold Stat
  split
  · rfl
  · split <;> rfl

/-- When `Stat` reports a regular file, a file with that mode is at the path. -/
theorem Stat_regular (p : String) (fs : MemFS) (fi : FileInfo)
    (h : (Stat p fs).1 = .ok fi) (hreg : fi.Mode.IsRegular = true) :
    ∃ content, fs.lookup p = some (.file fi.Mode content) := by
  have hdirmode : FileMode.IsRegular (FileMode.ModeDir ||| 0o755) = false := by decide
  by_cases hd : p ∈ fs.denied
  · simp [Stat, hd] at h
  · cases hl : fs.lookup p with
    | none => simp [Stat, hd, hl] at h
    | some n =>
      cases n with
      | dir =>
        simp [Stat, hd, hl] at h
        subst h
        rw [hdirmode] at hreg
        cases hreg
      | file mode content =>
        simp [Stat, hd, hl] at h
        subst h
        exact ⟨content, rfl⟩

theorem Open_ok (p : String) (fs : MemFS) (f : File) (h : (Open p fs).1 = .ok f) :
    f = fs.freshFd ∧ (Open p fs).2 = ⟨fs.nodes, fs.fds ++ [(fs.freshFd, p)], fs.denied⟩ := by
  by_cases hd : p ∈ fs.denied
  · simp [Open, hd] at h
  · cases hl : fs.lookup p with
    | none => simp [Open, hd, hl] at h
    | some n =>
      simp [Open, hd, hl] at h
      exact ⟨h.symm, by simp [Open, hd, hl]⟩

theorem Create_ok (p : String) (fs : MemFS) (f : File) (h : (Create p fs).1 = .ok f) :
    f = fs.freshFd ∧ p ∉ fs.denied ∧ ∃ mode, (Create p fs).2 =
      ⟨(fs.put p (.file mode "")).nodes, fs.fds ++ [(fs.freshFd, p)], fs.denied⟩ := by
  by_cases hd : p ∈ fs.denied
  · simp [Create, hd] at h
  · cases hl : fs.lookup p with
    | none =>
      simp [Create, hd, hl] at h
      exact ⟨h.symm, hd, 0o644, by simp [Create, hd, hl]⟩
    | some n =>
      cases n with
      | dir => simp [Create, hd, hl] at h
      | file mode content =>
        simp [Create, hd, hl] at h
        exact ⟨h.symm, hd, mode, by simp [Create, hd, hl]⟩

theorem Chmod_ok (p : String) (mode : FileMode) (fs : MemFS) (m : FileMode) (content : String)
    (hl : fs.lookup p = some (.file m content)) (h : (Chmod p mode fs).1 = none) :
    (Chmod p mode fs).2 = fs.put p (.file (mode &&& FileMode.chmodBits) content) := by
  by_cases hd : p ∈ fs.denied
  · simp [Chmod, hd] at h
  · simp [Chmod, hd, hl, FileMode.chmodBits]

theorem Close_nodes (f : File) (fs : MemFS) : (Close f fs).2.nodes = fs.nodes := by
  unfold Close
  split <;> rfl

end MemFS

namespace MemFS

theorem and_chmodBits_perm (mode : FileMode) :
    (mode &&& FileMode.chmodBits) &&& FileMode.ModePerm = mode &&& FileMode.ModePerm := by
  have h : FileMode.chmodBits &&& FileMode.ModePerm = FileMode.ModePerm := by decide
  rw [Nat.land_assoc, h]

/-- Go's `io.Copy` between the descriptors that `Open src` and `Create dst`
just returned writes the content of `src`, as it is then, to `dst`. -/
theorem Copy_fresh (fs : MemFS) (src dst : String) (m : FileMode) (mode : FileMode)
    (c0 : String) (hsrc : fs.lookup src = some (.file mode c0)) :
    Copy (⟨fs.nodes, fs.fds ++ [(fs.freshFd, src)], fs.denied⟩ : MemFS).freshFd fs.freshFd
        ⟨((⟨fs.nodes, fs.fds ++ [(fs.freshFd, src)], fs.denied⟩ : MemFS).put dst
            (.file m "")).nodes,
          fs.fds ++ [(fs.freshFd, src)] ++
            [((⟨fs.nodes, fs.fds ++ [(fs.freshFd, src)], fs.denied⟩ : MemFS).freshFd, dst)],
          fs.denied⟩ =
      (none, (⟨((⟨fs.nodes, fs.fds ++ [(fs.freshFd, src)], fs.denied⟩ : MemFS).put dst
            (.file m "")).nodes,
          fs.fds ++ [(fs.freshFd, src)] ++
            [((⟨fs.nodes, fs.fds ++ [(fs.freshFd, src)], fs.denied⟩ : MemFS).freshFd, dst)],
          fs.denied⟩ : MemFS).put dst (.file m (if src = dst then "" else c0))) := by
  generalize hs2 : (⟨fs.nodes, fs.fds ++ [(fs.freshFd, src)], fs.denied⟩ : MemFS) = s2
  have hfds : s2.fds = fs.fds ++ [(fs.freshFd, src)] := by rw [← hs2]
  have hlt2 := lt_freshFd s2
  have hlt := lt_freshFd fs
  have hne : fs.freshFd ≠ s2.freshFd := by
    have := hlt2 (fs.freshFd, src) (by rw [hfds]; simp)
    exact Nat.ne_of_lt this
  have hp1 : pathOf ⟨(s2.put dst (.file m "")).nodes,
      fs.fds ++ [(fs.freshFd, src)] ++ [(s2.freshFd, dst)], fs.denied⟩ s2.freshFd = some dst := by
    simp only [pathOf]
    rw [find_fd_fresh _ _ _ (by
      intro e he
      rw [← hfds] at he
      exact Nat.ne_of_lt (hlt2 e he))]
    rfl
  have hp2 : pathOf ⟨(s2.put dst (.file m "")).nodes,
      fs.fds ++ [(fs.freshFd, src)] ++ [(s2.freshFd, dst)], fs.denied⟩ fs.freshFd = some src := by
    simp only [pathOf]
    rw [find_fd_other _ _ _ _ hne, find_fd_fresh _ _ _ (fun e he => Nat.ne_of_lt (hlt e he))]
    rfl
  have hl1 : lookup ⟨(s2.put dst (.file m "")).nodes,
      fs.fds ++ [(fs.freshFd, src)] ++ [(s2.freshFd, dst)], fs.denied⟩ dst =
      some (.file m "") := by
    refine (lookup_of_nodes (b := s2.put dst (.file m "")) ?_ dst).trans (lookup_put_same _ _ _)
    rfl
  have hl2 : lookup ⟨(s2.put dst (.file m "")).nodes,
      fs.fds ++ [(fs.freshFd, src)] ++ [(s2.freshFd, dst)], fs.denied⟩ src =
      some (.file (if src = dst then m else mode) (if src = dst then "" else c0)) := by
    refine (lookup_of_nodes (b := s2.put dst (.file m "")) ?_ src).trans ?_
    · rfl
    · by_cases h : src = dst
      · subst h
        simp [lookup_put_same]
      · rw [lookup_put_other _ _ _ _ h]
        refine (lookup_of_nodes (b := fs) ?_ src).trans ?_
        · rw [← hs2]
        · simp [hsrc, h]
  simp only [Copy, hp1, hp2, hl1, hl2]

end MemFS

namespace MemFS

/-- On the in-memory filesystem, a run of `CopyFile` that returns nil
leaves at `dst` a file with the mode the initial `Stat` of `src` returned,
as far as `Chmod` sets it, and with the content `src` had (nothing when
`src` and `dst` are the same path, which `Create` truncates), and leaves
every other path as it was. -/
theorem CopyFile_ok_state (pid : Nat) (env : String → String)
    (tool : String → List String → String × error) (fs : MemFS) (src dst : String)
    (hok : (common.CopyFile (memOS pid env tool) src dst fs).val = none) :
    ∃ fi c0, (Stat src fs).1 = .ok fi ∧ fs.lookup src = some (.file fi.Mode c0) ∧
      (common.CopyFile (memOS pid env tool) src dst fs).st.lookup dst =
        some (.file (fi.Mode &&& FileMode.chmodBits) (if src = dst then "" else c0)) ∧
      ∀ p, p ≠ dst →
        (common.CopyFile (memOS pid env tool) src dst fs).st.lookup p = fs.lookup p := by
  obtain ⟨fi, source, destination, hstat, hreg, hopen, hcreate, hcopy, hchmod, hst⟩ :=
    CopyFile_ok_run (memOS pid env tool) src dst fs hok
  simp only [memOS] at hstat hopen hcreate hcopy hchmod hst
  rw [Stat_snd] at hopen hcreate hcopy hchmod hst
  obtain ⟨c0, hl0⟩ := Stat_regular src fs fi hstat hreg
  obtain ⟨hf1, ho⟩ := Open_ok src fs source hopen
  rw [ho] at hcreate hcopy hchmod hst
  obtain ⟨hf2, hdn, m, hc⟩ := Create_ok dst _ destination hcreate
  rw [hc] at hcopy hchmod hst
  subst hf1 hf2
  rw [Copy_fresh fs src dst m fi.Mode c0 hl0] at hchmod hst
  rw [Chmod_ok dst fi.Mode _ m (if src = dst then "" else c0) (lookup_put_same _ _ _) hchmod]
    at hst
  refine ⟨fi, c0, hstat, hl0, ?_, ?_⟩
  · rw [show (common.CopyFile (memOS pid env tool) src dst fs).st = _ from hst]
    refine (lookup_of_nodes ((Close_nodes _ _).trans (Close_nodes _ _)) dst).trans ?_
    exact lookup_put_same _ _ _
  · intro p hp
    rw [show (common.CopyFile (memOS pid env tool) src dst fs).st = _ from hst]
    refine (lookup_of_nodes ((Close_nodes _ _).trans (Close_nodes _ _)) p).trans ?_
    rw [lookup_put_other _ _ _ _ hp, lookup_put_other _ _ _ _ hp]
    refine (lookup_of_nodes (b := (⟨fs.nodes, fs.fds ++ [(fs.freshFd, src)],
      fs.denied⟩ : MemFS).put dst (.file m "")) rfl p).trans ?_
    rw [lookup_put_other _ _ _ _ hp]
    exact lookup_of_nodes rfl p

end MemFS

/-! ## The order of the invocations of the rules workflows -/

section protocol

end protocol

namespace mimirrules

variable {σ : Type}

end mimirrules

namespace mimirrules

variable {σ : Type}

end mimirrules

namespace lokirules

variable {σ : Type}

end lokirules

namespace lokirules

variable {σ : Type}

end lokirules

/-! ## Staging when the filesystem lets the copies succeed -/

section copysucceeds

variable {σ : Type}

theorem CopyFile_of_CopySucceeds (os : OS σ) (src dst : String) (s s2 : σ)
    (h : CopySucceeds os src dst s s2) :
    (common.CopyFile os src dst s).val = none ∧ (common.CopyFile os src dst s).st = s2 := by
  obtain ⟨fi, source, destination, h1, hreg, h2, h3, h4, h5, rfl⟩ := h
  simp [common.CopyFile, h1, hreg, h2, h3, h4, h5]

theorem CopySucceeds_of_CopyFile (os : OS σ) (src dst : String) (s : σ)
    (h : (common.CopyFile os src dst s).val = none) :
    CopySucceeds os src dst s (common.CopyFile os src dst s).st := by
  obtain ⟨fi, source, destination, h1, hreg, h2, h3, h4, h5, hst⟩ :=
    CopyFile_ok_run os src dst s h
  exact ⟨fi, source, destination, h1, hreg, h2, h3, h4, h5, hst⟩

theorem openedFiles_append (a b : List Event) :
    openedFiles (a ++ b) = openedFiles a ++ openedFiles b := by
  simp [openedFiles, List.filterMap_append]

theorem openedFiles_eq_nil_of_noSys {evs : List Event} (h : ∀ e ∈ evs, e.isSys = false) :
    openedFiles evs = [] := by
  simp only [openedFiles, List.filterMap_eq_nil_iff]
  intro e he
  have := h e he
  cases e <;> simp_all [Event.isSys]

theorem CopyFile_ok_opened (os : OS σ) (src dst : String) (s : σ)
    (hok : (common.CopyFile os src dst s).val = none) :
    openedFiles (common.CopyFile os src dst s).events = [src] := by
  have h := CopyFile_outcome os src dst s
  revert h hok
  generalize (common.CopyFile os src dst s).val = v
  generalize (common.CopyFile os src dst s).events = evs
  intro hok h
  cases h <;> simp_all [openedFiles]

end copysucceeds

namespace mimirrules

variable {σ : Type}

/-- When the filesystem lets every rule file of the listing be copied,
from every state that satisfies an invariant which the copies keep, the
copy loop runs to its end and stages exactly the rule files. -/
theorem mimir_copyLoop_succeeds (os : OS σ) (rulesPath syncTempDir : String)
    (Inv : σ → Prop) (entries : List DirEntry)
    (hstep : ∀ entry ∈ entries, isRuleFile entry = true → ∀ s1, Inv s1 →
      ∃ s2, CopySucceeds os (filepath.Join [rulesPath, entry.Name])
        (filepath.Join [syncTempDir, entry.Name]) s1 s2 ∧ Inv s2)
    (acc : List String) (s : σ) (hinv : Inv s) :
    (forRange (copyEntry os rulesPath syncTempDir) entries acc s).val =
        .ok (acc ++ stagedPaths syncTempDir entries) ∧
      Inv (forRange (copyEntry os rulesPath syncTempDir) entries acc s).st := by
  induction entries generalizing acc s with
  | nil => simp [forRange_nil, stagedPaths, hinv]
  | cons entry entries ih =>
    have ih2 := ih (fun e he => hstep e (List.mem_cons_of_mem _ he))
    rw [forRange_cons]
    cases hq : isRuleFile entry with
    | false =>
      rw [mimir_copyEntry_skip _ _ _ _ _ _ hq]
      obtain ⟨h1, h2⟩ := ih2 acc s hinv
      simp only [h1]
      refine ⟨?_, h2⟩
      simp [stagedPaths, List.filter_cons, hq]
    | true =>
      obtain ⟨s2, hcs, hinv2⟩ := hstep entry (List.mem_cons_self _ _) hq s hinv
      obtain ⟨hv, hst⟩ := CopyFile_of_CopySucceeds os _ _ s s2 hcs
      rw [mimir_copyEntry_copy _ _ _ _ _ _ hq]
      simp only [hv, hst]
      obtain ⟨h1, h2⟩ := ih2 (acc ++ [filepath.Join [syncTempDir, entry.Name]]) s2 hinv2
      simp only [h1]
      refine ⟨?_, h2⟩
      simp [stagedPaths, List.filter_cons, hq]

/-- A copy loop that runs to its end has read exactly the rule files of
the listing, in order. -/
theorem mimir_copyLoop_ok_opened (os : OS σ) (rulesPath syncTempDir : String)
    (entries : List DirEntry) (acc : List String) (s : σ) (files : List String)
    (h : (forRange (copyEntry os rulesPath syncTempDir) entries acc s).val = .ok files) :
    openedFiles (forRange (copyEntry os rulesPath syncTempDir) entries acc s).events =
      sourcePaths rulesPath entries := by
  induction entries generalizing acc s with
  | nil => simp [forRange_nil, sourcePaths, openedFiles]
  | cons entry entries ih =>
    rw [forRange_cons] at h ⊢
    cases hq : isRuleFile entry with
    | false =>
      rw [mimir_copyEntry_skip _ _ _ _ _ _ hq] at h ⊢
      have h2 := ih acc s h
      simp only [List.nil_append]
      simp [sourcePaths, List.filter_cons, hq] at h2 ⊢
      exact h2
    | true =>
      rw [mimir_copyEntry_copy _ _ _ _ _ _ hq] at h ⊢
      cases hc : (common.CopyFile os (filepath.Join [rulesPath, entry.Name])
        (filepath.Join [syncTempDir, entry.Name]) s).val with
      | some err => simp [hc] at h
      | none =>
        simp only [hc] at h ⊢
        have h2 := ih _ _ h
        have hop := CopyFile_ok_opened _ _ _ _ hc
        rw [openedFiles_append, h2]
        have : openedFiles (Event.Log ("Copying rule file " ++
            filepath.Join [rulesPath, entry.Name] ++ " to " ++
            filepath.Join [syncTempDir, entry.Name]) ::
            (common.CopyFile os (filepath.Join [rulesPath, entry.Name])
              (filepath.Join [syncTempDir, entry.Name]) s).events) =
            [filepath.Join [rulesPath, entry.Name]] := by
          rw [← hop]; simp [openedFiles]
        rw [this]
        simp [sourcePaths, List.filter_cons, hq]

/-- An error of the copy loop is the error that `CopyFile` returned for a
rule file of the listing, wrapped. -/
theorem mimir_copyLoop_error_cause (os : OS σ) (rulesPath syncTempDir : String)
    (entries : List DirEntry) (acc : List String) (s : σ) (err : GoError)
    (h : (forRange (copyEntry os rulesPath syncTempDir) entries acc s).val = .error err) :
    ∃ entry ∈ entries, isRuleFile entry = true ∧ ∃ (s1 : σ) (cause : GoError),
      (common.CopyFile os (filepath.Join [rulesPath, entry.Name])
        (filepath.Join [syncTempDir, entry.Name]) s1).val = some cause ∧
      err = Errorf ("failed to copy rule file " ++ filepath.Join [rulesPath, entry.Name] ++
        " to " ++ filepath.Join [syncTempDir, entry.Name] ++ ": " ++ cause.msg) := by
  induction entries generalizing acc s with
  | nil => simp [forRange_nil] at h
  | cons entry entries ih =>
    rw [forRange_cons] at h
    cases hq : isRuleFile entry with
    | false =>
      rw [mimir_copyEntry_skip _ _ _ _ _ _ hq] at h
      obtain ⟨e2, he2, h2⟩ := ih _ _ h
      exact ⟨e2, List.mem_cons_of_mem _ he2, h2⟩
    | true =>
      rw [mimir_copyEntry_copy _ _ _ _ _ _ hq] at h
      cases hc : (common.CopyFile os (filepath.Join [rulesPath, entry.Name])
        (filepath.Join [syncTempDir, entry.Name]) s).val with
      | some cause =>
        simp only [hc, Except.error.injEq] at h
        exact ⟨entry, List.mem_cons_self _ _, hq, s, cause, hc, h.symm⟩
      | none =>
        simp only [hc] at h
        obtain ⟨e2, he2, h2⟩ := ih _ _ h
        exact ⟨e2, List.mem_cons_of_mem _ he2, h2⟩

/-- The files read by a whole run are those read by steps 2 to 4. -/
theorem mimir_Sync_opened (os : OS σ)
    (rulesPath mimirAddress mimirID namespaceArg tempBaseDir : String) (s : σ)
    (hmk : (common.EnsureDir os (syncTempDir os tempBaseDir) s).val = none) :
    openedFiles (Sync os rulesPath mimirAddress mimirID namespaceArg tempBaseDir s).events =
      openedFiles (syncSteps os rulesPath mimirAddress mimirID (syncTempDir os tempBaseDir)
        (os.MkdirAll (syncTempDir os tempBaseDir) 0o750 s).2).events := by
  rw [mimir_Sync_apply, hmk]
  simp only [openedFiles_append, mimir_cleanup_apply]
  have h1 : ∀ (l1 l2 : String) (c : Call) (r : error) (hc : ∀ p, c ≠ .Open p),
      openedFiles [Event.Log l1, Event.Log l2, Event.Sys c r] = [] := by
    intro l1 l2 c r hc
    cases c <;> simp_all [openedFiles]
  rw [h1 _ _ _ _ (by simp)]
  cases hr : (os.RemoveAll (syncTempDir os tempBaseDir)
    (syncSteps os rulesPath mimirAddress mimirID (syncTempDir os tempBaseDir)
      (os.MkdirAll (syncTempDir os tempBaseDir) 0o750 s).2).st).1 <;> simp [openedFiles]

end mimirrules

namespace lokirules

variable {σ : Type}

/-- When the filesystem lets every rule file of the listing be copied,
from every state that satisfies an invariant which the copies keep, the
copy loop runs to its end and stages exactly the rule files. -/
theorem loki_copyLoop_succeeds (os : OS σ) (rulesPath syncTempDir : String)
    (Inv : σ → Prop) (entries : List DirEntry)
    (hstep : ∀ entry ∈ entries, isRuleFile entry = true → ∀ s1, Inv s1 →
      ∃ s2, CopySucceeds os (filepath.Join [rulesPath, entry.Name])
        (filepath.Join [syncTempDir, entry.Name]) s1 s2 ∧ Inv s2)
    (acc : List String) (s : σ) (hinv : Inv s) :
    (forRange (copyEntry os rulesPath syncTempDir) entries acc s).val =
        .ok (acc ++ stagedPaths syncTempDir entries) ∧
      Inv (forRange (copyEntry os rulesPath syncTempDir) entries acc s).st := by
  induction entries generalizing acc s with
  | nil => simp [forRange_nil, stagedPaths, hinv]
  | cons entry entries ih =>
    have ih2 := ih (fun e he => hstep e (List.mem_cons_of_mem _ he))
    rw [forRange_cons]
    cases hq : isRuleFile entry with
    | false =>
      rw [loki_copyEntry_skip _ _ _ _ _ _ hq]
      obtain ⟨h1, h2⟩ := ih2 acc s hinv
      simp only [h1]
      refine ⟨?_, h2⟩
      simp [stagedPaths, List.filter_cons, hq]
    | true =>
      obtain ⟨s2, hcs, hinv2⟩ := hstep entry (List.mem_cons_self _ _) hq s hinv
      obtain ⟨hv, hst⟩ := CopyFile_of_CopySucceeds os _ _ s s2 hcs
      rw [loki_copyEntry_copy _ _ _ _ _ _ hq]
      simp only [hv, hst]
      obtain ⟨h1, h2⟩ := ih2 (acc ++ [filepath.Join [syncTempDir, entry.Name]]) s2 hinv2
      simp only [h1]
      refine ⟨?_, h2⟩
      simp [stagedPaths, List.filter_cons, hq]

/-- A copy loop that runs to its end has read exactly the rule files of
the listing, in order. -/
theorem loki_copyLoop_ok_opened (os : OS σ) (rulesPath syncTempDir : String)
    (entries : List DirEntry) (acc : List String) (s : σ) (files : List String)
    (h : (forRange (copyEntry os rulesPath syncTempDir) entries acc s).val = .ok files) :
    openedFiles (forRange (copyEntry os rulesPath syncTempDir) entries acc s).events =
      sourcePaths rulesPath entries := by
  induction entries generalizing acc s with
  | nil => simp [forRange_nil, sourcePaths, openedFiles]
  | cons entry entries ih =>
    rw [forRange_cons] at h ⊢
    cases hq : isRuleFile entry with
    | false =>
      rw [loki_copyEntry_skip _ _ _ _ _ _ hq] at h ⊢
      have h2 := ih acc s h
      simp only [List.nil_append]
      simp [sourcePaths, List.filter_cons, hq] at h2 ⊢
      exact h2
    | true =>
      rw [loki_copyEntry_copy _ _ _ _ _ _ hq] at h ⊢
      cases hc : (common.CopyFile os (filepath.Join [rulesPath, entry.Name])
        (filepath.Join [syncTempDir, entry.Name]) s).val with
      | some err => simp [hc] at h
      | none =>
        simp only [hc] at h ⊢
        have h2 := ih _ _ h
        have hop := CopyFile_ok_opened _ _ _ _ hc
        rw [openedFiles_append, h2]
        have : openedFiles (Event.Log ("Copying rule file " ++
            filepath.Join [rulesPath, entry.Name] ++ " to " ++
            filepath.Join [syncTempDir, entry.Name]) ::
            (common.CopyFile os (filepath.Join [rulesPath, entry.Name])
              (filepath.Join [syncTempDir, entry.Name]) s).events) =
            [filepath.Join [rulesPath, entry.Name]] := by
          rw [← hop]; simp [openedFiles]
        rw [this]
        simp [sourcePaths, List.filter_cons, hq]

/-- An error of the copy loop is the error that `CopyFile` returned for a
rule file of the listing, wrapped. -/
theorem loki_copyLoop_error_cause (os : OS σ) (rulesPath syncTempDir : String)
    (entries : List DirEntry) (acc : List String) (s : σ) (err : GoError)
    (h : (forRange (copyEntry os rulesPath syncTempDir) entries acc s).val = .error err) :
    ∃ entry ∈ entries, isRuleFile entry = true ∧ ∃ (s1 : σ) (cause : GoError),
      (common.CopyFile os (filepath.Join [rulesPath, entry.Name])
        (filepath.Join [syncTempDir, entry.Name]) s1).val = some cause ∧
      err = Errorf ("failed to copy rule file " ++ filepath.Join [rulesPath, entry.Name] ++
        " to " ++ filepath.Join [syncTempDir, entry.Name] ++ ": " ++ cause.msg) := by
  induction entries generalizing acc s with
  | nil => simp [forRange_nil] at h
  | cons entry entries ih =>
    rw [forRange_cons] at h
    cases hq : isRuleFile entry with
    | false =>
      rw [loki_copyEntry_skip _ _ _ _ _ _ hq] at h
      obtain ⟨e2, he2, h2⟩ := ih _ _ h
      exact ⟨e2, List.mem_cons_of_mem _ he2, h2⟩
    | true =>
      rw [loki_copyEntry_copy _ _ _ _ _ _ hq] at h
      cases hc : (common.CopyFile os (filepath.Join [rulesPath, entry.Name])
        (filepath.Join [syncTempDir, entry.Name]) s).val with
      | some cause =>
        simp only [hc, Except.error.injEq] at h
        exact ⟨entry, List.mem_cons_self _ _, hq, s, cause, hc, h.symm⟩
      | none =>
        simp only [hc] at h
        obtain ⟨e2, he2, h2⟩ := ih _ _ h
        exact ⟨e2, List.mem_cons_of_mem _ he2, h2⟩

/-- The files read by a whole run are those read by steps 2 to 4. -/
theorem loki_Sync_opened (os : OS σ)
    (rulesPath lokiAddress orgID tempBaseDir : String) (s : σ)
    (hmk : (common.EnsureDir os (syncTempDir os tempBaseDir) s).val = none) :
    openedFiles (Sync os rulesPath lokiAddress orgID tempBaseDir s).events =
      openedFiles (syncSteps os rulesPath lokiAddress orgID (syncTempDir os tempBaseDir)
        (os.MkdirAll (syncTempDir os tempBaseDir) 0o750 s).2).events := by
  rw [loki_Sync_apply, hmk]
  simp only [openedFiles_append, loki_cleanup_apply]
  have h1 : ∀ (l1 l2 : String) (c : Call) (r : error) (hc : ∀ p, c ≠ .Open p),
      openedFiles [Event.Log l1, Event.Log l2, Event.Sys c r] = [] := by
    intro l1 l2 c r hc
    cases c <;> simp_all [openedFiles]
  rw [h1 _ _ _ _ (by simp)]
  cases hr : (os.RemoveAll (syncTempDir os tempBaseDir)
    (syncSteps os rulesPath lokiAddress orgID (syncTempDir os tempBaseDir)
      (os.MkdirAll (syncTempDir os tempBaseDir) 0o750 s).2).st).1 <;> simp [openedFiles]

end lokirules

namespace MemFS

theorem isRegular_chmodBits (mode : FileMode) :
    FileMode.IsRegular (mode &&& FileMode.chmodBits) = true := by
  have h : FileMode.chmodBits &&& FileMode.ModeType = 0 := by decide
  simp [FileMode.IsRegular, Nat.land_assoc, h]

theorem Open_denied (p : String) (fs : MemFS) : (Open p fs).2.denied = fs.denied := by
  unfold Open
  split
  · rfl
  · split <;> rfl

theorem Create_denied (p : String) (fs : MemFS) : (Create p fs).2.denied = fs.denied := by
  unfold Create
  split
  · rfl
  · split <;> rfl

theorem Copy_denied (d f : File) (fs : MemFS) : (Copy d f fs).2.denied = fs.denied := by
  unfold Copy
  split
  · split <;> rfl
  · rfl

theorem Chmod_denied (p : String) (mode : FileMode) (fs : MemFS) :
    (Chmod p mode fs).2.denied = fs.denied := by
  unfold Chmod
  split
  · rfl
  · split <;> rfl

theorem Close_denied (f : File) (fs : MemFS) : (Close f fs).2.denied = fs.denied := by
  unfold Close
  split <;> rfl

end MemFS

namespace MemFS

theorem Chmod_file (p : String) (mode : FileMode) (fs : MemFS) (m : FileMode) (content : String)
    (hd : p ∉ fs.denied) (hl : fs.lookup p = some (.file m content)) :
    (Chmod p mode fs).1 = none := by
  simp [Chmod, hd, hl]

/-- On the in-memory filesystem a copy that `canCopy` allows succeeds: it
leaves a regular file at `dst`, every other path as it was, and refuses
the same paths as before. -/
theorem copy_succeeds (pid : Nat) (env : String → String)
    (tool : String → List String → String × error) (fs : MemFS) (src dst : String)
    (h : fs.canCopy src dst = true) :
    ∃ s2, CopySucceeds (memOS pid env tool) src dst fs s2 ∧ s2.denied = fs.denied ∧
      (∃ mode content, s2.lookup dst = some (.file mode content) ∧
        FileMode.IsRegular mode = true) ∧
      ∀ p, p ≠ dst → s2.lookup p = fs.lookup p := by
  simp only [canCopy, Bool.and_eq_true, Bool.not_eq_true', decide_eq_false_iff_not] at h
  obtain ⟨⟨⟨hsd, hdd⟩, hsrc⟩, hdst⟩ := h
  cases hls : fs.lookup src with
  | none => simp [hls] at hsrc
  | some n =>
    cases n with
    | dir => simp [hls] at hsrc
    | file mode c0 =>
      simp only [hls] at hsrc
      have e1 : Stat src fs = (.ok ⟨mode⟩, fs) := by simp [Stat, hsd, hls]
      have e2 : Open src fs =
          (.ok fs.freshFd, ⟨fs.nodes, fs.fds ++ [(fs.freshFd, src)], fs.denied⟩) := by
        simp [Open, hsd, hls]
      have e3 : ∃ m, Create dst ⟨fs.nodes, fs.fds ++ [(fs.freshFd, src)], fs.denied⟩ =
          (.ok (⟨fs.nodes, fs.fds ++ [(fs.freshFd, src)], fs.denied⟩ : MemFS).freshFd,
            ⟨((⟨fs.nodes, fs.fds ++ [(fs.freshFd, src)], fs.denied⟩ : MemFS).put dst
                (.file m "")).nodes,
              fs.fds ++ [(fs.freshFd, src)] ++
                [((⟨fs.nodes, fs.fds ++ [(fs.freshFd, src)], fs.denied⟩ : MemFS).freshFd, dst)],
              fs.denied⟩) := by
        have hl : (⟨fs.nodes, fs.fds ++ [(fs.freshFd, src)], fs.denied⟩ : MemFS).lookup dst =
            fs.lookup dst := lookup_of_nodes rfl dst
        cases hld : fs.lookup dst with
        | none => exact ⟨0o644, by simp [Create, hdd, hl, hld]⟩
        | some n =>
          cases n with
          | dir => simp [hld] at hdst
          | file m c => exact ⟨m, by simp [Create, hdd, hl, hld]⟩
      obtain ⟨m, e3⟩ := e3
      have e4 := Copy_fresh fs src dst m mode c0 hls
      have e5a := Chmod_file dst mode
        ((⟨((⟨fs.nodes, fs.fds ++ [(fs.freshFd, src)], fs.denied⟩ : MemFS).put dst
            (.file m "")).nodes,
          fs.fds ++ [(fs.freshFd, src)] ++
            [((⟨fs.nodes, fs.fds ++ [(fs.freshFd, src)], fs.denied⟩ : MemFS).freshFd, dst)],
          fs.denied⟩ : MemFS).put dst (.file m (if src = dst then "" else c0)))
        m (if src = dst then "" else c0) hdd (lookup_put_same _ _ _)
      have hcs : CopySucceeds (memOS pid env tool) src dst fs
          ((memOS pid env tool).Close fs.freshFd
            ((memOS pid env tool).Close (⟨fs.nodes, fs.fds ++ [(fs.freshFd, src)], fs.denied⟩ : MemFS).freshFd
            ((memOS pid env tool).Chmod dst mode
            ((memOS pid env tool).Copy (⟨fs.nodes, fs.fds ++ [(fs.freshFd, src)], fs.denied⟩ : MemFS).freshFd
            fs.freshFd ((memOS pid env tool).Create dst
            ((memOS pid env tool).Open src ((memOS pid env tool).Stat src fs).2).2).2).2).2).2).2 := by
        refine ⟨⟨mode⟩, fs.freshFd,
          (⟨fs.nodes, fs.fds ++ [(fs.freshFd, src)], fs.denied⟩ : MemFS).freshFd,
          ?_, hsrc, ?_, ?_, ?_, ?_, rfl⟩
        · simp only [memOS, e1]
        · simp only [memOS, e1, e2]
        · simp only [memOS, e1, e2, e3]
        · simp only [memOS, e1, e2, e3, e4]
        · simp only [memOS, e1, e2, e3, e4, e5a]
      obtain ⟨hok, hst⟩ := CopyFile_of_CopySucceeds _ _ _ _ _ hcs
      obtain ⟨fi, c1, hstat, hl0, hdstl, hother⟩ := CopyFile_ok_state pid env tool fs src dst hok
      rw [hst] at hdstl hother
      refine ⟨_, hcs, ?_, ⟨_, _, hdstl, isRegular_chmodBits _⟩, hother⟩
      simp only [memOS, Close_denied, Chmod_denied, Copy_denied, Create_denied, Open_denied,
        Stat_snd]

end MemFS

namespace MemFS

theorem canCopy_preserved (s1 s2 : MemFS) (dst : String) (hden : s2.denied = s1.denied)
    (hdst : ∃ mode content, s2.lookup dst = some (.file mode content) ∧
      FileMode.IsRegular mode = true)
    (hother : ∀ p, p ≠ dst → s2.lookup p = s1.lookup p) (a b : String)
    (h : s1.canCopy a b = true) : s2.canCopy a b = true := by
  obtain ⟨mode, content, hl, hreg⟩ := hdst
  simp only [canCopy, Bool.and_eq_true, Bool.not_eq_true', decide_eq_false_iff_not] at h ⊢
  obtain ⟨⟨⟨ha, hb⟩, hsrc⟩, hd⟩ := h
  refine ⟨⟨⟨by rw [hden]; exact ha, by rw [hden]; exact hb⟩, ?_⟩, ?_⟩
  · by_cases hx : a = dst
    · subst hx
      simp [hl, hreg]
    · rw [hother a hx]
      exact hsrc
  · by_cases hx : b = dst
    · subst hx
      simp [hl]
    · rw [hother b hx]
      exact hd

/-- On the in-memory filesystem, while every rule file of a listing can be
copied to its staged path, each such copy succeeds and leaves a state in
which that still holds. -/
theorem staging_step (pid : Nat) (env : String → String)
    (tool : String → List String → String × error) (rulesPath tempDir : String)
    (entries : List DirEntry) :
    ∀ entry ∈ entries, isRuleFile entry = true → ∀ s1 : MemFS,
      canCopyAll (copyPairs rulesPath tempDir entries) s1 = true →
      ∃ s2, CopySucceeds (memOS pid env tool) (filepath.Join [rulesPath, entry.Name])
          (filepath.Join [tempDir, entry.Name]) s1 s2 ∧
        canCopyAll (copyPairs rulesPath tempDir entries) s2 = true := by
  intro entry he hq s1 hinv
  simp only [canCopyAll, List.all_eq_true] at hinv ⊢
  have hmem : (filepath.Join [rulesPath, entry.Name], filepath.Join [tempDir, entry.Name]) ∈
      copyPairs rulesPath tempDir entries := by
    simp only [copyPairs, List.mem_map, List.mem_filter]
    exact ⟨entry, ⟨he, hq⟩, rfl⟩
  obtain ⟨s2, hcs, hden, hdst, hother⟩ := copy_succeeds pid env tool s1 _ _ (hinv _ hmem)
  refine ⟨s2, hcs, ?_⟩
  intro pr hpr
  exact canCopy_preserved s1 s2 _ hden hdst hother pr.1 pr.2 (hinv pr hpr)

end MemFS

section ensuredir

variable {σ : Type}

/-- When `MkdirAll` fails with nothing but `file exists`, `EnsureDir` returns nil. -/
theorem EnsureDir_of_MkdirAll (os : OS σ) (dirName : String) (s : σ)
    (h : ∀ err, (os.MkdirAll dirName 0o750 s).1 = some err → err.isExist = true) :
    (common.EnsureDir os dirName s).val = none := by
  rw [EnsureDir_apply]
  cases hm : (os.MkdirAll dirName 0o750 s).1 with
  | none => rfl
  | some err => simp [h err hm]

/-- A `MkdirAll` that succeeds fails with nothing. -/
theorem MkdirAll_none_only (os : OS σ) (dirName : String) (s : σ)
    (h : (os.MkdirAll dirName 0o750 s).1 = none) :
    ∀ err, (os.MkdirAll dirName 0o750 s).1 = some err → err.isExist = true := by
  intro err he
  rw [h] at he
  cases he

end ensuredir

/-! ## The `loki-rules` case on a command line that clears the org id -/

namespace flag

theorem lokiFlagNames_eq :
    main.lokiFlagNames = ["rules.path", "loki.address", "loki.org-id", "temp.dir"] := by
  decide

theorem LokiShape_lokiRulesCmd : LokiShape main.lokiRulesCmd :=
  ⟨"", "", "fake", "/tmp", rfl⟩

theorem LokiShape_set (f : FlagSet) (name value : String) (h : LokiShape f) :
    LokiShape (f.set name value) := by
  obtain ⟨a, b, c, d, hf⟩ := h
  simp only [LokiShape, FlagSet.set, hf, List.map_cons, List.map_nil]
  by_cases h1 : "rules.path" = name <;> by_cases h2 : "loki.address" = name <;>
    by_cases h3 : "loki.org-id" = name <;> by_cases h4 : "temp.dir" = name <;>
    simp [h1, h2, h3, h4]

theorem OrgEmpty_set_org (f : FlagSet) (h : LokiShape f) :
    OrgEmpty (f.set "loki.org-id" "") := by
  obtain ⟨a, b, c, d, hf⟩ := h
  refine ⟨?_, a, b, d, ?_⟩
  · simp only [FlagSet.set]
    by_cases hm : "loki.org-id" ∈ f.actual <;> simp [hm]
  · simp [FlagSet.set, hf]

theorem OrgEmpty_set_other (f : FlagSet) (name value : String) (h : OrgEmpty f)
    (hne : name ≠ "loki.org-id") : OrgEmpty (f.set name value) := by
  obtain ⟨hm, a, b, d, hf⟩ := h
  have hne2 : ¬ "loki.org-id" = name := fun h2 => hne h2.symm
  refine ⟨?_, ?_⟩
  · simp only [FlagSet.set]
    by_cases hm2 : name ∈ f.actual <;> simp [hm2, hm]
  · simp only [FlagSet.set, hf, List.map_cons, List.map_nil]
    by_cases h1 : "rules.path" = name <;> by_cases h2 : "loki.address" = name <;>
      by_cases h4 : "temp.dir" = name <;> simp [h1, h2, hne2, h4]

theorem LokiShape_of_OrgEmpty (f : FlagSet) (h : OrgEmpty f) : LokiShape f := by
  obtain ⟨-, a, b, d, hf⟩ := h
  exact ⟨a, b, "", d, hf⟩

theorem Lookup_of_LokiShape (f : FlagSet) (name : String) (h : LokiShape f)
    (hn : name ∈ main.lokiFlagNames) : ∃ fl, f.Lookup name = some fl := by
  obtain ⟨a, b, c, d, hf⟩ := h
  rw [lokiFlagNames_eq] at hn
  simp only [List.mem_cons, List.mem_singleton, List.not_mem_nil, or_false] at hn
  rcases hn with rfl | rfl | rfl | rfl <;> simp [FlagSet.Lookup, hf]

/-- One step of the parser on a flag of `loki-rules`, in any of its four
spellings: the flag is set to the value and its arguments are consumed. -/
theorem parseOne_args (f : FlagSet) (a : main.FlagArg) (rest : List String)
    (h : LokiShape f) (hn : a.name ∈ main.lokiFlagNames) :
    parseOne f (a.args ++ rest) = .seen (f.set a.name a.value) rest := by
  obtain ⟨fl, hl⟩ := Lookup_of_LokiShape f a.name h hn
  obtain ⟨name, value, dd, sep⟩ := a
  rw [lokiFlagNames_eq] at hn
  simp only [List.mem_cons, List.mem_singleton, List.not_mem_nil, or_false] at hn
  simp only at hl
  rcases hn with rfl | rfl | rfl | rfl <;> cases dd <;> cases sep <;>
    simp [main.FlagArg.args, parseOne, splitValue, List.takeWhile, List.dropWhile, hl]

end flag

namespace flag

theorem setAll_nil (f : FlagSet) : setAll f [] = f := rfl

theorem setAll_cons (f : FlagSet) (a : main.FlagArg) (flags : List main.FlagArg) :
    setAll f (a :: flags) = setAll (f.set a.name a.value) flags := rfl

theorem setAll_append (f : FlagSet) (xs ys : List main.FlagArg) :
    setAll f (xs ++ ys) = setAll (setAll f xs) ys := by
  simp [setAll, List.foldl_append]

theorem LokiShape_setAll (f : FlagSet) (flags : List main.FlagArg) (h : LokiShape f) :
    LokiShape (setAll f flags) := by
  induction flags generalizing f with
  | nil => exact h
  | cons a flags ih => exact ih _ (LokiShape_set f a.name a.value h)

theorem OrgEmpty_setAll (f : FlagSet) (flags : List main.FlagArg) (h : OrgEmpty f)
    (hne : ∀ a ∈ flags, a.name ≠ "loki.org-id") : OrgEmpty (setAll f flags) := by
  induction flags generalizing f with
  | nil => exact h
  | cons a flags ih =>
    exact ih _ (OrgEmpty_set_other f a.name a.value h (hne a (List.mem_cons_self _ _)))
      (fun b hb => hne b (List.mem_cons_of_mem _ hb))

/-- The parser consumes a command line of flags of `loki-rules` and sets
them in order, whatever fuel above their number it is given. -/
theorem parseLoop_commandLine (flags : List main.FlagArg) (f : FlagSet) (fuel : Nat)
    (hfuel : flags.length < fuel) (h : LokiShape f)
    (hn : ∀ a ∈ flags, a.name ∈ main.lokiFlagNames) :
    parseLoop fuel f (main.commandLine flags) = .ok (setAll f flags) := by
  induction flags generalizing f fuel with
  | nil =>
    cases fuel with
    | zero => simp at hfuel
    | succ n => simp [parseLoop, main.commandLine, parseOne, setAll_nil]
  | cons a flags ih =>
    cases fuel with
    | zero => simp at hfuel
    | succ n =>
      simp only [main.commandLine, parseLoop,
        parseOne_args f a _ h (hn a (List.mem_cons_self _ _)), setAll_cons]
      exact ih _ n (by simpa using hfuel) (LokiShape_set f a.name a.value h)
        (fun b hb => hn b (List.mem_cons_of_mem _ hb))

theorem length_commandLine (flags : List main.FlagArg) :
    flags.length ≤ (main.commandLine flags).length := by
  induction flags with
  | nil => simp [main.commandLine]
  | cons a flags ih =>
    have : 1 ≤ a.args.length := by
      cases hs : a.separate <;> simp [main.FlagArg.args, hs]
    simp only [main.commandLine, List.length_append, List.length_cons]
    omega

/-- Parsing a command line of flags of `loki-rules` in which the last
`loki.org-id` has the empty value: the flag is among those set, with the
empty value. -/
theorem Parse_org_empty (pre post : List main.FlagArg) (x : main.FlagArg)
    (hx : x.name = "loki.org-id") (hv : x.value = "")
    (hpre : ∀ a ∈ pre, a.name ∈ main.lokiFlagNames)
    (hpost : ∀ a ∈ post, a.name ∈ main.lokiFlagNames ∧ a.name ≠ "loki.org-id") :
    main.lokiRulesCmd.Parse (main.commandLine (pre ++ x :: post)) =
        .ok (setAll main.lokiRulesCmd (pre ++ x :: post)) ∧
      OrgEmpty (setAll main.lokiRulesCmd (pre ++ x :: post)) := by
  constructor
  · refine parseLoop_commandLine _ _ _ (Nat.lt_succ_of_le (length_commandLine _))
      LokiShape_lokiRulesCmd ?_
    intro a ha
    simp only [List.mem_append, List.mem_cons] at ha
    rcases ha with ha | rfl | ha
    · exact hpre a ha
    · rw [hx, lokiFlagNames_eq]; simp
    · exact (hpost a ha).1
  · rw [setAll_append, setAll_cons, hx, hv]
    exact OrgEmpty_setAll _ _
      (OrgEmpty_set_org _ (LokiShape_setAll _ _ LokiShape_lokiRulesCmd))
      (fun a ha => (hpost a ha).2)

end flag

namespace main

variable {σ : Type}

/-- The run of `getLRValue` on a defined flag: the value by precedence,
one log line when the environment variable is used, no change of state. -/
theorem getLRValue_apply (os : OS σ) (cmd : flag.FlagSet) (flagsSet : List String)
    (flagName envVarName : String) (fl : flag.Flag) (hfl : cmd.Lookup flagName = some fl)
    (s : σ) :
    getLRValue os cmd flagsSet flagName envVarName s =
      ⟨some (if flagName ∈ flagsSet then fl.Value
          else if os.Getenv envVarName ≠ "" then os.Getenv envVarName else fl.DefValue),
        (if flagName ∈ flagsSet then []
          else if os.Getenv envVarName ≠ "" then
            [Event.Log ("Using " ++ flagName ++ " from environment variable " ++ envVarName ++
              ": " ++ os.Getenv envVarName)]
          else []),
        s⟩ := by
  simp only [getLRValue, hfl]
  by_cases h1 : flagName ∈ flagsSet
  · simp [h1]
  · by_cases h2 : os.Getenv envVarName = "" <;> simp [h1, h2]

/-- The `loki-rules` case when parsing has set `loki.org-id` to the empty
string: the org id resolves to the empty string without a look at the
environment, and the case ends in `log.Fatal` with the line of the first
check that fails. -/
theorem resolveLR_org_empty (os : OS σ) (arguments : List String) (cmd : flag.FlagSet)
    (hparse : lokiRulesCmd.Parse arguments = .ok cmd) (h : flag.OrgEmpty cmd) (s : σ) :
    ∃ rulesPath lokiAddress,
      (getLRValue os cmd cmd.Visit "rules.path" "MALSYNC_LOKIRULES_RULES_PATH" s).val =
        some rulesPath ∧
      (getLRValue os cmd cmd.Visit "loki.address" "MALSYNC_LOKIRULES_LOKI_ADDRESS" s).val =
        some lokiAddress ∧
      getLRValue os cmd cmd.Visit "loki.org-id" "MALSYNC_LOKIRULES_LOKI_ORG_ID" s =
        ⟨some "", [], s⟩ ∧
      resolveLR os arguments s =
        ⟨.exit 1,
          (getLRValue os cmd cmd.Visit "rules.path" "MALSYNC_LOKIRULES_RULES_PATH" s).events ++
            (getLRValue os cmd cmd.Visit "loki.address" "MALSYNC_LOKIRULES_LOKI_ADDRESS"
              s).events ++
            (getLRValue os cmd cmd.Visit "temp.dir" "MALSYNC_LOKIRULES_TEMP_DIR" s).events ++
            [Event.Log (lokiFatalLine rulesPath lokiAddress)],
          s⟩ ∧
      ∀ e ∈ (resolveLR os arguments s).events, ∃ l, e = Event.Log l := by
  obtain ⟨hm, a, b, d, hf⟩ := h
  have l1 : cmd.Lookup "rules.path" = some ⟨"rules.path", a, ""⟩ := by
    simp [flag.FlagSet.Lookup, hf]
  have l2 : cmd.Lookup "loki.address" = some ⟨"loki.address", b, ""⟩ := by
    simp [flag.FlagSet.Lookup, hf]
  have l3 : cmd.Lookup "loki.org-id" = some ⟨"loki.org-id", "", "fake"⟩ := by
    simp [flag.FlagSet.Lookup, hf]
  have l4 : cmd.Lookup "temp.dir" = some ⟨"temp.dir", d, "/tmp"⟩ := by
    simp [flag.FlagSet.Lookup, hf]
  have g1 := getLRValue_apply os cmd cmd.Visit "rules.path" "MALSYNC_LOKIRULES_RULES_PATH" _ l1
  have g2 := getLRValue_apply os cmd cmd.Visit "loki.address"
    "MALSYNC_LOKIRULES_LOKI_ADDRESS" _ l2
  have g3 : ∀ s2, getLRValue os cmd cmd.Visit "loki.org-id" "MALSYNC_LOKIRULES_LOKI_ORG_ID" s2 =
      ⟨some "", [], s2⟩ := by
    intro s2
    rw [getLRValue_apply os cmd cmd.Visit "loki.org-id" "MALSYNC_LOKIRULES_LOKI_ORG_ID" _ l3]
    have hm2 : "loki.org-id" ∈ cmd.Visit := hm
    simp [hm2]
  have g4 := getLRValue_apply os cmd cmd.Visit "temp.dir" "MALSYNC_LOKIRULES_TEMP_DIR" _ l4
  have hres : resolveLR os arguments s =
      ⟨.exit 1,
        (getLRValue os cmd cmd.Visit "rules.path" "MALSYNC_LOKIRULES_RULES_PATH" s).events ++
          (getLRValue os cmd cmd.Visit "loki.address" "MALSYNC_LOKIRULES_LOKI_ADDRESS"
            s).events ++
          (getLRValue os cmd cmd.Visit "temp.dir" "MALSYNC_LOKIRULES_TEMP_DIR" s).events ++
          [Event.Log (lokiFatalLine
            (if "rules.path" ∈ cmd.Visit then a
              else if os.Getenv "MALSYNC_LOKIRULES_RULES_PATH" ≠ "" then
                os.Getenv "MALSYNC_LOKIRULES_RULES_PATH" else "")
            (if "loki.address" ∈ cmd.Visit then b
              else if os.Getenv "MALSYNC_LOKIRULES_LOKI_ADDRESS" ≠ "" then
                os.Getenv "MALSYNC_LOKIRULES_LOKI_ADDRESS" else ""))],
        s⟩ := by
    simp only [resolveLR, hparse, Prog.bind_apply, g1, g2, g3, g4]
    generalize (if "rules.path" ∈ cmd.Visit then a
      else if os.Getenv "MALSYNC_LOKIRULES_RULES_PATH" ≠ "" then
        os.Getenv "MALSYNC_LOKIRULES_RULES_PATH" else "") = rp
    generalize (if "loki.address" ∈ cmd.Visit then b
      else if os.Getenv "MALSYNC_LOKIRULES_LOKI_ADDRESS" ≠ "" then
        os.Getenv "MALSYNC_LOKIRULES_LOKI_ADDRESS" else "") = la
    by_cases hr : rp = ""
    · simp [hr, Fatal, lokiFatalLine]
    · by_cases ha : la = ""
      · simp [hr, ha, Fatal, lokiFatalLine]
      · simp [hr, ha, Fatal, lokiFatalLine]
  have hlogs : ∀ (c : Prop) [Decidable c] (c2 : Prop) [Decidable c2] (l : String),
      ∀ e ∈ (if c then [] else if c2 then [Event.Log l] else []), ∃ l2, e = Event.Log l2 := by
    intro c _ c2 _ l e he
    by_cases h1 : c <;> by_cases h2 : c2 <;> simp [h1, h2] at he
    exact ⟨l, he⟩
  refine ⟨_, _, by rw [g1], by rw [g2], g3 s, hres, ?_⟩
  rw [hres]
  simp only [g1, g2, g4, List.mem_append, List.mem_singleton]
  rintro e (((he | he) | he) | rfl)
  · exact hlogs _ _ _ e he
  · exact hlogs _ _ _ e he
  · exact hlogs _ _ _ e he
  · exact ⟨_, rfl⟩

end main

/-! ## The claims -/

section claims

variable {σ : Type}

/-- C1: in each of the three workflows, for every operating system and start
state, when some validation invocation (`alertmanager verify` or
`rules lint`) of the run failed, `Sync` returns an error and the run
contains no upload invocation (`alertmanager load` or `rules sync`). -/
theorem validation_failure_blocks_upload (os : OS σ) (w : Workflow) (s : σ)
    (e : Event) (he : e ∈ (w.Sync os s).events) (hv : e.isValidation = true)
    (hf : e.failed = true) :
    (w.Sync os s).val ≠ none ∧ ∀ e2 ∈ (w.Sync os s).events, e2.isUpload = false := by
  cases w with
  | amSync c t a i b => exact alertmanager.am_Sync_gated os c t a i b s ⟨e, he, hv, hf⟩
  | mimirSync r a i n b => exact mimirrules.mimir_Sync_gated os r a i n b s ⟨e, he, hv, hf⟩
  | lokiSync r a i b => exact lokirules.loki_Sync_gated os r a i b s ⟨e, he, hv, hf⟩

/-- Witness of C1: linting `a.yaml` fails in a Mimir rules run. -/
theorem validation_failure_blocks_upload_witness :
    Event.Exec "mimirtool" ["rules", "lint", "/tmp/mal-sync-mimirrules-42/a.yaml"]
        "rule group invalid" (some ⟨"exit status 1", false⟩) ∈
      ((Workflow.mimirSync "/rules" "http://mimir:8080" "anonymous" "team-a" "/tmp").Sync
        (memOS 42 noEnv Example.toolLintFails) Example.fs).events ∧
    ((Workflow.mimirSync "/rules" "http://mimir:8080" "anonymous" "team-a" "/tmp").Sync
        (memOS 42 noEnv Example.toolLintFails) Example.fs).val ≠ none ∧
    ∀ e2 ∈ ((Workflow.mimirSync "/rules" "http://mimir:8080" "anonymous" "team-a" "/tmp").Sync
        (memOS 42 noEnv Example.toolLintFails) Example.fs).events, e2.isUpload = false :=
  ⟨by decide, validation_failure_blocks_upload _ _ _
    (Event.Exec "mimirtool" ["rules", "lint", "/tmp/mal-sync-mimirrules-42/a.yaml"]
      "rule group invalid" (some ⟨"exit status 1", false⟩)) (by decide) (by decide) (by decide)⟩

/-- C2: in each of the three workflows, once `EnsureDir` has returned nil for
the temporary directory `<tempBaseDir>/mal-sync-<variant>-<pid>`, the
directory is absent in the state `Sync` returns in, whatever the exit path,
provided no `RemoveAll` of the run failed. Absence is any property that a
successful `os.RemoveAll` establishes for its path. -/
theorem temp_dir_absent_after_sync (os : OS σ) (Absent : String → σ → Prop)
    (hlaw : ∀ p s, (os.RemoveAll p s).1 = none → Absent p (os.RemoveAll p s).2)
    (w : Workflow) (s : σ)
    (hcreated : (common.EnsureDir os (w.syncTempDir os) s).val = none)
    (hremoved : ∀ e ∈ (w.Sync os s).events, e.isRemoveAll = true → e.failed = false) :
    Absent (w.syncTempDir os) (w.Sync os s).st := by
  have key : ∀ (r : error), (Event.Sys (.RemoveAll (w.syncTempDir os)) r).failed = false →
      r = none := by
    intro r hr
    cases r with
    | none => rfl
    | some err => simp [Event.failed] at hr
  cases w with
  | amSync c t a i b =>
    simp only [Workflow.Sync, Workflow.syncTempDir] at hcreated hremoved key ⊢
    rw [alertmanager.am_Sync_apply, hcreated] at hremoved ⊢
    apply hlaw
    apply key
    refine hremoved _ ?_ rfl
    simp [alertmanager.am_cleanup_apply]
  | mimirSync r a i n b =>
    simp only [Workflow.Sync, Workflow.syncTempDir] at hcreated hremoved key ⊢
    rw [mimirrules.mimir_Sync_apply, hcreated] at hremoved ⊢
    apply hlaw
    apply key
    refine hremoved _ ?_ rfl
    simp [mimirrules.mimir_cleanup_apply]
  | lokiSync r a i b =>
    simp only [Workflow.Sync, Workflow.syncTempDir] at hcreated hremoved key ⊢
    rw [lokirules.loki_Sync_apply, hcreated] at hremoved ⊢
    apply hlaw
    apply key
    refine hremoved _ ?_ rfl
    simp [lokirules.loki_cleanup_apply]

/-- Witness of C2: a Mimir rules run whose lint fails still removes its
temporary directory from the in-memory filesystem. -/
theorem temp_dir_absent_after_sync_witness :
    (common.EnsureDir (memOS 42 noEnv Example.toolLintFails)
      ((Workflow.mimirSync "/rules" "http://mimir:8080" "anonymous" "team-a" "/tmp").syncTempDir
        (memOS 42 noEnv Example.toolLintFails)) Example.fs).val = none ∧
    ((Workflow.mimirSync "/rules" "http://mimir:8080" "anonymous" "team-a" "/tmp").Sync
      (memOS 42 noEnv Example.toolLintFails) Example.fs).val ≠ none ∧
    MemFS.Absent "/tmp/mal-sync-mimirrules-42"
      ((Workflow.mimirSync "/rules" "http://mimir:8080" "anonymous" "team-a" "/tmp").Sync
        (memOS 42 noEnv Example.toolLintFails) Example.fs).st :=
  ⟨by decide, by decide,
    temp_dir_absent_after_sync (memOS 42 noEnv Example.toolLintFails) MemFS.Absent
      MemFS.RemoveAll_absent
      (Workflow.mimirSync "/rules" "http://mimir:8080" "anonymous" "team-a" "/tmp") Example.fs
      (by decide) (by decide)⟩

set_option maxRecDepth 100000 in
/-- Counterexample to C3: `/empty` is a readable directory without entries,
yet the Mimir rules run returns an error, because the temporary directory
cannot be created under `/tmp`. -/
theorem empty_dir_sync_fails_without_temp_dir :
    (MemFS.Stat "/empty" Example.fsReadOnlyTmp).1 = .ok ⟨FileMode.ModeDir ||| 0o755⟩ ∧
    (MemFS.ReadDir "/empty" Example.fsReadOnlyTmp).1 = .ok [] ∧
    (mimirrules.Sync (memOS 42 noEnv toolOk) "/empty" "http://mimir:8080" "anonymous" "team-a"
        "/tmp" Example.fsReadOnlyTmp).val =
      some (Errorf ("failed to create temporary sync directory /tmp/mal-sync-mimirrules-42: " ++
        "failed to create directory /tmp/mal-sync-mimirrules-42: " ++
        "mkdir /tmp/mal-sync-mimirrules-42: permission denied")) := by
  decide

/-- C3, amended: for both rules workflows, when the rules path is a readable
directory none of whose entries is a non-directory named `*.yaml` or
`*.yml`, the run invokes no external tool, and `Sync` returns nil provided
`EnsureDir` returned nil for the temporary directory. -/
theorem empty_dir_is_noop (os : OS σ) (w : RulesWorkflow) (rulesPath tempBaseDir : String)
    (s : σ) (fileInfo : FileInfo) (entries : List DirEntry)
    (hstat : (os.Stat rulesPath
      (os.MkdirAll (w.syncTempDir os tempBaseDir) 0o750 s).2).1 = .ok fileInfo)
    (hdir : fileInfo.IsDir = true)
    (hread : (os.ReadDir rulesPath (os.Stat rulesPath
      (os.MkdirAll (w.syncTempDir os tempBaseDir) 0o750 s).2).2).1 = .ok entries)
    (hnone : ∀ entry ∈ entries, isRuleFile entry = false) :
    (∀ e ∈ (w.Sync os rulesPath tempBaseDir s).events, e.isExec = false) ∧
      ((common.EnsureDir os (w.syncTempDir os tempBaseDir) s).val = none →
        (w.Sync os rulesPath tempBaseDir s).val = none) := by
  cases w with
  | mimir a i n =>
    simp only [RulesWorkflow.Sync, RulesWorkflow.syncTempDir] at hstat hread ⊢
    have hloop := mimirrules.mimir_copyLoop_none os rulesPath (mimirrules.syncTempDir os tempBaseDir)
      entries [] (os.ReadDir rulesPath (os.Stat rulesPath
        (os.MkdirAll (mimirrules.syncTempDir os tempBaseDir) 0o750 s).2).2).2 hnone
    obtain ⟨h1, h2⟩ := mimirrules.mimir_syncSteps_dir os rulesPath a i
      (mimirrules.syncTempDir os tempBaseDir) _ fileInfo hstat hdir entries hread []
      (by rw [hloop])
    rw [mimirrules.mimir_Sync_apply]
    cases hmk : (common.EnsureDir os (mimirrules.syncTempDir os tempBaseDir) s).val with
    | some err => simp [Event.isExec]
    | none =>
      simp only [h1, h2, hloop, if_true, true_implies, and_true]
      intro e he
      rw [List.mem_append] at he
      rcases he with he | he
      · revert e
        simp [Event.isExec]
      · exact (mimirrules.mimir_cleanup_quiet _ _ _ e he).1
  | loki a i =>
    simp only [RulesWorkflow.Sync, RulesWorkflow.syncTempDir] at hstat hread ⊢
    have hloop := lokirules.loki_copyLoop_none os rulesPath (lokirules.syncTempDir os tempBaseDir)
      entries [] (os.ReadDir rulesPath (os.Stat rulesPath
        (os.MkdirAll (lokirules.syncTempDir os tempBaseDir) 0o750 s).2).2).2 hnone
    obtain ⟨h1, h2⟩ := lokirules.loki_syncSteps_dir os rulesPath a i
      (lokirules.syncTempDir os tempBaseDir) _ fileInfo hstat hdir entries hread []
      (by rw [hloop])
    rw [lokirules.loki_Sync_apply]
    cases hmk : (common.EnsureDir os (lokirules.syncTempDir os tempBaseDir) s).val with
    | some err => simp [Event.isExec]
    | none =>
      simp only [h1, h2, hloop, if_true, true_implies, and_true]
      intro e he
      rw [List.mem_append] at he
      rcases he with he | he
      · revert e
        simp [Event.isExec]
      · exact (lokirules.loki_cleanup_quiet _ _ _ e he).1

/-- Witness of C3, amended: the Loki rules run on the empty directory
`/empty` with a writable `/tmp`. -/
theorem empty_dir_is_noop_witness :
    (∀ e ∈ ((RulesWorkflow.loki "http://loki:3100" "fake").Sync (memOS 42 noEnv toolOk)
        "/empty" "/tmp" Example.fs).events, e.isExec = false) ∧
      ((common.EnsureDir (memOS 42 noEnv toolOk)
          ((RulesWorkflow.loki "http://loki:3100" "fake").syncTempDir (memOS 42 noEnv toolOk)
            "/tmp") Example.fs).val = none →
        ((RulesWorkflow.loki "http://loki:3100" "fake").Sync (memOS 42 noEnv toolOk)
          "/empty" "/tmp" Example.fs).val = none) :=
  empty_dir_is_noop (memOS 42 noEnv toolOk) (RulesWorkflow.loki "http://loki:3100" "fake")
    "/empty" "/tmp" Example.fs ⟨FileMode.ModeDir ||| 0o755⟩ [] (by decide) (by decide)
    (by decide) (by decide)

/-- C4: for both rules workflows, when the rules path exists, is not a
directory and ends neither in `.yaml` nor in `.yml`, `Sync` returns an
error, the run makes no step of a file copy (open, create, data copy,
chmod), creates no file, and invokes no external tool. -/
theorem non_rule_file_rejected (os : OS σ) (w : RulesWorkflow) (rulesPath tempBaseDir : String)
    (s : σ) (fileInfo : FileInfo)
    (hstat : (os.Stat rulesPath
      (os.MkdirAll (w.syncTempDir os tempBaseDir) 0o750 s).2).1 = .ok fileInfo)
    (hdir : fileInfo.IsDir = false)
    (hyaml : strings.HasSuffix rulesPath ".yaml" = false)
    (hyml : strings.HasSuffix rulesPath ".yml" = false) :
    (w.Sync os rulesPath tempBaseDir s).val ≠ none ∧
      (∀ e ∈ (w.Sync os rulesPath tempBaseDir s).events, e.isCopyStep = false) ∧
      createdFiles (w.Sync os rulesPath tempBaseDir s).events = [] ∧
      ∀ e ∈ (w.Sync os rulesPath tempBaseDir s).events, e.isExec = false := by
  have hsuf : (strings.HasSuffix rulesPath ".yaml" || strings.HasSuffix rulesPath ".yml") =
      false := by simp [hyaml, hyml]
  cases w with
  | mimir a i n =>
    simp only [RulesWorkflow.Sync, RulesWorkflow.syncTempDir] at hstat ⊢
    have hsteps := mimirrules.mimir_syncSteps_badFile os rulesPath a i
      (mimirrules.syncTempDir os tempBaseDir) _ fileInfo hstat hdir hsuf
    rw [mimirrules.mimir_Sync_apply]
    cases hmk : (common.EnsureDir os (mimirrules.syncTempDir os tempBaseDir) s).val with
    | some err => simp [Event.isCopyStep, Event.isExec, createdFiles]
    | none =>
      simp only [hsteps, mimirrules.mimir_cleanup_apply]
      cases hr : (os.RemoveAll (mimirrules.syncTempDir os tempBaseDir)
        (os.Stat rulesPath (os.MkdirAll (mimirrules.syncTempDir os tempBaseDir) 0o750 s).2).2).1 <;>
        simp [Event.isCopyStep, Event.isExec, createdFiles]
  | loki a i =>
    simp only [RulesWorkflow.Sync, RulesWorkflow.syncTempDir] at hstat ⊢
    have hsteps := lokirules.loki_syncSteps_badFile os rulesPath a i
      (lokirules.syncTempDir os tempBaseDir) _ fileInfo hstat hdir hsuf
    rw [lokirules.loki_Sync_apply]
    cases hmk : (common.EnsureDir os (lokirules.syncTempDir os tempBaseDir) s).val with
    | some err => simp [Event.isCopyStep, Event.isExec, createdFiles]
    | none =>
      simp only [hsteps, lokirules.loki_cleanup_apply]
      cases hr : (os.RemoveAll (lokirules.syncTempDir os tempBaseDir)
        (os.Stat rulesPath (os.MkdirAll (lokirules.syncTempDir os tempBaseDir) 0o750 s).2).2).1 <;>
        simp [Event.isCopyStep, Event.isExec, createdFiles]

/-- Witness of C4: the Mimir rules run on the file `/notes.txt`. -/
theorem non_rule_file_rejected_witness :
    ((RulesWorkflow.mimir "http://mimir:8080" "anonymous" "team-a").Sync (memOS 42 noEnv toolOk)
        "/notes.txt" "/tmp" Example.fs).val ≠ none ∧
      (∀ e ∈ ((RulesWorkflow.mimir "http://mimir:8080" "anonymous" "team-a").Sync
        (memOS 42 noEnv toolOk) "/notes.txt" "/tmp" Example.fs).events, e.isCopyStep = false) ∧
      createdFiles ((RulesWorkflow.mimir "http://mimir:8080" "anonymous" "team-a").Sync
        (memOS 42 noEnv toolOk) "/notes.txt" "/tmp" Example.fs).events = [] ∧
      ∀ e ∈ ((RulesWorkflow.mimir "http://mimir:8080" "anonymous" "team-a").Sync
        (memOS 42 noEnv toolOk) "/notes.txt" "/tmp" Example.fs).events, e.isExec = false :=
  non_rule_file_rejected (memOS 42 noEnv toolOk)
    (RulesWorkflow.mimir "http://mimir:8080" "anonymous" "team-a") "/notes.txt" "/tmp"
    Example.fs ⟨0o644⟩ (by decide) (by decide) (by decide) (by decide)

/-- C5: for both rules workflows on a directory input (`MkdirAll` makes the
temporary directory or finds it there, `Stat` reports a directory,
`ReadDir` lists `entries`).
When the copies all succeed, that is, when the filesystem lets every
non-directory entry named `*.yaml` or `*.yml` be copied to
`<tempDir>/<entry name>` from the state in which the copy loop starts and
from every state such copies lead to (an invariant `Inv` that they keep),
then the copy loop ends without an error, the staged file list is exactly
those entries, in listing order, each as `<tempDir>/<entry name>`, the
files the whole run creates are exactly these, and the files it reads
are exactly `<rulesPath>/<entry name>` of those entries, in the same
order: no other entry is copied or reported as an error. Without the
assumption on the filesystem: whenever the copy loop ends without an
error, the staged list and the created files are as above; and an error of
the copy loop, which `Sync` then returns, is always the error that
`CopyFile` returned for such an entry, never for another one. -/
theorem directory_staging_exact (os : OS σ) (w : RulesWorkflow)
    (rulesPath tempBaseDir : String) (s : σ) (fileInfo : FileInfo) (entries : List DirEntry)
    (hmkdir : ∀ err, (os.MkdirAll (w.syncTempDir os tempBaseDir) 0o750 s).1 = some err →
      err.isExist = true)
    (hstat : (os.Stat rulesPath
      (os.MkdirAll (w.syncTempDir os tempBaseDir) 0o750 s).2).1 = .ok fileInfo)
    (hdir : fileInfo.IsDir = true)
    (hread : (os.ReadDir rulesPath (os.Stat rulesPath
      (os.MkdirAll (w.syncTempDir os tempBaseDir) 0o750 s).2).2).1 = .ok entries) :
    (∀ Inv : σ → Prop,
      Inv (os.ReadDir rulesPath (os.Stat rulesPath
        (os.MkdirAll (w.syncTempDir os tempBaseDir) 0o750 s).2).2).2 →
      (∀ entry ∈ entries, isRuleFile entry = true → ∀ s1, Inv s1 →
        ∃ s2, CopySucceeds os (filepath.Join [rulesPath, entry.Name])
          (filepath.Join [w.syncTempDir os tempBaseDir, entry.Name]) s1 s2 ∧ Inv s2) →
      (w.copyLoop os rulesPath tempBaseDir entries
        (os.ReadDir rulesPath (os.Stat rulesPath
          (os.MkdirAll (w.syncTempDir os tempBaseDir) 0o750 s).2).2).2).val =
        .ok (stagedPaths (w.syncTempDir os tempBaseDir) entries) ∧
      createdFiles (w.Sync os rulesPath tempBaseDir s).events =
        stagedPaths (w.syncTempDir os tempBaseDir) entries ∧
      openedFiles (w.Sync os rulesPath tempBaseDir s).events =
        sourcePaths rulesPath entries) ∧
    (∀ files, (w.copyLoop os rulesPath tempBaseDir entries
        (os.ReadDir rulesPath (os.Stat rulesPath
          (os.MkdirAll (w.syncTempDir os tempBaseDir) 0o750 s).2).2).2).val = .ok files →
      files = stagedPaths (w.syncTempDir os tempBaseDir) entries ∧
        createdFiles (w.Sync os rulesPath tempBaseDir s).events =
          stagedPaths (w.syncTempDir os tempBaseDir) entries ∧
        openedFiles (w.Sync os rulesPath tempBaseDir s).events =
          sourcePaths rulesPath entries) ∧
    (∀ err, (w.copyLoop os rulesPath tempBaseDir entries
        (os.ReadDir rulesPath (os.Stat rulesPath
          (os.MkdirAll (w.syncTempDir os tempBaseDir) 0o750 s).2).2).2).val = .error err →
      (w.Sync os rulesPath tempBaseDir s).val = some err ∧
        ∃ entry ∈ entries, isRuleFile entry = true ∧ ∃ (s1 : σ) (cause : GoError),
          (common.CopyFile os (filepath.Join [rulesPath, entry.Name])
            (filepath.Join [w.syncTempDir os tempBaseDir, entry.Name]) s1).val = some cause ∧
          err = Errorf ("failed to copy rule file " ++
            filepath.Join [rulesPath, entry.Name] ++ " to " ++
            filepath.Join [w.syncTempDir os tempBaseDir, entry.Name] ++ ": " ++ cause.msg)) := by
  have hmk : (common.EnsureDir os (w.syncTempDir os tempBaseDir) s).val = none :=
    EnsureDir_of_MkdirAll os _ s hmkdir
  cases w with
  | mimir a i n =>
    simp only [RulesWorkflow.Sync, RulesWorkflow.syncTempDir, RulesWorkflow.copyLoop]
      at hmk hstat hread ⊢
    have hok : ∀ files, (forRange (mimirrules.copyEntry os rulesPath
          (mimirrules.syncTempDir os tempBaseDir)) entries []
          (os.ReadDir rulesPath (os.Stat rulesPath
            (os.MkdirAll (mimirrules.syncTempDir os tempBaseDir) 0o750 s).2).2).2).val =
          .ok files →
        files = stagedPaths (mimirrules.syncTempDir os tempBaseDir) entries ∧
          createdFiles (mimirrules.Sync os rulesPath a i n tempBaseDir s).events =
            stagedPaths (mimirrules.syncTempDir os tempBaseDir) entries ∧
          openedFiles (mimirrules.Sync os rulesPath a i n tempBaseDir s).events =
            sourcePaths rulesPath entries := by
      intro files hloop
      obtain ⟨h1, h2⟩ := mimirrules.mimir_copyLoop_ok_staged os rulesPath _ entries [] _ files hloop
      have h3 := mimirrules.mimir_copyLoop_ok_opened os rulesPath _ entries [] _ files hloop
      refine ⟨by simpa using h1, ?_, ?_⟩
      · rw [mimirrules.mimir_Sync_created os rulesPath a i n tempBaseDir s hmk,
          (mimirrules.mimir_syncSteps_dir os rulesPath a i _ _ fileInfo hstat hdir entries hread
            files hloop).2]
        simp only [createdFiles_append, h2]
        by_cases hf : files = []
        · simp [hf, createdFiles]
        · simp only [hf, if_false,
            createdFiles_eq_nil_of_noSys (mimirrules.mimir_lintAndSync_noSys os a i _ files _)]
          simp [createdFiles]
      · rw [mimirrules.mimir_Sync_opened os rulesPath a i n tempBaseDir s hmk,
          (mimirrules.mimir_syncSteps_dir os rulesPath a i _ _ fileInfo hstat hdir entries hread
            files hloop).2]
        simp only [openedFiles_append, h3]
        by_cases hf : files = []
        · simp [hf, openedFiles]
        · simp only [hf, if_false,
            openedFiles_eq_nil_of_noSys (mimirrules.mimir_lintAndSync_noSys os a i _ files _)]
          simp [openedFiles]
    refine ⟨?_, hok, ?_⟩
    · intro Inv hinv hstep
      have hL := (mimirrules.mimir_copyLoop_succeeds os rulesPath _ Inv entries hstep [] _ hinv).1
      simp only [List.nil_append] at hL
      exact ⟨hL, (hok _ hL).2⟩
    · intro err hloop
      refine ⟨?_, mimirrules.mimir_copyLoop_error_cause os rulesPath _ entries [] _ err hloop⟩
      rw [mimirrules.mimir_Sync_apply, hmk]
      simp [mimirrules.syncSteps, hstat, hdir, hread, hloop]
  | loki a i =>
    simp only [RulesWorkflow.Sync, RulesWorkflow.syncTempDir, RulesWorkflow.copyLoop]
      at hmk hstat hread ⊢
    have hok : ∀ files, (forRange (lokirules.copyEntry os rulesPath
          (lokirules.syncTempDir os tempBaseDir)) entries []
          (os.ReadDir rulesPath (os.Stat rulesPath
            (os.MkdirAll (lokirules.syncTempDir os tempBaseDir) 0o750 s).2).2).2).val =
          .ok files →
        files = stagedPaths (lokirules.syncTempDir os tempBaseDir) entries ∧
          createdFiles (lokirules.Sync os rulesPath a i tempBaseDir s).events =
            stagedPaths (lokirules.syncTempDir os tempBaseDir) entries ∧
          openedFiles (lokirules.Sync os rulesPath a i tempBaseDir s).events =
            sourcePaths rulesPath entries := by
      intro files hloop
      obtain ⟨h1, h2⟩ := lokirules.loki_copyLoop_ok_staged os rulesPath _ entries [] _ files hloop
      have h3 := lokirules.loki_copyLoop_ok_opened os rulesPath _ entries [] _ files hloop
      refine ⟨by simpa using h1, ?_, ?_⟩
      · rw [lokirules.loki_Sync_created os rulesPath a i tempBaseDir s hmk,
          (lokirules.loki_syncSteps_dir os rulesPath a i _ _ fileInfo hstat hdir entries hread
            files hloop).2]
        simp only [createdFiles_append, h2]
        by_cases hf : files = []
        · simp [hf, createdFiles]
        · simp only [hf, if_false,
            createdFiles_eq_nil_of_noSys (lokirules.loki_lintAndSync_noSys os a i _ files _)]
          simp [createdFiles]
      · rw [lokirules.loki_Sync_opened os rulesPath a i tempBaseDir s hmk,
          (lokirules.loki_syncSteps_dir os rulesPath a i _ _ fileInfo hstat hdir entries hread
            files hloop).2]
        simp only [openedFiles_append, h3]
        by_cases hf : files = []
        · simp [hf, openedFiles]
        · simp only [hf, if_false,
            openedFiles_eq_nil_of_noSys (lokirules.loki_lintAndSync_noSys os a i _ files _)]
          simp [openedFiles]
    refine ⟨?_, hok, ?_⟩
    · intro Inv hinv hstep
      have hL := (lokirules.loki_copyLoop_succeeds os rulesPath _ Inv entries hstep [] _ hinv).1
      simp only [List.nil_append] at hL
      exact ⟨hL, (hok _ hL).2⟩
    · intro err hloop
      refine ⟨?_, lokirules.loki_copyLoop_error_cause os rulesPath _ entries [] _ err hloop⟩
      rw [lokirules.loki_Sync_apply, hmk]
      simp [lokirules.syncSteps, hstat, hdir, hread, hloop]

set_option maxRecDepth 100000 in
/-- Witness of C5: the directory `/rules` lists `a.yaml`, `b.yml`, `c.txt`
and the subdirectory `sub`, and the in-memory filesystem lets `a.yaml` and
`b.yml` be copied; the Mimir rules run and the Loki rules run each stage,
create and read exactly the copies of `a.yaml` and `b.yml`. -/
theorem directory_staging_exact_witness :
    (MemFS.ReadDir "/rules" Example.fs).1 =
        .ok [⟨"a.yaml", false⟩, ⟨"b.yml", false⟩, ⟨"c.txt", false⟩, ⟨"sub", true⟩] ∧
      createdFiles ((RulesWorkflow.mimir "http://mimir:8080" "anonymous" "team-a").Sync
          (memOS 42 noEnv toolOk) "/rules" "/tmp" Example.fs).events =
        ["/tmp/mal-sync-mimirrules-42/a.yaml", "/tmp/mal-sync-mimirrules-42/b.yml"] ∧
      createdFiles ((RulesWorkflow.loki "http://loki:3100" "fake").Sync
          (memOS 42 noEnv toolOk) "/rules" "/tmp" Example.fs).events =
        ["/tmp/mal-sync-lokirules-42/a.yaml", "/tmp/mal-sync-lokirules-42/b.yml"] ∧
      (((RulesWorkflow.mimir "http://mimir:8080" "anonymous" "team-a").copyLoop
          (memOS 42 noEnv toolOk) "/rules" "/tmp"
          [⟨"a.yaml", false⟩, ⟨"b.yml", false⟩, ⟨"c.txt", false⟩, ⟨"sub", true⟩]
          ((memOS 42 noEnv toolOk).ReadDir "/rules" ((memOS 42 noEnv toolOk).Stat "/rules"
            ((memOS 42 noEnv toolOk).MkdirAll
              ((RulesWorkflow.mimir "http://mimir:8080" "anonymous" "team-a").syncTempDir
                (memOS 42 noEnv toolOk) "/tmp") 0o750 Example.fs).2).2).2).val =
          .ok (stagedPaths ((RulesWorkflow.mimir "http://mimir:8080" "anonymous"
            "team-a").syncTempDir (memOS 42 noEnv toolOk) "/tmp")
            [⟨"a.yaml", false⟩, ⟨"b.yml", false⟩, ⟨"c.txt", false⟩, ⟨"sub", true⟩]) ∧
        createdFiles ((RulesWorkflow.mimir "http://mimir:8080" "anonymous" "team-a").Sync
            (memOS 42 noEnv toolOk) "/rules" "/tmp" Example.fs).events =
          stagedPaths ((RulesWorkflow.mimir "http://mimir:8080" "anonymous"
            "team-a").syncTempDir (memOS 42 noEnv toolOk) "/tmp")
            [⟨"a.yaml", false⟩, ⟨"b.yml", false⟩, ⟨"c.txt", false⟩, ⟨"sub", true⟩] ∧
        openedFiles ((RulesWorkflow.mimir "http://mimir:8080" "anonymous" "team-a").Sync
            (memOS 42 noEnv toolOk) "/rules" "/tmp" Example.fs).events =
          sourcePaths "/rules"
            [⟨"a.yaml", false⟩, ⟨"b.yml", false⟩, ⟨"c.txt", false⟩, ⟨"sub", true⟩]) ∧
      (((RulesWorkflow.loki "http://loki:3100" "fake").copyLoop
          (memOS 42 noEnv toolOk) "/rules" "/tmp"
          [⟨"a.yaml", false⟩, ⟨"b.yml", false⟩, ⟨"c.txt", false⟩, ⟨"sub", true⟩]
          ((memOS 42 noEnv toolOk).ReadDir "/rules" ((memOS 42 noEnv toolOk).Stat "/rules"
            ((memOS 42 noEnv toolOk).MkdirAll
              ((RulesWorkflow.loki "http://loki:3100" "fake").syncTempDir
                (memOS 42 noEnv toolOk) "/tmp") 0o750 Example.fs).2).2).2).val =
          .ok (stagedPaths ((RulesWorkflow.loki "http://loki:3100" "fake").syncTempDir
            (memOS 42 noEnv toolOk) "/tmp")
            [⟨"a.yaml", false⟩, ⟨"b.yml", false⟩, ⟨"c.txt", false⟩, ⟨"sub", true⟩]) ∧
        createdFiles ((RulesWorkflow.loki "http://loki:3100" "fake").Sync
            (memOS 42 noEnv toolOk) "/rules" "/tmp" Example.fs).events =
          stagedPaths ((RulesWorkflow.loki "http://loki:3100" "fake").syncTempDir
            (memOS 42 noEnv toolOk) "/tmp")
            [⟨"a.yaml", false⟩, ⟨"b.yml", false⟩, ⟨"c.txt", false⟩, ⟨"sub", true⟩] ∧
        openedFiles ((RulesWorkflow.loki "http://loki:3100" "fake").Sync
            (memOS 42 noEnv toolOk) "/rules" "/tmp" Example.fs).events =
          sourcePaths "/rules"
            [⟨"a.yaml", false⟩, ⟨"b.yml", false⟩, ⟨"c.txt", false⟩, ⟨"sub", true⟩]) :=
  ⟨by decide, by decide, by decide,
    (directory_staging_exact (memOS 42 noEnv toolOk)
      (RulesWorkflow.mimir "http://mimir:8080" "anonymous" "team-a") "/rules" "/tmp" Example.fs
      ⟨FileMode.ModeDir ||| 0o755⟩
      [⟨"a.yaml", false⟩, ⟨"b.yml", false⟩, ⟨"c.txt", false⟩, ⟨"sub", true⟩]
      (MkdirAll_none_only _ _ _ (by decide)) (by decide) (by decide) (by decide)).1
      (fun fs => MemFS.canCopyAll (copyPairs "/rules"
        ((RulesWorkflow.mimir "http://mimir:8080" "anonymous" "team-a").syncTempDir
          (memOS 42 noEnv toolOk) "/tmp")
        [⟨"a.yaml", false⟩, ⟨"b.yml", false⟩, ⟨"c.txt", false⟩, ⟨"sub", true⟩]) fs = true)
      (by decide)
      (MemFS.staging_step 42 noEnv toolOk "/rules" _ _),
    (directory_staging_exact (memOS 42 noEnv toolOk)
      (RulesWorkflow.loki "http://loki:3100" "fake") "/rules" "/tmp" Example.fs
      ⟨FileMode.ModeDir ||| 0o755⟩
      [⟨"a.yaml", false⟩, ⟨"b.yml", false⟩, ⟨"c.txt", false⟩, ⟨"sub", true⟩]
      (MkdirAll_none_only _ _ _ (by decide)) (by decide) (by decide) (by decide)).1
      (fun fs => MemFS.canCopyAll (copyPairs "/rules"
        ((RulesWorkflow.loki "http://loki:3100" "fake").syncTempDir
          (memOS 42 noEnv toolOk) "/tmp")
        [⟨"a.yaml", false⟩, ⟨"b.yml", false⟩, ⟨"c.txt", false⟩, ⟨"sub", true⟩]) fs = true)
      (by decide)
      (MemFS.staging_step 42 noEnv toolOk "/rules" _ _)⟩

/-- C6: each of the three resolvers of `main` returns, for a defined flag,
the flag's value when the flag was set on the command line, else the value
of the environment variable when that is not empty, else the flag's
default: the precedence of `resolveSpec`. The three resolvers are the same
function of the flag set, the set of flags that were set, the flag name and
the variable name. -/
theorem resolvers_follow_precedence (os : OS σ) (cmd : flag.FlagSet) (flagsSet : List String)
    (flagName envVarName : String) (fl : flag.Flag) (hfl : cmd.Lookup flagName = some fl)
    (s : σ) :
    (main.getAMValue os cmd flagsSet flagName envVarName s).val =
        some (resolveSpec fl.Value (decide (flagName ∈ flagsSet)) (os.Getenv envVarName)
          fl.DefValue) ∧
      main.getMRValue os cmd flagsSet flagName envVarName s =
        main.getAMValue os cmd flagsSet flagName envVarName s ∧
      main.getLRValue os cmd flagsSet flagName envVarName s =
        main.getAMValue os cmd flagsSet flagName envVarName s := by
  refine ⟨?_, rfl, rfl⟩
  unfold main.getAMValue resolveSpec
  rw [hfl]
  by_cases hset : flagName ∈ flagsSet
  · simp [hset]
  · by_cases henv : os.Getenv envVarName = "" <;> simp [hset, henv]

/-- Witness of C6: `mimir.id` is not set on the command line and the
environment names a tenant, so the environment value wins over the default
`anonymous`. -/
theorem resolvers_follow_precedence_witness :
    (main.getAMValue
        (memOS 42 (fun n => if n = "MALSYNC_ALERTMANAGER_MIMIR_ID" then "tenant-7" else "") toolOk)
        main.alertmanagerCmd [] "mimir.id" "MALSYNC_ALERTMANAGER_MIMIR_ID" Example.fs).val =
      some "tenant-7" :=
  (resolvers_follow_precedence
    (memOS 42 (fun n => if n = "MALSYNC_ALERTMANAGER_MIMIR_ID" then "tenant-7" else "") toolOk)
    main.alertmanagerCmd [] "mimir.id" "MALSYNC_ALERTMANAGER_MIMIR_ID"
    ⟨"mimir.id", "anonymous", "anonymous"⟩ (by decide) Example.fs).1.trans (by decide)

set_option maxRecDepth 100000 in
/-- Counterexample to C7: with `-loki.org-id=` on the command line and an
empty environment the flag counts as set, the resolved org id is the empty
string and not `fake`, and `main` ends with the fatal error of the org-id
check (status 1) without calling `lokirules.Sync`. -/
theorem empty_org_id_flag_is_fatal :
    (main.lokiRulesCmd.Parse
        ["-rules.path=/rules", "-loki.address=http://loki:3100", "-loki.org-id="]).map
      (fun cmd => (decide ("loki.org-id" ∈ cmd.Visit),
        (main.getLRValue (memOS 42 noEnv toolOk) cmd cmd.Visit "loki.org-id"
          "MALSYNC_LOKIRULES_LOKI_ORG_ID" Example.fs).val)) = .ok (true, some "") ∧
    (main.resolveLR (memOS 42 noEnv toolOk)
        ["-rules.path=/rules", "-loki.address=http://loki:3100", "-loki.org-id="]
        Example.fs).val = .exit 1 ∧
    (main.main (memOS 42 noEnv toolOk)
        ["mal-sync", "loki-rules", "-rules.path=/rules", "-loki.address=http://loki:3100",
          "-loki.org-id="] Example.fs).val = 1 ∧
    (main.main (memOS 42 noEnv toolOk)
        ["mal-sync", "loki-rules", "-rules.path=/rules", "-loki.address=http://loki:3100",
          "-loki.org-id="] Example.fs).events =
      [Event.Log ("Error: -loki.org-id flag or MALSYNC_LOKIRULES_LOKI_ORG_ID env var is " ++
        "required for loki-rules sync")] := by
  decide

/-- C7, amended: in loki-rules mode, on every command line made of flags of
the `loki-rules` flag set, each in any of the four spellings `-name=value`,
`--name=value`, `-name value`, `--name value`, in which the last
`loki.org-id` has the empty value: parsing succeeds; the flag counts as set
(it is among the names `Visit` enumerates); the org id resolves to the empty
string with no look at the environment and no log line, on every operating
system and environment; and the `loki-rules` case, and so `main`, ends in
`log.Fatal` with exit status 1, the last line logged being the line of the
first check that fails (`lokiFatalLine`: the line of `loki.org-id` when
rules path and address are not empty), the state unchanged and every event a
log line, so `lokirules.Sync` is not called. -/
theorem explicit_empty_org_id_never_syncs (os : OS σ) (s : σ) (prog : String)
    (pre post : List main.FlagArg) (x : main.FlagArg)
    (hx : x.name = "loki.org-id") (hv : x.value = "")
    (hpre : ∀ a ∈ pre, a.name ∈ main.lokiFlagNames)
    (hpost : ∀ a ∈ post, a.name ∈ main.lokiFlagNames ∧ a.name ≠ "loki.org-id") :
    ∃ cmd rulesPath lokiAddress,
      main.lokiRulesCmd.Parse (main.commandLine (pre ++ x :: post)) = .ok cmd ∧
      "loki.org-id" ∈ cmd.Visit ∧
      (main.getLRValue os cmd cmd.Visit "rules.path" "MALSYNC_LOKIRULES_RULES_PATH" s).val =
        some rulesPath ∧
      (main.getLRValue os cmd cmd.Visit "loki.address" "MALSYNC_LOKIRULES_LOKI_ADDRESS" s).val =
        some lokiAddress ∧
      main.getLRValue os cmd cmd.Visit "loki.org-id" "MALSYNC_LOKIRULES_LOKI_ORG_ID" s =
        ⟨some "", [], s⟩ ∧
      main.resolveLR os (main.commandLine (pre ++ x :: post)) s =
        ⟨.exit 1,
          (main.getLRValue os cmd cmd.Visit "rules.path" "MALSYNC_LOKIRULES_RULES_PATH"
              s).events ++
            (main.getLRValue os cmd cmd.Visit "loki.address" "MALSYNC_LOKIRULES_LOKI_ADDRESS"
              s).events ++
            (main.getLRValue os cmd cmd.Visit "temp.dir" "MALSYNC_LOKIRULES_TEMP_DIR" s).events ++
            [Event.Log (main.lokiFatalLine rulesPath lokiAddress)],
          s⟩ ∧
      (rulesPath ≠ "" → lokiAddress ≠ "" →
        main.lokiFatalLine rulesPath lokiAddress =
          "Error: -loki.org-id flag or MALSYNC_LOKIRULES_LOKI_ORG_ID env var is " ++
            "required for loki-rules sync") ∧
      main.main os (prog :: "loki-rules" :: main.commandLine (pre ++ x :: post)) s =
        ⟨1, (main.resolveLR os (main.commandLine (pre ++ x :: post)) s).events, s⟩ ∧
      ∀ e ∈ (main.main os (prog :: "loki-rules" :: main.commandLine (pre ++ x :: post))
        s).events, ∃ line, e = Event.Log line := by
  obtain ⟨hparse, horg⟩ := flag.Parse_org_empty pre post x hx hv hpre hpost
  obtain ⟨rulesPath, lokiAddress, h1, h2, h3, hres, hlog⟩ :=
    main.resolveLR_org_empty os _ _ hparse horg s
  have hmain : main.main os (prog :: "loki-rules" :: main.commandLine (pre ++ x :: post)) s =
      ⟨1, (main.resolveLR os (main.commandLine (pre ++ x :: post)) s).events, s⟩ := by
    have hne1 : ¬ ("loki-rules" = "alertmanager") := by decide
    have hne2 : ¬ ("loki-rules" = "mimir-rules") := by decide
    simp only [main.main, hne1, hne2, if_false, if_true, Prog.bind_apply]
    rw [hres]
    simp [Prog.pure_apply]
  refine ⟨_, rulesPath, lokiAddress, hparse, horg.1, h1, h2, h3, hres, ?_, hmain, ?_⟩
  · intro hr ha
    simp [main.lokiFatalLine, hr, ha]
  · rw [hmain]
    exact hlog

set_option maxRecDepth 100000 in
/-- Witness of C7, amended: the command line
`-rules.path=/rules --loki.address http://loki:3100 -loki.org-id "" -temp.dir=/work`
with `MALSYNC_LOKIRULES_LOKI_ORG_ID=tenant-1` in the environment: the
variable is not used, and `main` exits with status 1 after the fatal line
of the org-id check. -/
theorem explicit_empty_org_id_never_syncs_witness :
    main.commandLine ([⟨"rules.path", "/rules", false, false⟩,
        ⟨"loki.address", "http://loki:3100", true, true⟩] ++
        ⟨"loki.org-id", "", false, true⟩ :: [⟨"temp.dir", "/work", false, false⟩]) =
      ["-rules.path=/rules", "--loki.address", "http://loki:3100", "-loki.org-id", "",
        "-temp.dir=/work"] ∧
    (main.main
        (memOS 42 (fun n => if n = "MALSYNC_LOKIRULES_LOKI_ORG_ID" then "tenant-1" else "") toolOk)
        ["mal-sync", "loki-rules", "-rules.path=/rules", "--loki.address", "http://loki:3100",
          "-loki.org-id", "", "-temp.dir=/work"] Example.fs).val = 1 ∧
    (main.main
        (memOS 42 (fun n => if n = "MALSYNC_LOKIRULES_LOKI_ORG_ID" then "tenant-1" else "") toolOk)
        ["mal-sync", "loki-rules", "-rules.path=/rules", "--loki.address", "http://loki:3100",
          "-loki.org-id", "", "-temp.dir=/work"] Example.fs).events =
      [Event.Log ("Error: -loki.org-id flag or MALSYNC_LOKIRULES_LOKI_ORG_ID env var is " ++
        "required for loki-rules sync")] ∧
    ∀ e ∈ (main.main
        (memOS 42 (fun n => if n = "MALSYNC_LOKIRULES_LOKI_ORG_ID" then "tenant-1" else "") toolOk)
        ("mal-sync" :: "loki-rules" ::
          main.commandLine ([⟨"rules.path", "/rules", false, false⟩,
            ⟨"loki.address", "http://loki:3100", true, true⟩] ++
            ⟨"loki.org-id", "", false, true⟩ :: [⟨"temp.dir", "/work", false, false⟩]))
        Example.fs).events, ∃ line, e = Event.Log line :=
  ⟨by decide, by decide, by decide,
    match (explicit_empty_org_id_never_syncs
      (memOS 42 (fun n => if n = "MALSYNC_LOKIRULES_LOKI_ORG_ID" then "tenant-1" else "") toolOk)
      Example.fs "mal-sync"
      [⟨"rules.path", "/rules", false, false⟩, ⟨"loki.address", "http://loki:3100", true, true⟩]
      [⟨"temp.dir", "/work", false, false⟩] ⟨"loki.org-id", "", false, true⟩
      rfl rfl (by decide) (by decide)) with
    | ⟨_, _, _, h⟩ => h.2.2.2.2.2.2.2.2⟩

set_option maxRecDepth 100000 in
/-- Counterexample to C8: the templates directory `/missing` cannot be read,
yet `alertmanager.Sync` returns nil and invokes `alertmanager load` after
the failed `ReadDir`: among the failed filesystem calls and the
invocations of the run, the failed read stands between verify and load.
Also, a `MkdirAll` that fails with `file exists` does not keep
`mimirrules.Sync` from returning nil on an empty rules directory. -/
theorem unreadable_templates_dir_is_not_fatal :
    (alertmanager.Sync (memOS 42 noEnv toolOk) "/am.yml" "/missing" "http://mimir:8080"
        "anonymous" "/tmp" Example.fs).val = none ∧
    (alertmanager.Sync (memOS 42 noEnv toolOk) "/am.yml" "/missing" "http://mimir:8080"
        "anonymous" "/tmp" Example.fs).events.filter (fun e => e.fsFailure || e.isExec) =
      [Event.Exec "mimirtool"
          ["alertmanager", "verify", "/tmp/mal-sync-alertmanager-42/alertmanager-config.yml"]
          "" none,
        Event.Sys (.ReadDir "/missing")
          (some ⟨"open /missing: no such file or directory", false⟩),
        Event.Exec "mimirtool"
          ["alertmanager", "load", "/tmp/mal-sync-alertmanager-42/alertmanager-config.yml",
            "--address=http://mimir:8080", "--id=anonymous"] "" none] ∧
    ¬ FailStop Event.fsFailure
      (alertmanager.Sync (memOS 42 noEnv toolOk) "/am.yml" "/missing" "http://mimir:8080"
        "anonymous" "/tmp" Example.fs).val
      (alertmanager.Sync (memOS 42 noEnv toolOk) "/am.yml" "/missing" "http://mimir:8080"
        "anonymous" "/tmp" Example.fs).events ∧
    (Event.Sys (.MkdirAll "/tmp/mal-sync-mimirrules-42" 0o750)
        (some ⟨"mkdir /tmp/mal-sync-mimirrules-42: file exists", true⟩) ∈
      (mimirrules.Sync Example.osMkdirExists "/empty" "http://mimir:8080" "anonymous" "team-a"
        "/tmp" Example.fs).events ∧
      (mimirrules.Sync Example.osMkdirExists "/empty" "http://mimir:8080" "anonymous" "team-a"
        "/tmp" Example.fs).val = none) := by
  refine ⟨by decide, by decide, ?_, by decide⟩
  intro h
  exact (h
    ((alertmanager.Sync (memOS 42 noEnv toolOk) "/am.yml" "/missing" "http://mimir:8080"
      "anonymous" "/tmp" Example.fs).events.take 20)
    (Event.Sys (.ReadDir "/missing") (some ⟨"open /missing: no such file or directory", false⟩))
    ((alertmanager.Sync (memOS 42 noEnv toolOk) "/am.yml" "/missing" "http://mimir:8080"
      "anonymous" "/tmp" Example.fs).events.drop 21) (by decide) (by decide)).1 (by decide)

/-- C8, amended: in the two rules workflows every failed stat, directory
read, step of a copy, and every failed mkdir whose error `os.IsExist` does
not recognise, is fatal: `Sync` returns an error and invokes no external
tool after it. In `alertmanager.Sync` the same holds except for a failed
read of the templates directory, after which the run goes on. -/
theorem fatal_filesystem_failures_stop_the_run (os : OS σ) (w : Workflow) (s : σ)
    (pre : List Event) (e : Event) (post : List Event)
    (hev : (w.Sync os s).events = pre ++ e :: post) (hfatal : w.fatal e = true) :
    (w.Sync os s).val ≠ none ∧ ∀ e2 ∈ post, e2.isExec = false := by
  cases w with
  | amSync c t a i b => exact alertmanager.am_Sync_failStop os c t a i b s pre e post hev hfatal
  | mimirSync r a i n b => exact mimirrules.mimir_Sync_failStop os r a i n b s pre e post hev hfatal
  | lokiSync r a i b => exact lokirules.loki_Sync_failStop os r a i b s pre e post hev hfatal

set_option maxRecDepth 100000 in
/-- Witness of C8, amended: the rules path `/nope` does not exist, so the
stat of the Mimir rules run fails. -/
theorem fatal_filesystem_failures_stop_the_run_witness :
    ((Workflow.mimirSync "/nope" "http://mimir:8080" "anonymous" "team-a" "/tmp").Sync
        (memOS 42 noEnv toolOk) Example.fs).events.get? 4 =
      some (Event.Sys (.Stat "/nope") (some ⟨"stat /nope: no such file or directory", false⟩)) ∧
    ((Workflow.mimirSync "/nope" "http://mimir:8080" "anonymous" "team-a" "/tmp").Sync
        (memOS 42 noEnv toolOk) Example.fs).val ≠ none ∧
    ∀ e2 ∈ ((Workflow.mimirSync "/nope" "http://mimir:8080" "anonymous" "team-a" "/tmp").Sync
        (memOS 42 noEnv toolOk) Example.fs).events.drop 5, e2.isExec = false :=
  ⟨by decide, fatal_filesystem_failures_stop_the_run (memOS 42 noEnv toolOk)
    (Workflow.mimirSync "/nope" "http://mimir:8080" "anonymous" "team-a" "/tmp") Example.fs
    (((Workflow.mimirSync "/nope" "http://mimir:8080" "anonymous" "team-a" "/tmp").Sync
      (memOS 42 noEnv toolOk) Example.fs).events.take 4)
    (Event.Sys (.Stat "/nope") (some ⟨"stat /nope: no such file or directory", false⟩))
    (((Workflow.mimirSync "/nope" "http://mimir:8080" "anonymous" "team-a" "/tmp").Sync
      (memOS 42 noEnv toolOk) Example.fs).events.drop 5) (by decide) (by decide)⟩

set_option maxRecDepth 100000 in
/-- Counterexample to C9: linting `a.yaml` fails with the output
`rule group invalid`; the error `mimirrules.Sync` returns names the file
and the command but does not contain that output. -/
theorem lint_output_not_in_returned_error :
    Event.Exec "mimirtool" ["rules", "lint", "/tmp/mal-sync-mimirrules-42/a.yaml"]
        "rule group invalid" (some ⟨"exit status 1", false⟩) ∈
      (mimirrules.Sync (memOS 42 noEnv Example.toolLintFails) "/rules" "http://mimir:8080"
        "anonymous" "team-a" "/tmp" Example.fs).events ∧
    (mimirrules.Sync (memOS 42 noEnv Example.toolLintFails) "/rules" "http://mimir:8080"
        "anonymous" "team-a" "/tmp" Example.fs).val =
      some (Errorf ("linting failed for rule file /tmp/mal-sync-mimirrules-42/a.yaml: " ++
        "command mimirtool rules lint /tmp/mal-sync-mimirrules-42/a.yaml failed: " ++
        "exit status 1")) ∧
    ¬ "rule group invalid".data <:+:
      ("linting failed for rule file /tmp/mal-sync-mimirrules-42/a.yaml: " ++
        "command mimirtool rules lint /tmp/mal-sync-mimirrules-42/a.yaml failed: " ++
        "exit status 1").data := by
  decide

/-- C9, amended: in each of the three workflows, when an external
invocation of the run fails, `Sync` returns an error; for verify, load and
sync the message of that error contains the captured output; for lint the
message is `linting failed for rule file <file>: ` followed by the error of
`ExecuteCommand`, and the captured output is written to the log instead. -/
theorem failed_invocation_output_reported (os : OS σ) (w : Workflow) (s : σ)
    (name : String) (args : List String) (output : String) (err : GoError)
    (he : Event.Exec name args output (some err) ∈ (w.Sync os s).events) :
    ∃ e2, (w.Sync os s).val = some e2 ∧
      if (Event.Exec name args output (some err)).isLint = true then
        e2.msg = lintFailureMsg name args err ∧
          Event.Log ("Linting failed for " ++ args.getD 2 "" ++ ":\n" ++ output) ∈
            (w.Sync os s).events
      else output.data <:+: e2.msg.data := by
  cases w with
  | amSync c t a i b => exact alertmanager.am_Sync_reported os c t a i b s name args output err he
  | mimirSync r a i n b =>
    exact mimirrules.mimir_Sync_reported os r a i n b s name args output err he
  | lokiSync r a i b => exact lokirules.loki_Sync_reported os r a i b s name args output err he

set_option maxRecDepth 100000 in
/-- Witness of C9, amended: the load invocation of an Alertmanager run fails
with the output `connection refused`, which the returned error ends with. -/
theorem failed_invocation_output_reported_witness :
    Event.Exec "mimirtool"
        ["alertmanager", "load", "/tmp/mal-sync-alertmanager-42/alertmanager-config.yml",
          "--address=http://mimir:8080", "--id=anonymous"]
        "connection refused" (some ⟨"exit status 1", false⟩) ∈
      ((Workflow.amSync "/am.yml" "" "http://mimir:8080" "anonymous" "/tmp").Sync
        (memOS 42 noEnv Example.toolUploadFails) Example.fs).events ∧
    ∃ e2, ((Workflow.amSync "/am.yml" "" "http://mimir:8080" "anonymous" "/tmp").Sync
        (memOS 42 noEnv Example.toolUploadFails) Example.fs).val = some e2 ∧
      "connection refused".data <:+: e2.msg.data :=
  ⟨by decide,
    (failed_invocation_output_reported (memOS 42 noEnv Example.toolUploadFails)
      (Workflow.amSync "/am.yml" "" "http://mimir:8080" "anonymous" "/tmp") Example.fs
      "mimirtool"
      ["alertmanager", "load", "/tmp/mal-sync-alertmanager-42/alertmanager-config.yml",
        "--address=http://mimir:8080", "--id=anonymous"]
      "connection refused" ⟨"exit status 1", false⟩ (by decide)).imp
      (fun _ h => ⟨h.1, by simpa [Event.isLint] using h.2⟩)⟩

set_option maxRecDepth 100000 in
/-- Counterexample to C11: the templates directory `/templates`
is given and holds the regular files `a.tmpl` and `c.tmpl`, but reading it
is refused. The run reaches the upload step, and `mimirtool` is invoked
with `alertmanager load <config> --address=... --id=...`: no template
argument, although a templates directory with two templates was given. -/
theorem unreadable_templates_dir_loads_no_templates :
    Example.fsTemplatesUnreadable.lookup "/templates" = some .dir ∧
      Example.fsTemplatesUnreadable.lookup "/templates/a.tmpl" =
        some (.file 0o644 "template a") ∧
      Example.fsTemplatesUnreadable.lookup "/templates/c.tmpl" =
        some (.file 0o600 "template c") ∧
      (MemFS.ReadDir "/templates" Example.fsTemplatesUnreadable).1 =
        .error (MemFS.pathError "open" "/templates" "permission denied") ∧
      (alertmanager.Sync (memOS 42 noEnv toolOk) "/am.yml" "/templates" "http://mimir:8080"
        "anonymous" "/tmp" Example.fsTemplatesUnreadable).events.filter Event.isExec =
        [Event.Exec "mimirtool"
            ["alertmanager", "verify", "/tmp/mal-sync-alertmanager-42/alertmanager-config.yml"]
            "" none,
          Event.Exec "mimirtool"
            ["alertmanager", "load", "/tmp/mal-sync-alertmanager-42/alertmanager-config.yml",
              "--address=http://mimir:8080", "--id=anonymous"] "" none] := by
  refine ⟨by decide, by decide, by decide, by decide, by decide⟩

/-- C11, amended: on every run of `alertmanager.Sync` that reaches the
upload step, `mimirtool` is invoked for upload exactly once, with the
arguments `alertmanager load <tempDir>/alertmanager-config.yml t1 .. tn
--address=<mimirAddress> --id=<mimirID>`, where `t1 .. tn` are the staged
copies `<tempDir>/templates/<name>` of the non-directory entries named
`*.tmpl` that `ReadDir` listed for the templates directory, in listing
order, and `n = 0` when no templates directory is given or when reading it
failed. The files the run created are the staged config file and
`t1 .. tn`. -/
theorem load_invoked_once_with_staged_templates (os : OS σ)
    (configFile templatesDir mimirAddress mimirID tempBaseDir : String) (s : σ)
    (hup : ∃ e ∈ (alertmanager.Sync os configFile templatesDir mimirAddress mimirID
      tempBaseDir s).events, e.isUpload = true) :
    ∃ output err,
      (alertmanager.Sync os configFile templatesDir mimirAddress mimirID
          tempBaseDir s).events.filter Event.isUpload =
        [Event.Exec "mimirtool"
          (["alertmanager", "load",
              filepath.Join [alertmanager.syncTempDir os tempBaseDir, "alertmanager-config.yml"]] ++
            templateArgs templatesDir (alertmanager.syncTempDir os tempBaseDir)
              (alertmanager.templatesListing os configFile templatesDir tempBaseDir s) ++
            ["--address=" ++ mimirAddress, "--id=" ++ mimirID]) output err] ∧
      createdFiles (alertmanager.Sync os configFile templatesDir mimirAddress mimirID
          tempBaseDir s).events =
        filepath.Join [alertmanager.syncTempDir os tempBaseDir, "alertmanager-config.yml"] ::
          templateArgs templatesDir (alertmanager.syncTempDir os tempBaseDir)
            (alertmanager.templatesListing os configFile templatesDir tempBaseDir s) := by
  rcases alertmanager.am_Sync_loads os configFile templatesDir mimirAddress mimirID tempBaseDir s
    with h | h
  · obtain ⟨e, he, hu⟩ := hup
    rw [h e he] at hu
    cases hu
  · exact h

set_option maxRecDepth 100000 in
/-- Witness of C11, amended: the templates directory lists `a.tmpl`, `b.txt`,
`c.tmpl` and the subdirectory `old.tmpl`; the run loads the staged config
file with the staged copies of `a.tmpl` and `c.tmpl`, in that order. -/
theorem load_invoked_once_with_staged_templates_witness :
    alertmanager.templatesListing (memOS 42 noEnv toolOk) "/am.yml" "/templates" "/tmp"
        Example.fsTemplates =
      .ok [⟨"a.tmpl", false⟩, ⟨"b.txt", false⟩, ⟨"c.tmpl", false⟩, ⟨"old.tmpl", true⟩] ∧
    (alertmanager.Sync (memOS 42 noEnv toolOk) "/am.yml" "/templates" "http://mimir:8080"
        "anonymous" "/tmp" Example.fsTemplates).events.filter Event.isUpload =
      [Event.Exec "mimirtool"
        ["alertmanager", "load", "/tmp/mal-sync-alertmanager-42/alertmanager-config.yml",
          "/tmp/mal-sync-alertmanager-42/templates/a.tmpl",
          "/tmp/mal-sync-alertmanager-42/templates/c.tmpl",
          "--address=http://mimir:8080", "--id=anonymous"] "" none] ∧
    ∃ output err,
      (alertmanager.Sync (memOS 42 noEnv toolOk) "/am.yml" "/templates" "http://mimir:8080"
          "anonymous" "/tmp" Example.fsTemplates).events.filter Event.isUpload =
        [Event.Exec "mimirtool"
          (["alertmanager", "load",
              filepath.Join [alertmanager.syncTempDir (memOS 42 noEnv toolOk) "/tmp",
                "alertmanager-config.yml"]] ++
            templateArgs "/templates" (alertmanager.syncTempDir (memOS 42 noEnv toolOk) "/tmp")
              (alertmanager.templatesListing (memOS 42 noEnv toolOk) "/am.yml" "/templates" "/tmp"
                Example.fsTemplates) ++
            ["--address=" ++ "http://mimir:8080", "--id=" ++ "anonymous"]) output err] ∧
      createdFiles (alertmanager.Sync (memOS 42 noEnv toolOk) "/am.yml" "/templates"
          "http://mimir:8080" "anonymous" "/tmp" Example.fsTemplates).events =
        filepath.Join [alertmanager.syncTempDir (memOS 42 noEnv toolOk) "/tmp",
            "alertmanager-config.yml"] ::
          templateArgs "/templates" (alertmanager.syncTempDir (memOS 42 noEnv toolOk) "/tmp")
            (alertmanager.templatesListing (memOS 42 noEnv toolOk) "/am.yml" "/templates" "/tmp"
              Example.fsTemplates) :=
  ⟨by decide, by decide,
    load_invoked_once_with_staged_templates (memOS 42 noEnv toolOk) "/am.yml" "/templates"
      "http://mimir:8080" "anonymous" "/tmp" Example.fsTemplates (by decide)⟩

/-- C12: for every source and destination path. On every operating
system, when `common.CopyFile src dst` returns nil, its calls were, all
without an error: `Stat src`, `Open src`, `Create dst`, the copy of the
data from the descriptor of `src` to the descriptor of `dst`, and
`Chmod dst` with the mode that the initial `Stat` returned (then the two
deferred `Close` calls). On the in-memory filesystem the file at `dst`
then has that mode, as far as `Chmod` sets it (so the same permission
bits), and the content of `dst` equals the content of `src`; when the two
paths differ this is the content `src` had before the call and `src` is
unchanged (when they are the same path, it is the file as `os.Create`
truncated it). And on every operating system, when `Stat` reports that
`src` is not a regular file, `CopyFile` returns the error
`<src> is not a regular file` after that one call: nothing is created, and
the state is the one `Stat` left. -/
theorem copy_keeps_mode_and_content (os : OS σ) (s : σ) (pid : Nat) (env : String → String)
    (tool : String → List String → String × error) (fs : MemFS) (src dst : String) :
    ((common.CopyFile os src dst s).val = none →
      ∃ fi source destination c1 c2,
        (os.Stat src s).1 = .ok fi ∧
        (common.CopyFile os src dst s).events =
          [.Sys (.Stat src) none, .Sys (.Open src) none, .Sys (.Create dst) none,
            .Sys (.Copy destination source) none, .Sys (.Chmod dst fi.Mode) none,
            .Sys (.Close destination) c1, .Sys (.Close source) c2]) ∧
    ((common.CopyFile (memOS pid env tool) src dst fs).val = none →
      ∃ fi content,
        (MemFS.Stat src fs).1 = .ok fi ∧
        (common.CopyFile (memOS pid env tool) src dst fs).st.modeOf dst =
          some (fi.Mode &&& FileMode.chmodBits) ∧
        ((common.CopyFile (memOS pid env tool) src dst fs).st.modeOf dst).map
            (fun mode => mode &&& FileMode.ModePerm) =
          some (fi.Mode &&& FileMode.ModePerm) ∧
        (common.CopyFile (memOS pid env tool) src dst fs).st.contentOf dst = some content ∧
        (common.CopyFile (memOS pid env tool) src dst fs).st.contentOf src = some content ∧
        (src ≠ dst → fs.contentOf src = some content ∧
          (common.CopyFile (memOS pid env tool) src dst fs).st.lookup src = fs.lookup src)) ∧
    (∀ fi, (os.Stat src s).1 = .ok fi → fi.Mode.IsRegular = false →
      (common.CopyFile os src dst s).val = some (Errorf (src ++ " is not a regular file")) ∧
      (common.CopyFile os src dst s).events = [Event.Sys (.Stat src) none] ∧
      createdFiles (common.CopyFile os src dst s).events = [] ∧
      (common.CopyFile os src dst s).st = (os.Stat src s).2) := by
  refine ⟨?_, ?_, ?_⟩
  · intro hok
    obtain ⟨fi, source, destination, c1, c2, hstat, -, -, -, hev⟩ :=
      CopyFile_ok_events os src dst s hok
    exact ⟨fi, source, destination, c1, c2, hstat, hev⟩
  · intro hok
    obtain ⟨fi, c0, hstat, hl0, hdst, hother⟩ := MemFS.CopyFile_ok_state pid env tool fs src dst hok
    refine ⟨fi, if src = dst then "" else c0, hstat, ?_, ?_, ?_, ?_, ?_⟩
    · simp [MemFS.modeOf, hdst]
    · simp [MemFS.modeOf, hdst, MemFS.and_chmodBits_perm]
    · simp [MemFS.contentOf, hdst]
    · by_cases h : src = dst
      · subst h
        simp [MemFS.contentOf, hdst]
      · simp [MemFS.contentOf, hother src h, hl0, h]
    · intro h
      exact ⟨by simp [MemFS.contentOf, hl0, h], hother src h⟩
  · intro fi hstat hreg
    rw [CopyFile_notRegular os src dst s fi hstat hreg]
    exact ⟨rfl, rfl, rfl, rfl⟩

set_option maxRecDepth 100000 in
/-- Witness of C12: copying `/rules/b.yml` (mode 0600) to `/tmp/b.yml`
leaves there a file with mode 0600 and the same content; copying the
directory `/rules` fails without a call after the `Stat`, and nothing is
at the destination afterwards. -/
theorem copy_keeps_mode_and_content_witness :
    (common.CopyFile (memOS 42 noEnv toolOk) "/rules/b.yml" "/tmp/b.yml" Example.fs).st.lookup
        "/tmp/b.yml" = some (.file 0o600 "groups: []") ∧
    (common.CopyFile (memOS 42 noEnv toolOk) "/rules" "/tmp/rules" Example.fs).st.lookup
        "/tmp/rules" = none ∧
    (∃ fi source destination c1 c2,
      ((memOS 42 noEnv toolOk).Stat "/rules/b.yml" Example.fs).1 = .ok fi ∧
      (common.CopyFile (memOS 42 noEnv toolOk) "/rules/b.yml" "/tmp/b.yml" Example.fs).events =
        [.Sys (.Stat "/rules/b.yml") none, .Sys (.Open "/rules/b.yml") none,
          .Sys (.Create "/tmp/b.yml") none, .Sys (.Copy destination source) none,
          .Sys (.Chmod "/tmp/b.yml" fi.Mode) none, .Sys (.Close destination) c1,
          .Sys (.Close source) c2]) ∧
    (∃ fi content,
      (MemFS.Stat "/rules/b.yml" Example.fs).1 = .ok fi ∧
      (common.CopyFile (memOS 42 noEnv toolOk) "/rules/b.yml" "/tmp/b.yml"
          Example.fs).st.modeOf "/tmp/b.yml" = some (fi.Mode &&& FileMode.chmodBits) ∧
      ((common.CopyFile (memOS 42 noEnv toolOk) "/rules/b.yml" "/tmp/b.yml"
          Example.fs).st.modeOf "/tmp/b.yml").map (fun mode => mode &&& FileMode.ModePerm) =
        some (fi.Mode &&& FileMode.ModePerm) ∧
      (common.CopyFile (memOS 42 noEnv toolOk) "/rules/b.yml" "/tmp/b.yml"
          Example.fs).st.contentOf "/tmp/b.yml" = some content ∧
      (common.CopyFile (memOS 42 noEnv toolOk) "/rules/b.yml" "/tmp/b.yml"
          Example.fs).st.contentOf "/rules/b.yml" = some content ∧
      ("/rules/b.yml" ≠ "/tmp/b.yml" → Example.fs.contentOf "/rules/b.yml" = some content ∧
        (common.CopyFile (memOS 42 noEnv toolOk) "/rules/b.yml" "/tmp/b.yml"
          Example.fs).st.lookup "/rules/b.yml" = Example.fs.lookup "/rules/b.yml")) ∧
    ((common.CopyFile (memOS 42 noEnv toolOk) "/rules" "/tmp/rules" Example.fs).val =
        some (Errorf ("/rules" ++ " is not a regular file")) ∧
      (common.CopyFile (memOS 42 noEnv toolOk) "/rules" "/tmp/rules" Example.fs).events =
        [Event.Sys (.Stat "/rules") none] ∧
      createdFiles (common.CopyFile (memOS 42 noEnv toolOk) "/rules" "/tmp/rules"
        Example.fs).events = [] ∧
      (common.CopyFile (memOS 42 noEnv toolOk) "/rules" "/tmp/rules" Example.fs).st =
        ((memOS 42 noEnv toolOk).Stat "/rules" Example.fs).2) :=
  ⟨by decide, by decide,
    (copy_keeps_mode_and_content (memOS 42 noEnv toolOk) Example.fs 42 noEnv toolOk Example.fs
      "/rules/b.yml" "/tmp/b.yml").1 (by decide),
    (copy_keeps_mode_and_content (memOS 42 noEnv toolOk) Example.fs 42 noEnv toolOk Example.fs
      "/rules/b.yml" "/tmp/b.yml").2.1 (by decide),
    (copy_keeps_mode_and_content (memOS 42 noEnv toolOk) Example.fs 42 noEnv toolOk Example.fs
      "/rules" "/tmp/rules").2.2 ⟨FileMode.ModeDir ||| 0o755⟩ (by decide) (by decide)⟩

end claims
